import Mathlib

/-!
MTHash cell-info operations (Trinity.C / Storage / MTHash / MTHash.CellInfo.cpp)

A shallow embedding of the six `CGetLockedCellInfo4*` entry points of the
per-trunk hash index, executed by one thread.

* Machine integers (`int32_t`, `uint16_t`, `cellid_t`, `char*`) are embedded as
  `Int` / `Nat`; no arithmetic of the six operations depends on wrap-around.
* A lock acquisition that finds the lock taken never returns in a one-thread
  execution; such a call has no result (`none`).  The same holds for a failed
  `assert` and for a chain walk that does not end.
* Every primitive appends one `Event` to the `trace` field of the state, so the
  order of lock, arena and store steps of a call can be read off afterwards.
-/

namespace Storage

/-- Result codes returned by the six operations. -/
inductive TrinityErrorCode
  | E_SUCCESS
  | E_CELL_NOT_FOUND
  | E_CELL_FOUND
  | E_DUPLICATED_CELL
  | E_WRONG_CELL_TYPE
  deriving DecidableEq, Repr

/-- One slot of `MTEntries`: key, chain link, type tag and the slot lock. -/
structure MTEntry where
  Key : Nat
  NextEntry : Int
  CellType : Nat
  EntryLock : Bool
  deriving DecidableEq, Repr

/-- One slot of `CellEntries`: the packed `(offset, size)` pair (`location`). -/
structure CellEntry where
  offset : Int
  size : Int
  deriving DecidableEq, Repr

/-- Steps of a call, in the order in which they are executed. -/
inductive Event
  | bucketLock (bucket_index : Nat)
  | bucketUnlock (bucket_index : Nat)
  | entryLock (entry_index : Int)
  | entryUnlock (entry_index : Int)
  | enterAlloc
  | leaveAlloc
  | addMemoryCell (size : Int) (entry_index : Int)
  | expandLargeObject (lo_index : Int) (original_size : Int) (new_size : Int)
  | markTrunkDirty
  | storeLocation (entry_index : Int) (offset : Int) (size : Int)
  | writeCellType (entry_index : Int) (type : Nat)
  | writeKey (entry_index : Int) (cellId : Nat)
  | writeNextEntry (entry_index : Int) (next : Int)
  | writeBucket (bucket_index : Nat) (entry_index : Int)
  deriving DecidableEq, Repr

/-- State of one `MTHash` together with its memory trunk of type `T`.
Arrays are total maps from the index; `EntryCount` is the capacity of
`MTEntries` / `CellEntries`. -/
structure MTHash (T : Type) where
  Buckets : Nat → Int
  BucketLocks : Nat → Bool
  MTEntries : Int → MTEntry
  CellEntries : Int → CellEntry
  EntryCount : Nat
  memory_trunk : T
  AllocLock : Bool
  TrunkDirty : Bool
  trace : List Event

/-- Collaborators of the six operations whose code is outside
`MTHash.CellInfo.cpp`; they are parameters of the embedding.
`AddMemoryCell t size entry_index` returns the offset encoding and the new
trunk, `ExpandLargeObject t lo_index original_size new_size` the new trunk. -/
structure Env (T : Type) where
  CellTypeEnabled : Bool
  GetBucketIndex : Nat → Nat
  FindFreeEntry : MTHash T → Int
  AddMemoryCell : T → Int → Int → Int × T
  ExpandLargeObject : T → Int → Int → Int → T
  LOPtrs : T → Int → Int
  trunkPtr : T → Int

/-- The reference parameters (`OUT`, `IN OUT`) of the six operations.  An
operation that has no such parameter, or does not assign it on some path,
leaves the field as it was. -/
structure OutParams where
  size : Int
  type : Nat
  cellPtr : Int
  entryIndex : Int
  deriving DecidableEq, Repr

variable {T : Type}

/-! ## Primitives used by the operations -/

/-- Modelled from the spec: `GetBucketLock` (MTHash.h, absent) takes the lock of
one bucket; a taken lock is waited for. -/
def GetBucketLock (bucket_index : Nat) (s : MTHash T) : Option (MTHash T) :=
  if s.BucketLocks bucket_index then none
  else some { s with
    BucketLocks := Function.update s.BucketLocks bucket_index true
    trace := s.trace ++ [Event.bucketLock bucket_index] }

/-- Modelled from the spec: `ReleaseBucketLock` (MTHash.h, absent). -/
def ReleaseBucketLock (bucket_index : Nat) (s : MTHash T) : MTHash T :=
  { s with
    BucketLocks := Function.update s.BucketLocks bucket_index false
    trace := s.trace ++ [Event.bucketUnlock bucket_index] }

/-- Modelled from the spec: `TryGetEntryLock` (MTHash.h, absent) takes the
exclusive lock of a slot when it is available and reports whether it did. -/
def TryGetEntryLock (entry_index : Int) (s : MTHash T) : Bool × MTHash T :=
  if (s.MTEntries entry_index).EntryLock then (false, s)
  else (true, { s with
    MTEntries := Function.update s.MTEntries entry_index
      { s.MTEntries entry_index with EntryLock := true }
    trace := s.trace ++ [Event.entryLock entry_index] })

/-- Modelled from the spec: the lock-on-find traversal acquires the matching
slot's exclusive lock before `found` runs; a taken lock is waited for. -/
def GetEntryLock (entry_index : Int) (s : MTHash T) : Option (MTHash T) :=
  if (TryGetEntryLock entry_index s).1 then some (TryGetEntryLock entry_index s).2 else none

/-- Modelled from the spec: `ReleaseEntryLock` (MTHash.h, absent). -/
def ReleaseEntryLock (entry_index : Int) (s : MTHash T) : MTHash T :=
  { s with
    MTEntries := Function.update s.MTEntries entry_index
      { s.MTEntries entry_index with EntryLock := false }
    trace := s.trace ++ [Event.entryUnlock entry_index] }

/-- Modelled from the spec: `ENTER_ALLOCMEM_CELLENTRY_UPDATE_CRITICAL_SECTION`
(macro, absent) enters the single allocation critical section of the trunk. -/
def ENTER_ALLOCMEM_CELLENTRY_UPDATE_CRITICAL_SECTION (s : MTHash T) : Option (MTHash T) :=
  if s.AllocLock then none
  else some { s with AllocLock := true, trace := s.trace ++ [Event.enterAlloc] }

/-- Modelled from the spec: `LEAVE_ALLOCMEM_CELLENTRY_UPDATE_CRITICAL_SECTION`
(macro, absent). -/
def LEAVE_ALLOCMEM_CELLENTRY_UPDATE_CRITICAL_SECTION (s : MTHash T) : MTHash T :=
  { s with AllocLock := false, trace := s.trace ++ [Event.leaveAlloc] }

/-- Modelled from the spec: `CellSize` (MTHash.h, absent) is the size stored in
the location pair of the slot. -/
def CellSize (s : MTHash T) (entry_index : Int) : Int :=
  (s.CellEntries entry_index).size

/-- Modelled from the spec: `MarkTrunkDirty` (MTHash.h, absent). -/
def MarkTrunkDirty (s : MTHash T) : MTHash T :=
  { s with TrunkDirty := true, trace := s.trace ++ [Event.markTrunkDirty] }

/-- The call `memory_trunk->AddMemoryCell(size, entry_index)`. -/
def AddMemoryCell (env : Env T) (size : Int) (entry_index : Int) (s : MTHash T) :
    Int × MTHash T :=
  ((env.AddMemoryCell s.memory_trunk size entry_index).1,
   { s with
     memory_trunk := (env.AddMemoryCell s.memory_trunk size entry_index).2
     trace := s.trace ++ [Event.addMemoryCell size entry_index] })

/-- The call `memory_trunk->ExpandLargeObject(lo_index, original_size, new_size)`. -/
def ExpandLargeObject (env : Env T) (lo_index original_size new_size : Int)
    (s : MTHash T) : MTHash T :=
  { s with
    memory_trunk := env.ExpandLargeObject s.memory_trunk lo_index original_size new_size
    trace := s.trace ++ [Event.expandLargeObject lo_index original_size new_size] }

/-- The output block `if (cell_offset < 0) cellPtr = memory_trunk->LOPtrs[-cell_offset];
else cellPtr = memory_trunk->trunkPtr + cell_offset;`, which every path of the
six operations that assigns `cellPtr` repeats. -/
def resolve (env : Env T) (t : T) (cell_offset : Int) : Int :=
  if cell_offset < 0 then env.LOPtrs t (-cell_offset) else env.trunkPtr t + cell_offset

/-- The atomic store `(CellEntryAtomicPtr + entry_index)->store(entry.location)`
of the pair `{ offset, size }`. -/
def StoreLocation (entry_index : Int) (entry : CellEntry) (s : MTHash T) : MTHash T :=
  { s with
    CellEntries := Function.update s.CellEntries entry_index entry
    trace := s.trace ++ [Event.storeLocation entry_index entry.offset entry.size] }

/-- The assignment `MTEntries[entry_index].CellType = type`. -/
def WriteCellType (entry_index : Int) (type : Nat) (s : MTHash T) : MTHash T :=
  { s with
    MTEntries := Function.update s.MTEntries entry_index
      { s.MTEntries entry_index with CellType := type }
    trace := s.trace ++ [Event.writeCellType entry_index type] }

/-- The assignment `MTEntries[free_entry].Key = cellId`. -/
def WriteKey (entry_index : Int) (cellId : Nat) (s : MTHash T) : MTHash T :=
  { s with
    MTEntries := Function.update s.MTEntries entry_index
      { s.MTEntries entry_index with Key := cellId }
    trace := s.trace ++ [Event.writeKey entry_index cellId] }

/-- The assignment `MTEntries[free_entry].NextEntry = Buckets[bucket_index]`. -/
def WriteNextEntry (entry_index : Int) (next : Int) (s : MTHash T) : MTHash T :=
  { s with
    MTEntries := Function.update s.MTEntries entry_index
      { s.MTEntries entry_index with NextEntry := next }
    trace := s.trace ++ [Event.writeNextEntry entry_index next] }

/-- The assignment `Buckets[bucket_index] = free_entry`. -/
def WriteBucket (bucket_index : Nat) (entry_index : Int) (s : MTHash T) : MTHash T :=
  { s with
    Buckets := Function.update s.Buckets bucket_index entry_index
    trace := s.trace ++ [Event.writeBucket bucket_index entry_index] }

/-! ## The two lookup helpers -/

/-- Modelled from the spec: the chain walk of `_Lookup_*_Or_NotFound` (MTHash.h,
absent): starting at the chain head it compares keys until a slot matches or
the chain ends at a negative link.  `none`: the walk did not end within `fuel`
steps; `some none`: no match; `some (some (entry_index, previous_entry_index))`:
first match. -/
def walkChain (MTEntries : Int → MTEntry) (cellId : Nat) :
    Nat → Int → Int → Option (Option (Int × Int))
  | 0, _, _ => none
  | fuel + 1, entry_index, previous_entry_index =>
    if entry_index < 0 then some none
    else if (MTEntries entry_index).Key = cellId then
      some (some (entry_index, previous_entry_index))
    else walkChain MTEntries cellId fuel (MTEntries entry_index).NextEntry entry_index

/-- The chain walk for `cellId` in state `s`, from the head of its bucket.  A
chain of a table with `EntryCount` slots that ends has at most `EntryCount`
slots, so `EntryCount + 1` steps reach its end. -/
def findEntry (env : Env T) (cellId : Nat) (s : MTHash T) : Option (Option (Int × Int)) :=
  walkChain s.MTEntries cellId (s.EntryCount + 1) (s.Buckets (env.GetBucketIndex cellId)) (-1)

/-- Result of an operation: code, reference parameters, final state. -/
abbrev Outcome (T : Type) := Option (TrinityErrorCode × OutParams × MTHash T)

/-- Modelled from the spec: `_Lookup_LockEntry_Or_NotFound` (MTHash.h, absent).
Locks the bucket of `cellId`, walks the chain; on a match it acquires the slot's
exclusive lock and runs `found entry_index bucket_index previous`, otherwise it
runs `notfound bucket_index`, in both cases with the bucket lock still held. -/
def _Lookup_LockEntry_Or_NotFound (env : Env T) (cellId : Nat)
    (found : Int → Nat → Int → MTHash T → Outcome T)
    (notfound : Nat → MTHash T → Outcome T) (s : MTHash T) : Outcome T :=
  match GetBucketLock (env.GetBucketIndex cellId) s with
  | none => none
  | some s1 =>
    match findEntry env cellId s1 with
    | none => none
    | some none => notfound (env.GetBucketIndex cellId) s1
    | some (some (entry_index, previous_entry_index)) =>
      match GetEntryLock entry_index s1 with
      | none => none
      | some s2 => found entry_index (env.GetBucketIndex cellId) previous_entry_index s2

/-- Modelled from the spec: `_Lookup_NoLockEntry_Or_NotFound` (MTHash.h, absent).
The same traversal, but the slot lock is not acquired on a match. -/
def _Lookup_NoLockEntry_Or_NotFound (env : Env T) (cellId : Nat)
    (found : Int → Nat → Int → MTHash T → Outcome T)
    (notfound : Nat → MTHash T → Outcome T) (s : MTHash T) : Outcome T :=
  match GetBucketLock (env.GetBucketIndex cellId) s with
  | none => none
  | some s1 =>
    match findEntry env cellId s1 with
    | none => none
    | some none => notfound (env.GetBucketIndex cellId) s1
    | some (some (entry_index, previous_entry_index)) =>
      found entry_index (env.GetBucketIndex cellId) previous_entry_index s1

/-! ## The six operations of `MTHash.CellInfo.cpp` -/

namespace MTHash

open TrinityErrorCode

/-- `found` continuation of `CGetLockedCellInfo4CellAccessor` (lines 15-33). -/
def CGetLockedCellInfo4CellAccessor.found (env : Env T) (out : OutParams)
    (entry_index : Int) (bucket_index : Nat) (_prev : Int) (s : MTHash T) : Outcome T :=
  let s1 := ReleaseBucketLock bucket_index s
  let cell_offset := (s1.CellEntries entry_index).offset
  let out1 := { out with size := CellSize s1 entry_index }
  let out2 := if env.CellTypeEnabled then
      { out1 with type := (s1.MTEntries entry_index).CellType } else out1
  let out3 := { out2 with
    cellPtr := resolve env s1.memory_trunk cell_offset
    entryIndex := entry_index }
  some (E_SUCCESS, out3, s1)

/-- `notfound` continuation of `CGetLockedCellInfo4CellAccessor` (lines 34-38). -/
def CGetLockedCellInfo4CellAccessor.notfound (out : OutParams)
    (bucket_index : Nat) (s : MTHash T) : Outcome T :=
  some (E_CELL_NOT_FOUND, out, ReleaseBucketLock bucket_index s)

/-- `MTHash::CGetLockedCellInfo4CellAccessor(cellId, cellSize, type, cellPtr, entryIndex)`. -/
def CGetLockedCellInfo4CellAccessor (env : Env T) (cellId : Nat) (out : OutParams)
    (s : MTHash T) : Outcome T :=
  _Lookup_LockEntry_Or_NotFound env cellId
    (CGetLockedCellInfo4CellAccessor.found env out)
    (CGetLockedCellInfo4CellAccessor.notfound out) s

/-- `found` continuation of `CGetLockedCellInfo4SaveCell` (lines 46-86). -/
def CGetLockedCellInfo4SaveCell.found (env : Env T) (size : Int) (type : Nat)
    (out : OutParams) (entry_index : Int) (bucket_index : Nat) (_prev : Int)
    (s : MTHash T) : Outcome T :=
  let s1 := ReleaseBucketLock bucket_index s
  let updated_cell_offset := (s1.CellEntries entry_index).offset
  match ENTER_ALLOCMEM_CELLENTRY_UPDATE_CRITICAL_SECTION s1 with
  | none => none
  | some s2 =>
    let grown : Int × MTHash T :=
      if size > CellSize s2 entry_index then
        if updated_cell_offset < 0 then
          (updated_cell_offset,
            ExpandLargeObject env (-updated_cell_offset) (CellSize s2 entry_index) size s2)
        else
          ((AddMemoryCell env size entry_index s2).1,
            MarkTrunkDirty (AddMemoryCell env size entry_index s2).2)
      else (updated_cell_offset, s2)
    let out1 := { out with
      cellPtr := resolve env grown.2.memory_trunk grown.1
      entryIndex := entry_index }
    let s3 := StoreLocation entry_index { offset := grown.1, size := size } grown.2
    let s4 := LEAVE_ALLOCMEM_CELLENTRY_UPDATE_CRITICAL_SECTION s3
    let s5 := if env.CellTypeEnabled then WriteCellType entry_index type s4 else s4
    some (E_SUCCESS, out1, s5)

/-- `notfound` continuation of `CGetLockedCellInfo4SaveCell` (lines 87-127). -/
def CGetLockedCellInfo4SaveCell.notfound (env : Env T) (cellId : Nat) (size : Int)
    (type : Nat) (out : OutParams) (bucket_index : Nat) (s : MTHash T) : Outcome T :=
  let free_entry := env.FindFreeEntry s
  let eResult := TryGetEntryLock free_entry s
  if eResult.1 = false then none
  else
    let s1 := WriteKey free_entry cellId eResult.2
    let s2 := WriteNextEntry free_entry (s1.Buckets bucket_index) s1
    let s3 := WriteBucket bucket_index free_entry s2
    let s4 := ReleaseBucketLock bucket_index s3
    match ENTER_ALLOCMEM_CELLENTRY_UPDATE_CRITICAL_SECTION s4 with
    | none => none
    | some s5 =>
      let cell := AddMemoryCell env size free_entry s5
      let out1 := { out with
        cellPtr := resolve env cell.2.memory_trunk cell.1
        entryIndex := free_entry }
      let s6 := if env.CellTypeEnabled then WriteCellType free_entry type cell.2 else cell.2
      let s7 := StoreLocation free_entry { offset := cell.1, size := size } s6
      let s8 := LEAVE_ALLOCMEM_CELLENTRY_UPDATE_CRITICAL_SECTION s7
      some (E_SUCCESS, out1, s8)

/-- `MTHash::CGetLockedCellInfo4SaveCell(cellId, size, type, cellPtr, entryIndex)`. -/
def CGetLockedCellInfo4SaveCell (env : Env T) (cellId : Nat) (size : Int) (type : Nat)
    (out : OutParams) (s : MTHash T) : Outcome T :=
  _Lookup_LockEntry_Or_NotFound env cellId
    (CGetLockedCellInfo4SaveCell.found env size type out)
    (CGetLockedCellInfo4SaveCell.notfound env cellId size type out) s

/-- `found` continuation of `CGetLockedCellInfo4AddCell` (lines 133-136). -/
def CGetLockedCellInfo4AddCell.found (out : OutParams)
    (_entry_index : Int) (bucket_index : Nat) (_prev : Int) (s : MTHash T) : Outcome T :=
  some (E_DUPLICATED_CELL, out, ReleaseBucketLock bucket_index s)

/-- `notfound` continuation of `CGetLockedCellInfo4AddCell` (lines 137-174). -/
def CGetLockedCellInfo4AddCell.notfound (env : Env T) (cellId : Nat) (size : Int)
    (type : Nat) (out : OutParams) (bucket_index : Nat) (s : MTHash T) : Outcome T :=
  let free_entry := env.FindFreeEntry s
  let eResult := TryGetEntryLock free_entry s
  if eResult.1 = false then none
  else
    let s1 := WriteKey free_entry cellId eResult.2
    let s2 := WriteNextEntry free_entry (s1.Buckets bucket_index) s1
    let s3 := WriteBucket bucket_index free_entry s2
    let s4 := ReleaseBucketLock bucket_index s3
    match ENTER_ALLOCMEM_CELLENTRY_UPDATE_CRITICAL_SECTION s4 with
    | none => none
    | some s5 =>
      let cell := AddMemoryCell env size free_entry s5
      let out1 := { out with
        cellPtr := resolve env cell.2.memory_trunk cell.1
        entryIndex := free_entry }
      let s6 := if env.CellTypeEnabled then WriteCellType free_entry type cell.2 else cell.2
      let s7 := StoreLocation free_entry { offset := cell.1, size := size } s6
      let s8 := LEAVE_ALLOCMEM_CELLENTRY_UPDATE_CRITICAL_SECTION s7
      some (E_SUCCESS, out1, s8)

/-- `MTHash::CGetLockedCellInfo4AddCell(cellId, size, type, cellPtr, entryIndex)`. -/
def CGetLockedCellInfo4AddCell (env : Env T) (cellId : Nat) (size : Int) (type : Nat)
    (out : OutParams) (s : MTHash T) : Outcome T :=
  _Lookup_NoLockEntry_Or_NotFound env cellId
    (CGetLockedCellInfo4AddCell.found out)
    (CGetLockedCellInfo4AddCell.notfound env cellId size type out) s

/-- `found` continuation of `CGetLockedCellInfo4UpdateCell` (lines 182-217). -/
def CGetLockedCellInfo4UpdateCell.found (env : Env T) (size : Int)
    (out : OutParams) (entry_index : Int) (bucket_index : Nat) (_prev : Int)
    (s : MTHash T) : Outcome T :=
  let s1 := ReleaseBucketLock bucket_index s
  let updated_cell_offset := (s1.CellEntries entry_index).offset
  match ENTER_ALLOCMEM_CELLENTRY_UPDATE_CRITICAL_SECTION s1 with
  | none => none
  | some s2 =>
    let grown : Int × MTHash T :=
      if size > CellSize s2 entry_index then
        if updated_cell_offset < 0 then
          (updated_cell_offset,
            ExpandLargeObject env (-updated_cell_offset) (CellSize s2 entry_index) size s2)
        else
          ((AddMemoryCell env size entry_index s2).1,
            MarkTrunkDirty (AddMemoryCell env size entry_index s2).2)
      else (updated_cell_offset, s2)
    let out1 := { out with
      cellPtr := resolve env grown.2.memory_trunk grown.1
      entryIndex := entry_index }
    let s3 := StoreLocation entry_index { offset := grown.1, size := size } grown.2
    let s4 := LEAVE_ALLOCMEM_CELLENTRY_UPDATE_CRITICAL_SECTION s3
    some (E_SUCCESS, out1, s4)

/-- `notfound` continuation of `CGetLockedCellInfo4UpdateCell` (lines 218-221). -/
def CGetLockedCellInfo4UpdateCell.notfound (out : OutParams)
    (bucket_index : Nat) (s : MTHash T) : Outcome T :=
  some (E_CELL_NOT_FOUND, out, ReleaseBucketLock bucket_index s)

/-- `MTHash::CGetLockedCellInfo4UpdateCell(cellId, size, cellPtr, entryIndex)`. -/
def CGetLockedCellInfo4UpdateCell (env : Env T) (cellId : Nat) (size : Int)
    (out : OutParams) (s : MTHash T) : Outcome T :=
  _Lookup_LockEntry_Or_NotFound env cellId
    (CGetLockedCellInfo4UpdateCell.found env size out)
    (CGetLockedCellInfo4UpdateCell.notfound out) s

/-- `found` continuation of `CGetLockedCellInfo4LoadCell` (lines 229-242). -/
def CGetLockedCellInfo4LoadCell.found (env : Env T) (out : OutParams)
    (entry_index : Int) (bucket_index : Nat) (_prev : Int) (s : MTHash T) : Outcome T :=
  let s1 := ReleaseBucketLock bucket_index s
  let cell_offset := (s1.CellEntries entry_index).offset
  let out1 := { out with
    size := CellSize s1 entry_index
    cellPtr := resolve env s1.memory_trunk cell_offset
    entryIndex := entry_index }
  some (E_SUCCESS, out1, s1)

/-- `notfound` continuation of `CGetLockedCellInfo4LoadCell` (lines 243-246). -/
def CGetLockedCellInfo4LoadCell.notfound (out : OutParams)
    (bucket_index : Nat) (s : MTHash T) : Outcome T :=
  some (E_CELL_NOT_FOUND, out, ReleaseBucketLock bucket_index s)

/-- `MTHash::CGetLockedCellInfo4LoadCell(cellId, size, cellPtr, entryIndex)`. -/
def CGetLockedCellInfo4LoadCell (env : Env T) (cellId : Nat) (out : OutParams)
    (s : MTHash T) : Outcome T :=
  _Lookup_LockEntry_Or_NotFound env cellId
    (CGetLockedCellInfo4LoadCell.found env out)
    (CGetLockedCellInfo4LoadCell.notfound out) s

/-- `found` continuation of `CGetLockedCellInfo4AddOrUseCell` (lines 254-276). -/
def CGetLockedCellInfo4AddOrUseCell.found (env : Env T) (type : Nat) (out : OutParams)
    (entry_index : Int) (bucket_index : Nat) (_prev : Int) (s : MTHash T) : Outcome T :=
  let s1 := ReleaseBucketLock bucket_index s
  let cell_offset := (s1.CellEntries entry_index).offset
  let out1 := { out with
    size := CellSize s1 entry_index
    cellPtr := resolve env s1.memory_trunk cell_offset
    entryIndex := entry_index }
  if env.CellTypeEnabled = true ∧ (s1.MTEntries entry_index).CellType ≠ type then
    some (E_WRONG_CELL_TYPE, out1, ReleaseEntryLock entry_index s1)
  else
    some (E_CELL_FOUND, out1, s1)

/-- `notfound` continuation of `CGetLockedCellInfo4AddOrUseCell` (lines 277-316).
The `IN OUT` parameter `size` is read from `out.size` and not assigned. -/
def CGetLockedCellInfo4AddOrUseCell.notfound (env : Env T) (cellId : Nat)
    (type : Nat) (out : OutParams) (bucket_index : Nat) (s : MTHash T) : Outcome T :=
  let free_entry := env.FindFreeEntry s
  let eResult := TryGetEntryLock free_entry s
  if eResult.1 = false then none
  else
    let s1 := WriteKey free_entry cellId eResult.2
    let s2 := WriteNextEntry free_entry (s1.Buckets bucket_index) s1
    let s3 := WriteBucket bucket_index free_entry s2
    let s4 := ReleaseBucketLock bucket_index s3
    match ENTER_ALLOCMEM_CELLENTRY_UPDATE_CRITICAL_SECTION s4 with
    | none => none
    | some s5 =>
      let cell := AddMemoryCell env out.size free_entry s5
      let out1 := { out with
        cellPtr := resolve env cell.2.memory_trunk cell.1
        entryIndex := free_entry }
      let s6 := if env.CellTypeEnabled then WriteCellType free_entry type cell.2 else cell.2
      let s7 := StoreLocation free_entry { offset := cell.1, size := out.size } s6
      let s8 := LEAVE_ALLOCMEM_CELLENTRY_UPDATE_CRITICAL_SECTION s7
      some (E_CELL_NOT_FOUND, out1, s8)

/-- `MTHash::CGetLockedCellInfo4AddOrUseCell(cellId, size, type, cellPtr, entryIndex)`;
the value of the `IN OUT` parameter `size` at the call is `out.size`. -/
def CGetLockedCellInfo4AddOrUseCell (env : Env T) (cellId : Nat) (type : Nat)
    (out : OutParams) (s : MTHash T) : Outcome T :=
  _Lookup_LockEntry_Or_NotFound env cellId
    (CGetLockedCellInfo4AddOrUseCell.found env type out)
    (CGetLockedCellInfo4AddOrUseCell.notfound env cellId type out) s

/-- A call of one of the six operations with its value arguments. -/
inductive Call
  | CellAccessor (cellId : Nat)
  | SaveCell (cellId : Nat) (size : Int) (type : Nat)
  | AddCell (cellId : Nat) (size : Int) (type : Nat)
  | UpdateCell (cellId : Nat) (size : Int)
  | LoadCell (cellId : Nat)
  | AddOrUseCell (cellId : Nat) (type : Nat)

/-- Runs a call. -/
def Call.run (env : Env T) : Call → OutParams → MTHash T → Outcome T
  | .CellAccessor cellId => CGetLockedCellInfo4CellAccessor env cellId
  | .SaveCell cellId size type => CGetLockedCellInfo4SaveCell env cellId size type
  | .AddCell cellId size type => CGetLockedCellInfo4AddCell env cellId size type
  | .UpdateCell cellId size => CGetLockedCellInfo4UpdateCell env cellId size
  | .LoadCell cellId => CGetLockedCellInfo4LoadCell env cellId
  | .AddOrUseCell cellId type => CGetLockedCellInfo4AddOrUseCell env cellId type

/-- The success signals of a call: `E_SUCCESS`, and for add-or-use
`E_CELL_FOUND` and `E_CELL_NOT_FOUND`. -/
def Call.isSuccessSignal : Call → TrinityErrorCode → Prop
  | .AddOrUseCell _ _, r => r = E_CELL_FOUND ∨ r = E_CELL_NOT_FOUND
  | _, r => r = E_SUCCESS

/-- The failure results of a call: `E_CELL_NOT_FOUND` for accessor, update and
load, `E_DUPLICATED_CELL` for add, `E_WRONG_CELL_TYPE` for add-or-use. -/
def Call.isFailure : Call → TrinityErrorCode → Prop
  | .CellAccessor _, r => r = E_CELL_NOT_FOUND
  | .UpdateCell _ _, r => r = E_CELL_NOT_FOUND
  | .LoadCell _, r => r = E_CELL_NOT_FOUND
  | .AddCell _ _ _, r => r = E_DUPLICATED_CELL
  | .AddOrUseCell _ _, r => r = E_WRONG_CELL_TYPE
  | .SaveCell _ _ _, _ => False

end MTHash


/-! ## States along the paths of the operations

Names for the states that the paths of the operations pass through; the
lemmas below show that the operations compute exactly these. -/

/-- State after `GetBucketLock` has taken the lock. -/
def lockedBucket (b : Nat) (s : MTHash T) : MTHash T :=
  { s with
    BucketLocks := Function.update s.BucketLocks b true
    trace := s.trace ++ [Event.bucketLock b] }

/-- State after the slot lock has been taken. -/
def lockedEntry (e : Int) (s : MTHash T) : MTHash T :=
  { s with
    MTEntries := Function.update s.MTEntries e { s.MTEntries e with EntryLock := true }
    trace := s.trace ++ [Event.entryLock e] }

/-- State after the allocation critical section has been entered. -/
def enteredAlloc (s : MTHash T) : MTHash T :=
  { s with AllocLock := true, trace := s.trace ++ [Event.enterAlloc] }


/-- The growth step of the hit paths of save and update (lines 55-64 and
189-198): the offset to publish and the state after the arena calls. -/
def grown (env : Env T) (size : Int) (e : Int) (s : MTHash T) : Int × MTHash T :=
  if size > CellSize s e then
    if (s.CellEntries e).offset < 0 then
      ((s.CellEntries e).offset,
        ExpandLargeObject env (-(s.CellEntries e).offset) (CellSize s e) size s)
    else
      ((AddMemoryCell env size e s).1, MarkTrunkDirty (AddMemoryCell env size e s).2)
  else ((s.CellEntries e).offset, s)

/-- The guarded assignment `if (CellTypeEnabled) MTEntries[e].CellType = type`. -/
def setType (env : Env T) (e : Int) (type : Nat) (s : MTHash T) : MTHash T :=
  if env.CellTypeEnabled then WriteCellType e type s else s

/-- State of a hit path of save or update after the location pair is stored and
the critical section is left. -/
def regrown (env : Env T) (size : Int) (e : Int) (b : Nat) (s : MTHash T) : MTHash T :=
  LEAVE_ALLOCMEM_CELLENTRY_UPDATE_CRITICAL_SECTION
    (StoreLocation e
      { offset := (grown env size e (enteredAlloc (ReleaseBucketLock b s))).1, size := size }
      (grown env size e (enteredAlloc (ReleaseBucketLock b s))).2)

/-- State of a miss path after the free slot is locked and linked and the
bucket lock is released. -/
def linked (env : Env T) (cellId : Nat) (b : Nat) (s : MTHash T) : MTHash T :=
  ReleaseBucketLock b
    (WriteBucket b (env.FindFreeEntry s)
      (WriteNextEntry (env.FindFreeEntry s) (s.Buckets b)
        (WriteKey (env.FindFreeEntry s) cellId (lockedEntry (env.FindFreeEntry s) s))))

/-- Offset and state of a miss path after `AddMemoryCell`. -/
def linkedAlloc (env : Env T) (cellId : Nat) (size : Int) (b : Nat) (s : MTHash T) :
    Int × MTHash T :=
  AddMemoryCell env size (env.FindFreeEntry s) (enteredAlloc (linked env cellId b s))

/-- Final state of a miss path. -/
def published (env : Env T) (cellId : Nat) (size : Int) (type : Nat) (b : Nat)
    (s : MTHash T) : MTHash T :=
  LEAVE_ALLOCMEM_CELLENTRY_UPDATE_CRITICAL_SECTION
    (StoreLocation (env.FindFreeEntry s)
      { offset := (linkedAlloc env cellId size b s).1, size := size }
      (setType env (env.FindFreeEntry s) type (linkedAlloc env cellId size b s).2))

/-- Slot `e` is on the chain that starts at slot index `head`: it is reached
from `head` through `NextEntry` links over non-negative indices. -/
inductive InChain (E : Int → MTEntry) : Int → Int → Prop
  | head {h : Int} : 0 ≤ h → InChain E h h
  | next {h e : Int} : 0 ≤ h → InChain E (E h).NextEntry e → InChain E h e

/-- Some slot on the chain of the bucket of `cellId` has key `cellId`. -/
def KeyInChain (env : Env T) (cellId : Nat) (s : MTHash T) : Prop :=
  ∃ e, InChain s.MTEntries (s.Buckets (env.GetBucketIndex cellId)) e ∧
    (s.MTEntries e).Key = cellId

/-- Everything but the entry locks and the trace of `s1` is as in `s`: bucket
heads, keys, links, type tags, location pairs, capacity, arena, dirty flag,
bucket locks and the allocation section. -/
def SameButEntryLocks (s1 s : MTHash T) : Prop :=
  s1.Buckets = s.Buckets ∧
  (∀ x, (s1.MTEntries x).Key = (s.MTEntries x).Key ∧
    (s1.MTEntries x).NextEntry = (s.MTEntries x).NextEntry ∧
    (s1.MTEntries x).CellType = (s.MTEntries x).CellType) ∧
  s1.CellEntries = s.CellEntries ∧ s1.EntryCount = s.EntryCount ∧
  s1.memory_trunk = s.memory_trunk ∧ s1.TrunkDirty = s.TrunkDirty ∧
  s1.AllocLock = s.AllocLock ∧ s1.BucketLocks = s.BucketLocks

/-- Final state of a returned call (`d` when the call has no result). -/
def finalState (o : Outcome T) (d : MTHash T) : MTHash T :=
  match o with
  | some r => r.2.2
  | none => d

/-! ## A small concrete trunk and table, used to run the operations -/

/-- A bump-allocated trunk: `head` is the next free inline offset, `loCount`
the number of large objects; sizes from 100 on are stored as large objects. -/
structure DemoTrunk where
  head : Int
  loCount : Int
  deriving DecidableEq, Repr

/-- Collaborators for `DemoTrunk`: two buckets, the free slot is slot 2. -/
def demoEnv (typed : Bool) : Env DemoTrunk where
  CellTypeEnabled := typed
  GetBucketIndex := fun cellId => cellId % 2
  FindFreeEntry := fun _ => 2
  AddMemoryCell := fun t size _ =>
    if size < 100 then (t.head, { t with head := t.head + size })
    else (-(t.loCount + 1), { t with loCount := t.loCount + 1 })
  ExpandLargeObject := fun t _ _ _ => t
  LOPtrs := fun _ i => 100000 * i
  trunkPtr := fun _ => 5000

/-- A table with four slots: cell 7 (type 1, 8 bytes at inline offset 0) in
slot 0 and cell 9 (type 3, 200 bytes, large object 1) in slot 1, both in
bucket 1; bucket 0 is empty. -/
def demoTable : MTHash DemoTrunk where
  Buckets := fun b => if b = 1 then 0 else -1
  BucketLocks := fun _ => false
  MTEntries := fun e =>
    if e = 0 then { Key := 7, NextEntry := 1, CellType := 1, EntryLock := false }
    else if e = 1 then { Key := 9, NextEntry := -1, CellType := 3, EntryLock := false }
    else { Key := 0, NextEntry := -1, CellType := 0, EntryLock := false }
  CellEntries := fun e =>
    if e = 0 then { offset := 0, size := 8 }
    else if e = 1 then { offset := -1, size := 200 }
    else { offset := 0, size := 0 }
  EntryCount := 4
  memory_trunk := { head := 8, loCount := 1 }
  AllocLock := false
  TrunkDirty := false
  trace := []

/-- Initial values of the reference parameters in the runs below. -/
def demoOut : OutParams := { size := 0, type := 0, cellPtr := 0, entryIndex := -1 }


/-- The table after `SaveCell(7, 20, 5)` on `demoTable` with tagging enabled
(cell 7 is relocated and retagged). -/
def demoSaved : MTHash DemoTrunk :=
  finalState (MTHash.CGetLockedCellInfo4SaveCell (demoEnv true) 7 20 5 demoOut demoTable)
    demoTable

/-- The table after `SaveCell(7, 3, 5)` on `demoTable` (cell 7 shrinks from 8
to 3 bytes). -/
def demoShrunk : MTHash DemoTrunk :=
  finalState (MTHash.CGetLockedCellInfo4SaveCell (demoEnv true) 7 3 5 demoOut demoTable)
    demoTable

/-- The table `demoTable` while another caller holds the lock of slot 1 (cell 9)
and is inside the allocation critical section. -/
def demoBusy : MTHash DemoTrunk :=
  { demoTable with
    MTEntries := fun e =>
      if e = 1 then { Key := 9, NextEntry := -1, CellType := 3, EntryLock := true }
      else demoTable.MTEntries e
    AllocLock := true }

/-- The table after `AddOrUseCell(4, size = 16, type = 5)` on `demoTable` with
tagging enabled (cell 4 is absent and is created in slot 2). -/
def demoCreated : MTHash DemoTrunk :=
  finalState (MTHash.CGetLockedCellInfo4AddOrUseCell (demoEnv true) 4 5
    { demoOut with size := 16 } demoTable) demoTable

/-- An empty table over `DemoTrunk`: every bucket head is -1, no slot is in use. -/
def emptyTable : MTHash DemoTrunk where
  Buckets := fun _ => -1
  BucketLocks := fun _ => false
  MTEntries := fun _ => { Key := 0, NextEntry := -1, CellType := 0, EntryLock := false }
  CellEntries := fun _ => { offset := 0, size := 0 }
  EntryCount := 4
  memory_trunk := { head := 0, loCount := 0 }
  AllocLock := false
  TrunkDirty := false
  trace := []

/-! ## Event sequences of a call -/

/-- The events of the guarded assignment `if (CellTypeEnabled) ... CellType = type`. -/
def typeEvents (env : Env T) (e : Int) (type : Nat) : List Event :=
  if env.CellTypeEnabled then [Event.writeCellType e type] else []

/-- What a hit path of save or update did to slot `e` of bucket `b`, started in
state `s` and ended in `s1`: the arena steps `arena` inside the allocation
section, the stored pair `pair`, the arena `trunk` and dirty flag `dirty`
afterwards, and the type-tag events `tag` at the end. -/
def HitOutcome (b : Nat) (e : Int) (s s1 : MTHash T) (arena : List Event)
    (pair : CellEntry) (trunk : T) (dirty : Bool) (tag : List Event) : Prop :=
  s1.CellEntries e = pair ∧ s1.memory_trunk = trunk ∧ s1.TrunkDirty = dirty ∧
  s1.trace = s.trace ++
    ([Event.bucketLock b, Event.entryLock e, Event.bucketUnlock b, Event.enterAlloc] ++
      arena ++ [Event.storeLocation e pair.offset pair.size, Event.leaveAlloc] ++ tag)

/-- The identifier a call is about. -/
def MTHash.Call.cellId : MTHash.Call → Nat
  | .CellAccessor cellId => cellId
  | .SaveCell cellId _ _ => cellId
  | .AddCell cellId _ _ => cellId
  | .UpdateCell cellId _ => cellId
  | .LoadCell cellId => cellId
  | .AddOrUseCell cellId _ => cellId

/-- The table after `UpdateCell(9, 300)` on `demoTable` (the large object of
cell 9 is expanded). -/
def demoExpanded : MTHash DemoTrunk :=
  finalState (MTHash.CGetLockedCellInfo4UpdateCell (demoEnv true) 9 300 demoOut demoTable)
    demoTable

/-- What a miss path did, started in state `s` and ended in `s1`: slot `f` is
the new head of bucket `b` with key `cellId` and the former head as its link;
the other bucket heads and the key, link, type tag and location pair of every
other slot are as before; the pair of `f` is `(AddMemoryCell(size, f), size)`;
the tag of `f` is `type` when tagging is enabled and untouched otherwise; and
the steps of the call are, in this order: bucket lock, lock of `f`, key, link
and bucket head written, bucket lock released, allocation section entered,
`AddMemoryCell`, tag written, pair stored, allocation section left. -/
def Inserted (env : Env T) (cellId : Nat) (size : Int) (type : Nat) (b : Nat) (f : Int)
    (s s1 : MTHash T) : Prop :=
  s1.Buckets b = f ∧
  (s1.MTEntries f).Key = cellId ∧
  (s1.MTEntries f).NextEntry = s.Buckets b ∧
  (∀ b1, b1 ≠ b → s1.Buckets b1 = s.Buckets b1) ∧
  (∀ x, x ≠ f →
    (s1.MTEntries x).Key = (s.MTEntries x).Key ∧
    (s1.MTEntries x).NextEntry = (s.MTEntries x).NextEntry ∧
    (s1.MTEntries x).CellType = (s.MTEntries x).CellType ∧
    s1.CellEntries x = s.CellEntries x) ∧
  s1.CellEntries f = { offset := (env.AddMemoryCell s.memory_trunk size f).1, size := size } ∧
  (s1.MTEntries f).CellType =
    (if env.CellTypeEnabled then type else (s.MTEntries f).CellType) ∧
  s1.trace = s.trace ++
    ([Event.bucketLock b, Event.entryLock f, Event.writeKey f cellId,
      Event.writeNextEntry f (s.Buckets b), Event.writeBucket b f, Event.bucketUnlock b,
      Event.enterAlloc, Event.addMemoryCell size f] ++ typeEvents env f type ++
      [Event.storeLocation f (env.AddMemoryCell s.memory_trunk size f).1 size,
        Event.leaveAlloc])

/-- Whether a lock is held after the events `tr`, given whether it was `held`
before them: the last `lock` or `unlock` event decides. -/
def heldAfter (lock unlock : Event) : Bool → List Event → Bool
  | held, [] => held
  | held, ev :: rest =>
    heldAfter lock unlock (if ev = lock then true else if ev = unlock then false else held) rest

/-- The lock of bucket `b` is held by the call after its events `tr`. -/
def bucketHeld (b : Nat) (tr : List Event) : Bool :=
  heldAfter (Event.bucketLock b) (Event.bucketUnlock b) false tr

/-- The lock of slot `e` is held by the call after its events `tr`. -/
def entryHeld (e : Int) (tr : List Event) : Bool :=
  heldAfter (Event.entryLock e) (Event.entryUnlock e) false tr

/-- The call is inside the allocation critical section after its events `tr`. -/
def inAlloc (tr : List Event) : Bool :=
  heldAfter Event.enterAlloc Event.leaveAlloc false tr

/-- Entering the allocation critical section and the arena calls. -/
def Event.isArenaStep : Event → Bool
  | .enterAlloc => true
  | .addMemoryCell _ _ => true
  | .expandLargeObject _ _ _ => true
  | _ => false

/-- Releases of a bucket lock. -/
def Event.isBucketUnlock : Event → Bool
  | .bucketUnlock _ => true
  | _ => false

/-- Releases of an entry lock. -/
def Event.isEntryUnlock : Event → Bool
  | .entryUnlock _ => true
  | _ => false

/-- Releases of a lock, bucket lock or entry lock. -/
def Event.isRelease (ev : Event) : Bool :=
  ev.isBucketUnlock || ev.isEntryUnlock

/-- Writes of a location pair. -/
def Event.isStore : Event → Bool
  | .storeLocation _ _ _ => true
  | _ => false

/-- `EachStep P pre tr`: every event of `tr` satisfies `P` together with the
events before it (`pre` followed by the earlier events of `tr`). -/
def EachStep (P : List Event → Event → Prop) : List Event → List Event → Prop
  | _, [] => True
  | pre, ev :: rest => P pre ev ∧ EachStep P (pre ++ [ev]) rest

/-- The events of a type-tag assignment to `slot`: none, or one write. -/
def TagEvents (slot : Int) (tag : List Event) : Prop :=
  tag = [] ∨ ∃ t, tag = [Event.writeCellType slot t]

/-- The event sequences of a returned call on bucket `b` that reports `slot`,
where `free` is the slot `FindFreeEntry` hands out: a miss without insertion
(also a duplicate), a read hit, a hit with the wrong type, a hit of save or
update without growth, with a large-object expansion or with a relocation, and
an insertion. -/
inductive CallTrace (b : Nat) (free slot : Int) : List Event → Prop
  | miss : CallTrace b free slot [Event.bucketLock b, Event.bucketUnlock b]
  | read : CallTrace b free slot
      [Event.bucketLock b, Event.entryLock slot, Event.bucketUnlock b]
  | wrongType : CallTrace b free slot
      [Event.bucketLock b, Event.entryLock slot, Event.bucketUnlock b, Event.entryUnlock slot]
  | reuse (off size : Int) (tag : List Event) : TagEvents slot tag →
      CallTrace b free slot
        ([Event.bucketLock b, Event.entryLock slot, Event.bucketUnlock b, Event.enterAlloc,
          Event.storeLocation slot off size, Event.leaveAlloc] ++ tag)
  | expand (lo old off size : Int) (tag : List Event) : TagEvents slot tag →
      CallTrace b free slot
        ([Event.bucketLock b, Event.entryLock slot, Event.bucketUnlock b, Event.enterAlloc,
          Event.expandLargeObject lo old size,
          Event.storeLocation slot off size, Event.leaveAlloc] ++ tag)
  | relocate (off size : Int) (tag : List Event) : TagEvents slot tag →
      CallTrace b free slot
        ([Event.bucketLock b, Event.entryLock slot, Event.bucketUnlock b, Event.enterAlloc,
          Event.addMemoryCell size slot, Event.markTrunkDirty,
          Event.storeLocation slot off size, Event.leaveAlloc] ++ tag)
  | insert (cellId : Nat) (h off size : Int) (tag : List Event) : slot = free →
      TagEvents slot tag →
      CallTrace b free slot
        ([Event.bucketLock b, Event.entryLock slot, Event.writeKey slot cellId,
          Event.writeNextEntry slot h, Event.writeBucket b slot, Event.bucketUnlock b,
          Event.enterAlloc, Event.addMemoryCell size slot] ++ tag ++
          [Event.storeLocation slot off size, Event.leaveAlloc])

/-- Guard of an arena step `ev` of a call on bucket `b` that allocates for
`slot`, given the events `pre` of the call before it: when `ev` enters the
allocation critical section or is an arena call, the call has taken and
released its bucket lock, holds the lock of `slot`, and an `AddMemoryCell`
allocates for `slot`. -/
def ArenaGuard (b : Nat) (slot : Int) (pre : List Event) (ev : Event) : Prop :=
  ev.isArenaStep = true →
    Event.bucketLock b ∈ pre ∧ bucketHeld b pre = false ∧ entryHeld slot pre = true ∧
    ∀ size x, ev = Event.addMemoryCell size x → x = slot

/-- Slot `e` is live in state `s`: it is on the chain of some bucket. -/
def Reachable (s : MTHash T) (e : Int) : Prop :=
  ∃ b, InChain s.MTEntries (s.Buckets b) e

/-- Guard of a write `ev` of a call, given the events `pre` of the call before
it: a key or a chain link is written only to the slot `free` handed out by
`FindFreeEntry`; a location pair is written while the call holds the lock of
its slot and is inside the allocation critical section; a type tag is written
while the call holds the lock of its slot and, when `tagInAlloc` is set, is
inside the allocation critical section. -/
def WriteGuard (tagInAlloc : Bool) (free : Int) (pre : List Event) (ev : Event) : Prop :=
  (∀ x k, ev = Event.writeKey x k → x = free) ∧
  (∀ x n, ev = Event.writeNextEntry x n → x = free) ∧
  (∀ x off size, ev = Event.storeLocation x off size →
    entryHeld x pre = true ∧ inAlloc pre = true) ∧
  (∀ x t, ev = Event.writeCellType x t →
    entryHeld x pre = true ∧ (tagInAlloc = true → inAlloc pre = true))

/-- A write of a location pair has no release of a lock before it. -/
def StoreBeforeRelease (pre : List Event) (ev : Event) : Prop :=
  ev.isStore = true → pre.filter Event.isRelease = []

/-- Guard of a write `ev` of a location pair by a call on bucket `b` that
reports `slot`, given the events `pre` of the call before it: the pair of
`slot` is written, after the bucket lock has been released, with the lock of
`slot` held, inside the allocation critical section, and with no release of an
entry lock and no other write of a pair before it. -/
def StoreGuard (b : Nat) (slot : Int) (pre : List Event) (ev : Event) : Prop :=
  ev.isStore = true →
    (∃ off size, ev = Event.storeLocation slot off size) ∧
    Event.bucketUnlock b ∈ pre ∧ bucketHeld b pre = false ∧
    entryHeld slot pre = true ∧ inAlloc pre = true ∧
    pre.filter Event.isEntryUnlock = [] ∧ pre.filter Event.isStore = []

/-- The table after `SaveCell(4, 16, 5)` on `demoTable` with tagging enabled
(cell 4 is absent and is inserted into slot 2). -/
def demoInserted : MTHash DemoTrunk :=
  finalState (MTHash.CGetLockedCellInfo4SaveCell (demoEnv true) 4 16 5 demoOut demoTable)
    demoTable

/-! ## The chain invariant -/

/-- The chain invariant: a slot on a bucket chain is on exactly one chain, that
chain is the one of the bucket of its key, and no two slots on chains have the
same key. -/
def ChainInv (env : Env T) (s : MTHash T) : Prop :=
  (∀ b b1 e, InChain s.MTEntries (s.Buckets b) e → InChain s.MTEntries (s.Buckets b1) e →
    b = b1) ∧
  (∀ b e, InChain s.MTEntries (s.Buckets b) e →
    env.GetBucketIndex (s.MTEntries e).Key = b) ∧
  (∀ e e1, Reachable s e → Reachable s e1 →
    (s.MTEntries e).Key = (s.MTEntries e1).Key → e = e1)

/-- A returned call leaves the lock of the reported slot held: its code is a
success signal. -/
def MTHash.Call.holdsLock : MTHash.Call → TrinityErrorCode → Bool
  | .AddOrUseCell _ _, r =>
    decide (r = TrinityErrorCode.E_CELL_FOUND) || decide (r = TrinityErrorCode.E_CELL_NOT_FOUND)
  | _, r => decide (r = TrinityErrorCode.E_SUCCESS)

/-- The table after the caller of a returned call has released the entry lock
the call left held, if any. -/
def afterCall (c : MTHash.Call) (r : TrinityErrorCode) (out1 : OutParams) (s1 : MTHash T) :
    MTHash T :=
  if c.holdsLock r then ReleaseEntryLock out1.entryIndex s1 else s1

/-- Runs calls one after the other, each with its own reference parameters, the
entry lock being released between calls; `none` when a call has no result. -/
def runCalls (env : Env T) : List (MTHash.Call × OutParams) → MTHash T → Option (MTHash T)
  | [], s => some s
  | (c, out) :: rest, s =>
    match c.run env out s with
    | none => none
    | some (r, out1, s1) => runCalls env rest (afterCall c r out1 s1)

/-- `FindFreeEntry` meets its contract along a run: at each call the slot it
hands out is on no chain. -/
def FreshAlong (env : Env T) : List (MTHash.Call × OutParams) → MTHash T → Prop
  | [], _ => True
  | (c, out) :: rest, s =>
    ¬ Reachable s (env.FindFreeEntry (lockedBucket (env.GetBucketIndex c.cellId) s)) ∧
    ∀ r out1 s1, c.run env out s = some (r, out1, s1) →
      FreshAlong env rest (afterCall c r out1 s1)

/-- Collaborators for `emptyTable` with a counting free-slot pool: one bucket,
the free slot is the slot after the current chain head. -/
def bumpEnv : Env DemoTrunk :=
  { demoEnv true with
    GetBucketIndex := fun _ => 0
    FindFreeEntry := fun s => s.Buckets 0 + 1 }

/-- Two insertions: `SaveCell(7, 2, 1)` and `AddCell(9, 3, 1)`. -/
def twoCalls : List (MTHash.Call × OutParams) :=
  [(MTHash.Call.SaveCell 7 2 1, demoOut), (MTHash.Call.AddCell 9 3 1, demoOut)]

/-- The table after `twoCalls` on `emptyTable`. -/
def twoCells : MTHash DemoTrunk :=
  match runCalls bumpEnv twoCalls emptyTable with
  | some s => s
  | none => emptyTable

/-- The call is a `SaveCell`. -/
def MTHash.Call.isSaveCell : MTHash.Call → Bool
  | .SaveCell _ _ _ => true
  | _ => false

/-! ## Lemmas on the primitives and the lookup helpers -/

section Lemmas

open MTHash TrinityErrorCode

@[simp] theorem lockedBucket_fields (b : Nat) (s : MTHash T) :
    (lockedBucket b s).Buckets = s.Buckets ∧
    (lockedBucket b s).BucketLocks = Function.update s.BucketLocks b true ∧
    (lockedBucket b s).MTEntries = s.MTEntries ∧
    (lockedBucket b s).CellEntries = s.CellEntries ∧
    (lockedBucket b s).EntryCount = s.EntryCount ∧
    (lockedBucket b s).memory_trunk = s.memory_trunk ∧
    (lockedBucket b s).AllocLock = s.AllocLock ∧
    (lockedBucket b s).TrunkDirty = s.TrunkDirty ∧
    (lockedBucket b s).trace = s.trace ++ [Event.bucketLock b] :=
  ⟨rfl, rfl, rfl, rfl, rfl, rfl, rfl, rfl, rfl⟩

@[simp] theorem ReleaseBucketLock_fields (b : Nat) (s : MTHash T) :
    (ReleaseBucketLock b s).Buckets = s.Buckets ∧
    (ReleaseBucketLock b s).BucketLocks = Function.update s.BucketLocks b false ∧
    (ReleaseBucketLock b s).MTEntries = s.MTEntries ∧
    (ReleaseBucketLock b s).CellEntries = s.CellEntries ∧
    (ReleaseBucketLock b s).EntryCount = s.EntryCount ∧
    (ReleaseBucketLock b s).memory_trunk = s.memory_trunk ∧
    (ReleaseBucketLock b s).AllocLock = s.AllocLock ∧
    (ReleaseBucketLock b s).TrunkDirty = s.TrunkDirty ∧
    (ReleaseBucketLock b s).trace = s.trace ++ [Event.bucketUnlock b] :=
  ⟨rfl, rfl, rfl, rfl, rfl, rfl, rfl, rfl, rfl⟩

@[simp] theorem lockedEntry_fields (e : Int) (s : MTHash T) :
    (lockedEntry e s).Buckets = s.Buckets ∧
    (lockedEntry e s).BucketLocks = s.BucketLocks ∧
    (∀ x, ((lockedEntry e s).MTEntries x).Key = (s.MTEntries x).Key) ∧
    (∀ x, ((lockedEntry e s).MTEntries x).NextEntry = (s.MTEntries x).NextEntry) ∧
    (∀ x, ((lockedEntry e s).MTEntries x).CellType = (s.MTEntries x).CellType) ∧
    (∀ x, ((lockedEntry e s).MTEntries x).EntryLock = if x = e then true else (s.MTEntries x).EntryLock) ∧
    (lockedEntry e s).CellEntries = s.CellEntries ∧
    (lockedEntry e s).EntryCount = s.EntryCount ∧
    (lockedEntry e s).memory_trunk = s.memory_trunk ∧
    (lockedEntry e s).AllocLock = s.AllocLock ∧
    (lockedEntry e s).TrunkDirty = s.TrunkDirty ∧
    (lockedEntry e s).trace = s.trace ++ [Event.entryLock e] :=
  by
  refine ⟨rfl, rfl, ?_, ?_, ?_, ?_, rfl, rfl, rfl, rfl, rfl, rfl⟩ <;> intro x <;>
    simp only [lockedEntry, Function.update_apply] <;> split <;> simp_all

@[simp] theorem ReleaseEntryLock_fields (e : Int) (s : MTHash T) :
    (ReleaseEntryLock e s).Buckets = s.Buckets ∧
    (ReleaseEntryLock e s).BucketLocks = s.BucketLocks ∧
    (∀ x, ((ReleaseEntryLock e s).MTEntries x).Key = (s.MTEntries x).Key) ∧
    (∀ x, ((ReleaseEntryLock e s).MTEntries x).NextEntry = (s.MTEntries x).NextEntry) ∧
    (∀ x, ((ReleaseEntryLock e s).MTEntries x).CellType = (s.MTEntries x).CellType) ∧
    (∀ x, ((ReleaseEntryLock e s).MTEntries x).EntryLock = if x = e then false else (s.MTEntries x).EntryLock) ∧
    (ReleaseEntryLock e s).CellEntries = s.CellEntries ∧
    (ReleaseEntryLock e s).EntryCount = s.EntryCount ∧
    (ReleaseEntryLock e s).memory_trunk = s.memory_trunk ∧
    (ReleaseEntryLock e s).AllocLock = s.AllocLock ∧
    (ReleaseEntryLock e s).TrunkDirty = s.TrunkDirty ∧
    (ReleaseEntryLock e s).trace = s.trace ++ [Event.entryUnlock e] :=
  by
  refine ⟨rfl, rfl, ?_, ?_, ?_, ?_, rfl, rfl, rfl, rfl, rfl, rfl⟩ <;> intro x <;>
    simp only [ReleaseEntryLock, Function.update_apply] <;> split <;> simp_all

@[simp] theorem enteredAlloc_fields  (s : MTHash T) :
    (enteredAlloc s).Buckets = s.Buckets ∧
    (enteredAlloc s).BucketLocks = s.BucketLocks ∧
    (enteredAlloc s).MTEntries = s.MTEntries ∧
    (enteredAlloc s).CellEntries = s.CellEntries ∧
    (enteredAlloc s).EntryCount = s.EntryCount ∧
    (enteredAlloc s).memory_trunk = s.memory_trunk ∧
    (enteredAlloc s).AllocLock = true ∧
    (enteredAlloc s).TrunkDirty = s.TrunkDirty ∧
    (enteredAlloc s).trace = s.trace ++ [Event.enterAlloc] :=
  ⟨rfl, rfl, rfl, rfl, rfl, rfl, rfl, rfl, rfl⟩

@[simp] theorem LEAVE_fields  (s : MTHash T) :
    (LEAVE_ALLOCMEM_CELLENTRY_UPDATE_CRITICAL_SECTION s).Buckets = s.Buckets ∧
    (LEAVE_ALLOCMEM_CELLENTRY_UPDATE_CRITICAL_SECTION s).BucketLocks = s.BucketLocks ∧
    (LEAVE_ALLOCMEM_CELLENTRY_UPDATE_CRITICAL_SECTION s).MTEntries = s.MTEntries ∧
    (LEAVE_ALLOCMEM_CELLENTRY_UPDATE_CRITICAL_SECTION s).CellEntries = s.CellEntries ∧
    (LEAVE_ALLOCMEM_CELLENTRY_UPDATE_CRITICAL_SECTION s).EntryCount = s.EntryCount ∧
    (LEAVE_ALLOCMEM_CELLENTRY_UPDATE_CRITICAL_SECTION s).memory_trunk = s.memory_trunk ∧
    (LEAVE_ALLOCMEM_CELLENTRY_UPDATE_CRITICAL_SECTION s).AllocLock = false ∧
    (LEAVE_ALLOCMEM_CELLENTRY_UPDATE_CRITICAL_SECTION s).TrunkDirty = s.TrunkDirty ∧
    (LEAVE_ALLOCMEM_CELLENTRY_UPDATE_CRITICAL_SECTION s).trace = s.trace ++ [Event.leaveAlloc] :=
  ⟨rfl, rfl, rfl, rfl, rfl, rfl, rfl, rfl, rfl⟩

@[simp] theorem MarkTrunkDirty_fields  (s : MTHash T) :
    (MarkTrunkDirty s).Buckets = s.Buckets ∧
    (MarkTrunkDirty s).BucketLocks = s.BucketLocks ∧
    (MarkTrunkDirty s).MTEntries = s.MTEntries ∧
    (MarkTrunkDirty s).CellEntries = s.CellEntries ∧
    (MarkTrunkDirty s).EntryCount = s.EntryCount ∧
    (MarkTrunkDirty s).memory_trunk = s.memory_trunk ∧
    (MarkTrunkDirty s).AllocLock = s.AllocLock ∧
    (MarkTrunkDirty s).TrunkDirty = true ∧
    (MarkTrunkDirty s).trace = s.trace ++ [Event.markTrunkDirty] :=
  ⟨rfl, rfl, rfl, rfl, rfl, rfl, rfl, rfl, rfl⟩

@[simp] theorem AddMemoryCell_fields (env : Env T) (size e : Int) (s : MTHash T) :
    ((AddMemoryCell env size e s).2).Buckets = s.Buckets ∧
    ((AddMemoryCell env size e s).2).BucketLocks = s.BucketLocks ∧
    ((AddMemoryCell env size e s).2).MTEntries = s.MTEntries ∧
    ((AddMemoryCell env size e s).2).CellEntries = s.CellEntries ∧
    ((AddMemoryCell env size e s).2).EntryCount = s.EntryCount ∧
    ((AddMemoryCell env size e s).2).memory_trunk = (env.AddMemoryCell s.memory_trunk size e).2 ∧
    ((AddMemoryCell env size e s).2).AllocLock = s.AllocLock ∧
    ((AddMemoryCell env size e s).2).TrunkDirty = s.TrunkDirty ∧
    ((AddMemoryCell env size e s).2).trace = s.trace ++ [Event.addMemoryCell size e] :=
  ⟨rfl, rfl, rfl, rfl, rfl, rfl, rfl, rfl, rfl⟩

@[simp] theorem ExpandLargeObject_fields (env : Env T) (lo old new : Int) (s : MTHash T) :
    (ExpandLargeObject env lo old new s).Buckets = s.Buckets ∧
    (ExpandLargeObject env lo old new s).BucketLocks = s.BucketLocks ∧
    (ExpandLargeObject env lo old new s).MTEntries = s.MTEntries ∧
    (ExpandLargeObject env lo old new s).CellEntries = s.CellEntries ∧
    (ExpandLargeObject env lo old new s).EntryCount = s.EntryCount ∧
    (ExpandLargeObject env lo old new s).memory_trunk = env.ExpandLargeObject s.memory_trunk lo old new ∧
    (ExpandLargeObject env lo old new s).AllocLock = s.AllocLock ∧
    (ExpandLargeObject env lo old new s).TrunkDirty = s.TrunkDirty ∧
    (ExpandLargeObject env lo old new s).trace = s.trace ++ [Event.expandLargeObject lo old new] :=
  ⟨rfl, rfl, rfl, rfl, rfl, rfl, rfl, rfl, rfl⟩

@[simp] theorem StoreLocation_fields (e : Int) (entry : CellEntry) (s : MTHash T) :
    (StoreLocation e entry s).Buckets = s.Buckets ∧
    (StoreLocation e entry s).BucketLocks = s.BucketLocks ∧
    (StoreLocation e entry s).MTEntries = s.MTEntries ∧
    (StoreLocation e entry s).CellEntries = Function.update s.CellEntries e entry ∧
    (StoreLocation e entry s).EntryCount = s.EntryCount ∧
    (StoreLocation e entry s).memory_trunk = s.memory_trunk ∧
    (StoreLocation e entry s).AllocLock = s.AllocLock ∧
    (StoreLocation e entry s).TrunkDirty = s.TrunkDirty ∧
    (StoreLocation e entry s).trace = s.trace ++ [Event.storeLocation e entry.offset entry.size] :=
  ⟨rfl, rfl, rfl, rfl, rfl, rfl, rfl, rfl, rfl⟩

@[simp] theorem WriteCellType_fields (e : Int) (t : Nat) (s : MTHash T) :
    (WriteCellType e t s).Buckets = s.Buckets ∧
    (WriteCellType e t s).BucketLocks = s.BucketLocks ∧
    (∀ x, ((WriteCellType e t s).MTEntries x).Key = (s.MTEntries x).Key) ∧
    (∀ x, ((WriteCellType e t s).MTEntries x).NextEntry = (s.MTEntries x).NextEntry) ∧
    (∀ x, ((WriteCellType e t s).MTEntries x).CellType = if x = e then t else (s.MTEntries x).CellType) ∧
    (∀ x, ((WriteCellType e t s).MTEntries x).EntryLock = (s.MTEntries x).EntryLock) ∧
    (WriteCellType e t s).CellEntries = s.CellEntries ∧
    (WriteCellType e t s).EntryCount = s.EntryCount ∧
    (WriteCellType e t s).memory_trunk = s.memory_trunk ∧
    (WriteCellType e t s).AllocLock = s.AllocLock ∧
    (WriteCellType e t s).TrunkDirty = s.TrunkDirty ∧
    (WriteCellType e t s).trace = s.trace ++ [Event.writeCellType e t] :=
  by
  refine ⟨rfl, rfl, ?_, ?_, ?_, ?_, rfl, rfl, rfl, rfl, rfl, rfl⟩ <;> intro x <;>
    simp only [WriteCellType, Function.update_apply] <;> split <;> simp_all

@[simp] theorem WriteKey_fields (e : Int) (k : Nat) (s : MTHash T) :
    (WriteKey e k s).Buckets = s.Buckets ∧
    (WriteKey e k s).BucketLocks = s.BucketLocks ∧
    (∀ x, ((WriteKey e k s).MTEntries x).Key = if x = e then k else (s.MTEntries x).Key) ∧
    (∀ x, ((WriteKey e k s).MTEntries x).NextEntry = (s.MTEntries x).NextEntry) ∧
    (∀ x, ((WriteKey e k s).MTEntries x).CellType = (s.MTEntries x).CellType) ∧
    (∀ x, ((WriteKey e k s).MTEntries x).EntryLock = (s.MTEntries x).EntryLock) ∧
    (WriteKey e k s).CellEntries = s.CellEntries ∧
    (WriteKey e k s).EntryCount = s.EntryCount ∧
    (WriteKey e k s).memory_trunk = s.memory_trunk ∧
    (WriteKey e k s).AllocLock = s.AllocLock ∧
    (WriteKey e k s).TrunkDirty = s.TrunkDirty ∧
    (WriteKey e k s).trace = s.trace ++ [Event.writeKey e k] :=
  by
  refine ⟨rfl, rfl, ?_, ?_, ?_, ?_, rfl, rfl, rfl, rfl, rfl, rfl⟩ <;> intro x <;>
    simp only [WriteKey, Function.update_apply] <;> split <;> simp_all

@[simp] theorem WriteNextEntry_fields (e : Int) (n : Int) (s : MTHash T) :
    (WriteNextEntry e n s).Buckets = s.Buckets ∧
    (WriteNextEntry e n s).BucketLocks = s.BucketLocks ∧
    (∀ x, ((WriteNextEntry e n s).MTEntries x).Key = (s.MTEntries x).Key) ∧
    (∀ x, ((WriteNextEntry e n s).MTEntries x).NextEntry = if x = e then n else (s.MTEntries x).NextEntry) ∧
    (∀ x, ((WriteNextEntry e n s).MTEntries x).CellType = (s.MTEntries x).CellType) ∧
    (∀ x, ((WriteNextEntry e n s).MTEntries x).EntryLock = (s.MTEntries x).EntryLock) ∧
    (WriteNextEntry e n s).CellEntries = s.CellEntries ∧
    (WriteNextEntry e n s).EntryCount = s.EntryCount ∧
    (WriteNextEntry e n s).memory_trunk = s.memory_trunk ∧
    (WriteNextEntry e n s).AllocLock = s.AllocLock ∧
    (WriteNextEntry e n s).TrunkDirty = s.TrunkDirty ∧
    (WriteNextEntry e n s).trace = s.trace ++ [Event.writeNextEntry e n] :=
  by
  refine ⟨rfl, rfl, ?_, ?_, ?_, ?_, rfl, rfl, rfl, rfl, rfl, rfl⟩ <;> intro x <;>
    simp only [WriteNextEntry, Function.update_apply] <;> split <;> simp_all

@[simp] theorem WriteBucket_fields (b : Nat) (e : Int) (s : MTHash T) :
    (WriteBucket b e s).Buckets = Function.update s.Buckets b e ∧
    (WriteBucket b e s).BucketLocks = s.BucketLocks ∧
    (WriteBucket b e s).MTEntries = s.MTEntries ∧
    (WriteBucket b e s).CellEntries = s.CellEntries ∧
    (WriteBucket b e s).EntryCount = s.EntryCount ∧
    (WriteBucket b e s).memory_trunk = s.memory_trunk ∧
    (WriteBucket b e s).AllocLock = s.AllocLock ∧
    (WriteBucket b e s).TrunkDirty = s.TrunkDirty ∧
    (WriteBucket b e s).trace = s.trace ++ [Event.writeBucket b e] :=
  ⟨rfl, rfl, rfl, rfl, rfl, rfl, rfl, rfl, rfl⟩

@[simp] theorem AddMemoryCell_fst (env : Env T) (size e : Int) (s : MTHash T) :
    (AddMemoryCell env size e s).1 = (env.AddMemoryCell s.memory_trunk size e).1 := rfl

variable {env : Env T}

theorem GetBucketLock_some {b : Nat} {s s1 : MTHash T} (h : GetBucketLock b s = some s1) :
    s.BucketLocks b = false ∧ s1 = lockedBucket b s := by
  unfold GetBucketLock at h
  split at h
  · exact absurd h (by simp)
  · rename_i hb
    exact ⟨by simpa using hb, (Option.some.inj h).symm⟩

theorem GetBucketLock_free {b : Nat} {s : MTHash T} (h : s.BucketLocks b = false) :
    GetBucketLock b s = some (lockedBucket b s) := by
  simp [GetBucketLock, h, lockedBucket]

theorem TryGetEntryLock_free {e : Int} {s : MTHash T} (h : (s.MTEntries e).EntryLock = false) :
    TryGetEntryLock e s = (true, lockedEntry e s) := by
  simp [TryGetEntryLock, h, lockedEntry]

theorem TryGetEntryLock_true {e : Int} {s : MTHash T} (h : ¬ (TryGetEntryLock e s).1 = false) :
    (s.MTEntries e).EntryLock = false ∧ (TryGetEntryLock e s).2 = lockedEntry e s := by
  unfold TryGetEntryLock at h ⊢
  by_cases hl : (s.MTEntries e).EntryLock = true
  · simp [hl] at h
  · simp [hl, lockedEntry]

theorem GetEntryLock_some {e : Int} {s s2 : MTHash T} (h : GetEntryLock e s = some s2) :
    (s.MTEntries e).EntryLock = false ∧ s2 = lockedEntry e s := by
  unfold GetEntryLock at h
  by_cases hl : (TryGetEntryLock e s).1 = false
  · simp [hl] at h
  · have := TryGetEntryLock_true hl
    simp only [Bool.not_eq_false] at hl
    simp only [hl, if_true, Option.some.injEq] at h
    exact ⟨this.1, by rw [← h, this.2]⟩

theorem GetEntryLock_free {e : Int} {s : MTHash T} (h : (s.MTEntries e).EntryLock = false) :
    GetEntryLock e s = some (lockedEntry e s) := by
  simp [GetEntryLock, TryGetEntryLock_free h]

theorem ENTER_some {s s2 : MTHash T}
    (h : ENTER_ALLOCMEM_CELLENTRY_UPDATE_CRITICAL_SECTION s = some s2) :
    s.AllocLock = false ∧ s2 = enteredAlloc s := by
  unfold ENTER_ALLOCMEM_CELLENTRY_UPDATE_CRITICAL_SECTION at h
  split at h
  · exact absurd h (by simp)
  · rename_i hb
    exact ⟨by simpa using hb, (Option.some.inj h).symm⟩

theorem ENTER_free {s : MTHash T} (h : s.AllocLock = false) :
    ENTER_ALLOCMEM_CELLENTRY_UPDATE_CRITICAL_SECTION s = some (enteredAlloc s) := by
  simp [ENTER_ALLOCMEM_CELLENTRY_UPDATE_CRITICAL_SECTION, h, enteredAlloc]

/-- The chain walk reads only `MTEntries`, `Buckets` and `EntryCount`. -/
theorem findEntry_congr {cellId : Nat} {s s1 : MTHash T}
    (hE : s1.MTEntries = s.MTEntries) (hB : s1.Buckets = s.Buckets)
    (hC : s1.EntryCount = s.EntryCount) :
    findEntry env cellId s1 = findEntry env cellId s := by
  unfold findEntry
  rw [hE, hB, hC]

/-- A call through the lock-on-find helper that returns took the bucket lock,
and then either found no slot and ran `notfound`, or found a slot whose lock
was free, took it, and ran `found`. -/
theorem Lookup_LockEntry_inv {cellId : Nat}
    {found : Int → Nat → Int → MTHash T → Outcome T}
    {notfound : Nat → MTHash T → Outcome T} {s : MTHash T}
    {res : TrinityErrorCode × OutParams × MTHash T}
    (h : _Lookup_LockEntry_Or_NotFound env cellId found notfound s = some res) :
    s.BucketLocks (env.GetBucketIndex cellId) = false ∧
      ((findEntry env cellId s = some none ∧
          notfound (env.GetBucketIndex cellId)
            (lockedBucket (env.GetBucketIndex cellId) s) = some res) ∨
       ∃ e p, findEntry env cellId s = some (some (e, p)) ∧
          (s.MTEntries e).EntryLock = false ∧
          found e (env.GetBucketIndex cellId) p
            (lockedEntry e (lockedBucket (env.GetBucketIndex cellId) s)) = some res) := by
  unfold _Lookup_LockEntry_Or_NotFound at h
  cases hb : GetBucketLock (env.GetBucketIndex cellId) s with
  | none => simp [hb] at h
  | some s1 =>
    obtain ⟨hfree, rfl⟩ := GetBucketLock_some hb
    have hf : findEntry env cellId (lockedBucket (env.GetBucketIndex cellId) s)
        = findEntry env cellId s := rfl
    refine ⟨hfree, ?_⟩
    simp only [hb, hf] at h
    cases hw : findEntry env cellId s with
    | none => simp [hw] at h
    | some o =>
      cases o with
      | none => left; simp only [hw] at h; exact ⟨rfl, h⟩
      | some ep =>
        obtain ⟨e, p⟩ := ep
        right
        simp only [hw] at h
        cases hl : GetEntryLock e (lockedBucket (env.GetBucketIndex cellId) s) with
        | none => simp [hl] at h
        | some s2 =>
          simp only [hl] at h
          obtain ⟨hfe, rfl⟩ := GetEntryLock_some hl
          exact ⟨e, p, rfl, hfe, h⟩

/-- A call through the no-lock helper that returns took the bucket lock and
ran `notfound` or `found` without touching a slot lock. -/
theorem Lookup_NoLockEntry_inv {cellId : Nat}
    {found : Int → Nat → Int → MTHash T → Outcome T}
    {notfound : Nat → MTHash T → Outcome T} {s : MTHash T}
    {res : TrinityErrorCode × OutParams × MTHash T}
    (h : _Lookup_NoLockEntry_Or_NotFound env cellId found notfound s = some res) :
    s.BucketLocks (env.GetBucketIndex cellId) = false ∧
      ((findEntry env cellId s = some none ∧
          notfound (env.GetBucketIndex cellId)
            (lockedBucket (env.GetBucketIndex cellId) s) = some res) ∨
       ∃ e p, findEntry env cellId s = some (some (e, p)) ∧
          found e (env.GetBucketIndex cellId) p
            (lockedBucket (env.GetBucketIndex cellId) s) = some res) := by
  unfold _Lookup_NoLockEntry_Or_NotFound at h
  cases hb : GetBucketLock (env.GetBucketIndex cellId) s with
  | none => simp [hb] at h
  | some s1 =>
    obtain ⟨hfree, rfl⟩ := GetBucketLock_some hb
    have hf : findEntry env cellId (lockedBucket (env.GetBucketIndex cellId) s)
        = findEntry env cellId s := rfl
    refine ⟨hfree, ?_⟩
    simp only [hb, hf] at h
    cases hw : findEntry env cellId s with
    | none => simp [hw] at h
    | some o =>
      cases o with
      | none => left; simp only [hw] at h; exact ⟨rfl, h⟩
      | some ep =>
        obtain ⟨e, p⟩ := ep
        right
        simp only [hw] at h
        exact ⟨e, p, rfl, h⟩

/-- The lock-on-find helper on a state with a free bucket lock, a match and a
free slot lock runs `found` with both locks held. -/
theorem Lookup_LockEntry_hit {cellId : Nat}
    {found : Int → Nat → Int → MTHash T → Outcome T}
    {notfound : Nat → MTHash T → Outcome T} {s : MTHash T} {e p : Int}
    (hb : s.BucketLocks (env.GetBucketIndex cellId) = false)
    (hf : findEntry env cellId s = some (some (e, p)))
    (hl : (s.MTEntries e).EntryLock = false) :
    _Lookup_LockEntry_Or_NotFound env cellId found notfound s =
      found e (env.GetBucketIndex cellId) p
        (lockedEntry e (lockedBucket (env.GetBucketIndex cellId) s)) := by
  have hf1 : findEntry env cellId (lockedBucket (env.GetBucketIndex cellId) s)
      = some (some (e, p)) := hf
  have hl1 : ((lockedBucket (env.GetBucketIndex cellId) s).MTEntries e).EntryLock = false := hl
  simp only [_Lookup_LockEntry_Or_NotFound, GetBucketLock_free hb, hf1, GetEntryLock_free hl1]

/-- The lock-on-find helper on a state with a free bucket lock and no match
runs `notfound` with the bucket lock held. -/
theorem Lookup_LockEntry_miss {cellId : Nat}
    {found : Int → Nat → Int → MTHash T → Outcome T}
    {notfound : Nat → MTHash T → Outcome T} {s : MTHash T}
    (hb : s.BucketLocks (env.GetBucketIndex cellId) = false)
    (hf : findEntry env cellId s = some none) :
    _Lookup_LockEntry_Or_NotFound env cellId found notfound s =
      notfound (env.GetBucketIndex cellId) (lockedBucket (env.GetBucketIndex cellId) s) := by
  have hf1 : findEntry env cellId (lockedBucket (env.GetBucketIndex cellId) s)
      = some none := hf
  simp only [_Lookup_LockEntry_Or_NotFound, GetBucketLock_free hb, hf1]

theorem Lookup_NoLockEntry_hit {cellId : Nat}
    {found : Int → Nat → Int → MTHash T → Outcome T}
    {notfound : Nat → MTHash T → Outcome T} {s : MTHash T} {e p : Int}
    (hb : s.BucketLocks (env.GetBucketIndex cellId) = false)
    (hf : findEntry env cellId s = some (some (e, p))) :
    _Lookup_NoLockEntry_Or_NotFound env cellId found notfound s =
      found e (env.GetBucketIndex cellId) p (lockedBucket (env.GetBucketIndex cellId) s) := by
  have hf1 : findEntry env cellId (lockedBucket (env.GetBucketIndex cellId) s)
      = some (some (e, p)) := hf
  simp only [_Lookup_NoLockEntry_Or_NotFound, GetBucketLock_free hb, hf1]

theorem Lookup_NoLockEntry_miss {cellId : Nat}
    {found : Int → Nat → Int → MTHash T → Outcome T}
    {notfound : Nat → MTHash T → Outcome T} {s : MTHash T}
    (hb : s.BucketLocks (env.GetBucketIndex cellId) = false)
    (hf : findEntry env cellId s = some none) :
    _Lookup_NoLockEntry_Or_NotFound env cellId found notfound s =
      notfound (env.GetBucketIndex cellId) (lockedBucket (env.GetBucketIndex cellId) s) := by
  have hf1 : findEntry env cellId (lockedBucket (env.GetBucketIndex cellId) s)
      = some none := hf
  simp only [_Lookup_NoLockEntry_Or_NotFound, GetBucketLock_free hb, hf1]

/-! ### Closed forms of the continuations -/

@[simp] theorem grown_fields (env : Env T) (size e : Int) (s : MTHash T) :
    (grown env size e s).2.Buckets = s.Buckets ∧
    (grown env size e s).2.BucketLocks = s.BucketLocks ∧
    (grown env size e s).2.MTEntries = s.MTEntries ∧
    (grown env size e s).2.CellEntries = s.CellEntries ∧
    (grown env size e s).2.EntryCount = s.EntryCount ∧
    (grown env size e s).2.AllocLock = s.AllocLock := by
  unfold grown
  split_ifs <;> simp

@[simp] theorem setType_fields (env : Env T) (e : Int) (type : Nat) (s : MTHash T) :
    (setType env e type s).Buckets = s.Buckets ∧
    (setType env e type s).BucketLocks = s.BucketLocks ∧
    (∀ x, ((setType env e type s).MTEntries x).Key = (s.MTEntries x).Key) ∧
    (∀ x, ((setType env e type s).MTEntries x).NextEntry = (s.MTEntries x).NextEntry) ∧
    (∀ x, ((setType env e type s).MTEntries x).CellType =
      if env.CellTypeEnabled = true ∧ x = e then type else (s.MTEntries x).CellType) ∧
    (∀ x, ((setType env e type s).MTEntries x).EntryLock = (s.MTEntries x).EntryLock) ∧
    (setType env e type s).CellEntries = s.CellEntries ∧
    (setType env e type s).EntryCount = s.EntryCount ∧
    (setType env e type s).memory_trunk = s.memory_trunk ∧
    (setType env e type s).AllocLock = s.AllocLock ∧
    (setType env e type s).TrunkDirty = s.TrunkDirty := by
  unfold setType
  split_ifs with h <;> simp [h]

variable {env : Env T}

theorem CellAccessor_found_eq (out : OutParams) (e : Int) (b : Nat) (p : Int) (s : MTHash T) :
    CGetLockedCellInfo4CellAccessor.found env out e b p s =
      some (E_SUCCESS,
        { size := (s.CellEntries e).size
          type := if env.CellTypeEnabled then (s.MTEntries e).CellType else out.type
          cellPtr := resolve env s.memory_trunk (s.CellEntries e).offset
          entryIndex := e },
        ReleaseBucketLock b s) := by
  unfold CGetLockedCellInfo4CellAccessor.found
  cases hT : env.CellTypeEnabled <;> simp [CellSize]

theorem LoadCell_found_eq (out : OutParams) (e : Int) (b : Nat) (p : Int) (s : MTHash T) :
    CGetLockedCellInfo4LoadCell.found env out e b p s =
      some (E_SUCCESS,
        { out with
          size := (s.CellEntries e).size
          cellPtr := resolve env s.memory_trunk (s.CellEntries e).offset
          entryIndex := e },
        ReleaseBucketLock b s) := rfl

theorem AddOrUseCell_found_eq (type : Nat) (out : OutParams) (e : Int) (b : Nat) (p : Int)
    (s : MTHash T) :
    CGetLockedCellInfo4AddOrUseCell.found env type out e b p s =
      if env.CellTypeEnabled = true ∧ (s.MTEntries e).CellType ≠ type then
        some (E_WRONG_CELL_TYPE,
          { out with
            size := (s.CellEntries e).size
            cellPtr := resolve env s.memory_trunk (s.CellEntries e).offset
            entryIndex := e },
          ReleaseEntryLock e (ReleaseBucketLock b s))
      else
        some (E_CELL_FOUND,
          { out with
            size := (s.CellEntries e).size
            cellPtr := resolve env s.memory_trunk (s.CellEntries e).offset
            entryIndex := e },
          ReleaseBucketLock b s) := rfl

theorem UpdateCell_found_eq (size : Int) (out : OutParams) (e : Int) (b : Nat) (p : Int)
    (s : MTHash T) :
    CGetLockedCellInfo4UpdateCell.found env size out e b p s =
      if s.AllocLock = true then none
      else some (E_SUCCESS,
        { out with
          cellPtr := resolve env
            (grown env size e (enteredAlloc (ReleaseBucketLock b s))).2.memory_trunk
            (grown env size e (enteredAlloc (ReleaseBucketLock b s))).1
          entryIndex := e },
        regrown env size e b s) := by
  unfold CGetLockedCellInfo4UpdateCell.found
  by_cases ha : s.AllocLock = true
  · simp [ENTER_ALLOCMEM_CELLENTRY_UPDATE_CRITICAL_SECTION, ha]
  · have ha1 : s.AllocLock = false := by simpa using ha
    have hE : ENTER_ALLOCMEM_CELLENTRY_UPDATE_CRITICAL_SECTION (ReleaseBucketLock b s)
        = some (enteredAlloc (ReleaseBucketLock b s)) := ENTER_free (by simpa using ha1)
    simp only [hE, ha1]
    rfl

theorem SaveCell_found_eq (size : Int) (type : Nat) (out : OutParams) (e : Int) (b : Nat)
    (p : Int) (s : MTHash T) :
    CGetLockedCellInfo4SaveCell.found env size type out e b p s =
      if s.AllocLock = true then none
      else some (E_SUCCESS,
        { out with
          cellPtr := resolve env
            (grown env size e (enteredAlloc (ReleaseBucketLock b s))).2.memory_trunk
            (grown env size e (enteredAlloc (ReleaseBucketLock b s))).1
          entryIndex := e },
        setType env e type (regrown env size e b s)) := by
  unfold CGetLockedCellInfo4SaveCell.found
  by_cases ha : s.AllocLock = true
  · simp [ENTER_ALLOCMEM_CELLENTRY_UPDATE_CRITICAL_SECTION, ha]
  · have ha1 : s.AllocLock = false := by simpa using ha
    have hE : ENTER_ALLOCMEM_CELLENTRY_UPDATE_CRITICAL_SECTION (ReleaseBucketLock b s)
        = some (enteredAlloc (ReleaseBucketLock b s)) := ENTER_free (by simpa using ha1)
    simp only [hE, ha1]
    rfl

theorem SaveCell_notfound_eq (cellId : Nat) (size : Int) (type : Nat) (out : OutParams)
    (b : Nat) (s : MTHash T) :
    CGetLockedCellInfo4SaveCell.notfound env cellId size type out b s =
      if (s.MTEntries (env.FindFreeEntry s)).EntryLock = true ∨ s.AllocLock = true then none
      else some (E_SUCCESS,
        { out with
          cellPtr := resolve env (linkedAlloc env cellId size b s).2.memory_trunk
            (linkedAlloc env cellId size b s).1
          entryIndex := env.FindFreeEntry s },
        published env cellId size type b s) := by
  unfold CGetLockedCellInfo4SaveCell.notfound
  by_cases hl : (s.MTEntries (env.FindFreeEntry s)).EntryLock = true
  · simp [TryGetEntryLock, hl]
  · have hl1 : (s.MTEntries (env.FindFreeEntry s)).EntryLock = false := by simpa using hl
    by_cases ha : s.AllocLock = true
    · simp [TryGetEntryLock_free hl1, ENTER_ALLOCMEM_CELLENTRY_UPDATE_CRITICAL_SECTION, ha]
    · have ha1 : s.AllocLock = false := by simpa using ha
      have hE : ENTER_ALLOCMEM_CELLENTRY_UPDATE_CRITICAL_SECTION
          (linked env cellId b s) = some (enteredAlloc (linked env cellId b s)) :=
        ENTER_free (by simpa [linked] using ha1)
      have hE1 : ENTER_ALLOCMEM_CELLENTRY_UPDATE_CRITICAL_SECTION
          (ReleaseBucketLock b (WriteBucket b (env.FindFreeEntry s)
            (WriteNextEntry (env.FindFreeEntry s)
              ((WriteKey (env.FindFreeEntry s) cellId
                (lockedEntry (env.FindFreeEntry s) s)).Buckets b)
              (WriteKey (env.FindFreeEntry s) cellId
                (lockedEntry (env.FindFreeEntry s) s)))))
          = some (enteredAlloc (linked env cellId b s)) := hE
      simp only [TryGetEntryLock_free hl1, hE1, hl1, ha1]
      simp
      exact ⟨rfl, rfl⟩

theorem AddCell_notfound_eq (cellId : Nat) (size : Int) (type : Nat) (out : OutParams)
    (b : Nat) (s : MTHash T) :
    CGetLockedCellInfo4AddCell.notfound env cellId size type out b s =
      if (s.MTEntries (env.FindFreeEntry s)).EntryLock = true ∨ s.AllocLock = true then none
      else some (E_SUCCESS,
        { out with
          cellPtr := resolve env (linkedAlloc env cellId size b s).2.memory_trunk
            (linkedAlloc env cellId size b s).1
          entryIndex := env.FindFreeEntry s },
        published env cellId size type b s) := by
  unfold CGetLockedCellInfo4AddCell.notfound
  by_cases hl : (s.MTEntries (env.FindFreeEntry s)).EntryLock = true
  · simp [TryGetEntryLock, hl]
  · have hl1 : (s.MTEntries (env.FindFreeEntry s)).EntryLock = false := by simpa using hl
    by_cases ha : s.AllocLock = true
    · simp [TryGetEntryLock_free hl1, ENTER_ALLOCMEM_CELLENTRY_UPDATE_CRITICAL_SECTION, ha]
    · have ha1 : s.AllocLock = false := by simpa using ha
      have hE : ENTER_ALLOCMEM_CELLENTRY_UPDATE_CRITICAL_SECTION
          (linked env cellId b s) = some (enteredAlloc (linked env cellId b s)) :=
        ENTER_free (by simpa [linked] using ha1)
      have hE1 : ENTER_ALLOCMEM_CELLENTRY_UPDATE_CRITICAL_SECTION
          (ReleaseBucketLock b (WriteBucket b (env.FindFreeEntry s)
            (WriteNextEntry (env.FindFreeEntry s)
              ((WriteKey (env.FindFreeEntry s) cellId
                (lockedEntry (env.FindFreeEntry s) s)).Buckets b)
              (WriteKey (env.FindFreeEntry s) cellId
                (lockedEntry (env.FindFreeEntry s) s)))))
          = some (enteredAlloc (linked env cellId b s)) := hE
      simp only [TryGetEntryLock_free hl1, hE1, hl1, ha1]
      simp
      exact ⟨rfl, rfl⟩

theorem AddOrUseCell_notfound_eq (cellId : Nat) (type : Nat) (out : OutParams)
    (b : Nat) (s : MTHash T) :
    CGetLockedCellInfo4AddOrUseCell.notfound env cellId type out b s =
      if (s.MTEntries (env.FindFreeEntry s)).EntryLock = true ∨ s.AllocLock = true then none
      else some (E_CELL_NOT_FOUND,
        { out with
          cellPtr := resolve env (linkedAlloc env cellId out.size b s).2.memory_trunk
            (linkedAlloc env cellId out.size b s).1
          entryIndex := env.FindFreeEntry s },
        published env cellId out.size type b s) := by
  unfold CGetLockedCellInfo4AddOrUseCell.notfound
  by_cases hl : (s.MTEntries (env.FindFreeEntry s)).EntryLock = true
  · simp [TryGetEntryLock, hl]
  · have hl1 : (s.MTEntries (env.FindFreeEntry s)).EntryLock = false := by simpa using hl
    by_cases ha : s.AllocLock = true
    · simp [TryGetEntryLock_free hl1, ENTER_ALLOCMEM_CELLENTRY_UPDATE_CRITICAL_SECTION, ha]
    · have ha1 : s.AllocLock = false := by simpa using ha
      have hE : ENTER_ALLOCMEM_CELLENTRY_UPDATE_CRITICAL_SECTION
          (linked env cellId b s) = some (enteredAlloc (linked env cellId b s)) :=
        ENTER_free (by simpa [linked] using ha1)
      have hE1 : ENTER_ALLOCMEM_CELLENTRY_UPDATE_CRITICAL_SECTION
          (ReleaseBucketLock b (WriteBucket b (env.FindFreeEntry s)
            (WriteNextEntry (env.FindFreeEntry s)
              ((WriteKey (env.FindFreeEntry s) cellId
                (lockedEntry (env.FindFreeEntry s) s)).Buckets b)
              (WriteKey (env.FindFreeEntry s) cellId
                (lockedEntry (env.FindFreeEntry s) s)))))
          = some (enteredAlloc (linked env cellId b s)) := hE
      simp only [TryGetEntryLock_free hl1, hE1, hl1, ha1]
      simp
      exact ⟨rfl, rfl⟩

/-- Entry locks after a miss path: the free slot's lock is taken, the others
are as before. -/
theorem published_EntryLock (cellId : Nat) (size : Int) (type : Nat) (b : Nat)
    (s : MTHash T) (x : Int) :
    ((published env cellId size type b s).MTEntries x).EntryLock =
      if x = env.FindFreeEntry s then true else (s.MTEntries x).EntryLock := by
  simp [published, linkedAlloc, linked]

/-- Entry locks are not touched by the growth step. -/
theorem regrown_MTEntries (size : Int) (e : Int) (b : Nat) (s : MTHash T) :
    (regrown env size e b s).MTEntries = s.MTEntries := by
  simp [regrown]

/-- The chain walk depends only on the keys and links of the slots. -/
theorem walkChain_congr {E E1 : Int → MTEntry} (cellId : Nat)
    (hK : ∀ x, (E1 x).Key = (E x).Key) (hN : ∀ x, (E1 x).NextEntry = (E x).NextEntry) :
    ∀ (fuel : Nat) (e p : Int), walkChain E1 cellId fuel e p = walkChain E cellId fuel e p := by
  intro fuel
  induction fuel with
  | zero => intro e p; rfl
  | succ n ih =>
    intro e p
    simp only [walkChain, hK, hN, ih]

/-- States with the same bucket heads, capacity, keys and links give the same
chain walk. -/
theorem findEntry_congr_keys {cellId : Nat} {s s1 : MTHash T}
    (hK : ∀ x, (s1.MTEntries x).Key = (s.MTEntries x).Key)
    (hN : ∀ x, (s1.MTEntries x).NextEntry = (s.MTEntries x).NextEntry)
    (hB : s1.Buckets = s.Buckets) (hC : s1.EntryCount = s.EntryCount) :
    findEntry env cellId s1 = findEntry env cellId s := by
  unfold findEntry
  rw [hB, hC, walkChain_congr cellId hK hN]

/-- A chain whose head slot holds the key is found at the head. -/
theorem findEntry_head {cellId : Nat} {s : MTHash T} {f : Int}
    (hB : s.Buckets (env.GetBucketIndex cellId) = f) (hf : 0 ≤ f)
    (hK : (s.MTEntries f).Key = cellId) :
    findEntry env cellId s = some (some (f, -1)) := by
  unfold findEntry
  rw [hB]
  simp [walkChain, hK, not_lt.mpr hf]

theorem LoadCell_hit {cellId : Nat} {out : OutParams} {s : MTHash T} {e p : Int}
    (hb : s.BucketLocks (env.GetBucketIndex cellId) = false)
    (hf : findEntry env cellId s = some (some (e, p)))
    (hl : (s.MTEntries e).EntryLock = false) :
    CGetLockedCellInfo4LoadCell env cellId out s =
      some (E_SUCCESS,
        { out with
          size := (s.CellEntries e).size
          cellPtr := resolve env s.memory_trunk (s.CellEntries e).offset
          entryIndex := e },
        ReleaseBucketLock (env.GetBucketIndex cellId)
          (lockedEntry e (lockedBucket (env.GetBucketIndex cellId) s))) := by
  unfold CGetLockedCellInfo4LoadCell
  rw [Lookup_LockEntry_hit hb hf hl, LoadCell_found_eq]
  rfl

/-- A match reported by the chain walk is a slot on the chain with the key. -/
theorem walkChain_found {E : Int → MTEntry} {cellId : Nat} :
    ∀ (fuel : Nat) (h p e q : Int), walkChain E cellId fuel h p = some (some (e, q)) →
      InChain E h e ∧ (E e).Key = cellId ∧ 0 ≤ e := by
  intro fuel
  induction fuel with
  | zero => intro h p e q hw; simp [walkChain] at hw
  | succ n ih =>
    intro h p e q hw
    unfold walkChain at hw
    by_cases hneg : h < 0
    · simp [hneg] at hw
    · have h0 : 0 ≤ h := not_lt.mp hneg
      by_cases hk : (E h).Key = cellId
      · simp only [hneg, hk, if_true, if_false, Option.some.injEq, Prod.mk.injEq] at hw
        obtain ⟨rfl, -⟩ := hw
        exact ⟨InChain.head h0, hk, h0⟩
      · simp only [hneg, hk, if_false] at hw
        obtain ⟨hc, hkey, he⟩ := ih _ _ _ _ hw
        exact ⟨InChain.next h0 hc, hkey, he⟩

/-- A chain walk that ends without a match has passed every slot of the
chain, and none of them has the key. -/
theorem walkChain_none {E : Int → MTEntry} {cellId : Nat} :
    ∀ (fuel : Nat) (h p : Int), walkChain E cellId fuel h p = some none →
      ∀ e, InChain E h e → (E e).Key ≠ cellId := by
  intro fuel
  induction fuel with
  | zero => intro h p hw; simp [walkChain] at hw
  | succ n ih =>
    intro h p hw e hc
    unfold walkChain at hw
    cases hc with
    | head h0 =>
      have hneg : ¬ h < 0 := not_lt.mpr h0
      by_cases hk : (E h).Key = cellId
      · simp [hneg, hk] at hw
      · exact hk
    | next h0 hrest =>
      have hneg : ¬ h < 0 := not_lt.mpr h0
      by_cases hk : (E h).Key = cellId
      · simp [hneg, hk] at hw
      · simp only [hneg, hk, if_false] at hw
        exact ih _ _ hw e hrest

/-- When the chain walk ends, it reports a match exactly when the key is on
the chain of its bucket. -/
theorem findEntry_found_iff {cellId : Nat} {s : MTHash T}
    (hw : findEntry env cellId s ≠ none) :
    (∃ e p, findEntry env cellId s = some (some (e, p))) ↔ KeyInChain env cellId s := by
  constructor
  · rintro ⟨e, p, hf⟩
    obtain ⟨hc, hk, -⟩ := walkChain_found _ _ _ _ _ hf
    exact ⟨e, hc, hk⟩
  · rintro ⟨e, hc, hk⟩
    cases hf : findEntry env cellId s with
    | none => exact absurd hf hw
    | some o =>
      cases o with
      | none => exact absurd hk (walkChain_none _ _ _ hf e hc)
      | some ep => exact ⟨ep.1, ep.2, rfl⟩

theorem findEntry_none_iff {cellId : Nat} {s : MTHash T}
    (hw : findEntry env cellId s ≠ none) :
    findEntry env cellId s = some none ↔ ¬ KeyInChain env cellId s := by
  rw [← findEntry_found_iff hw]
  cases hf : findEntry env cellId s with
  | none => exact absurd hf hw
  | some o =>
    cases o with
    | none => simp
    | some ep => obtain ⟨e, p⟩ := ep; simp

/-! ### The operations on a hit and on a miss -/

theorem LoadCell_miss {cellId : Nat} {out : OutParams} {s : MTHash T}
    (hb : s.BucketLocks (env.GetBucketIndex cellId) = false)
    (hf : findEntry env cellId s = some none) :
    CGetLockedCellInfo4LoadCell env cellId out s =
      some (E_CELL_NOT_FOUND, out,
        ReleaseBucketLock (env.GetBucketIndex cellId)
          (lockedBucket (env.GetBucketIndex cellId) s)) := by
  unfold CGetLockedCellInfo4LoadCell
  rw [Lookup_LockEntry_miss hb hf]
  rfl

theorem CellAccessor_hit {cellId : Nat} {out : OutParams} {s : MTHash T} {e p : Int}
    (hb : s.BucketLocks (env.GetBucketIndex cellId) = false)
    (hf : findEntry env cellId s = some (some (e, p)))
    (hl : (s.MTEntries e).EntryLock = false) :
    CGetLockedCellInfo4CellAccessor env cellId out s =
      some (E_SUCCESS,
        { size := (s.CellEntries e).size
          type := if env.CellTypeEnabled then (s.MTEntries e).CellType else out.type
          cellPtr := resolve env s.memory_trunk (s.CellEntries e).offset
          entryIndex := e },
        ReleaseBucketLock (env.GetBucketIndex cellId)
          (lockedEntry e (lockedBucket (env.GetBucketIndex cellId) s))) := by
  unfold CGetLockedCellInfo4CellAccessor
  rw [Lookup_LockEntry_hit hb hf hl, CellAccessor_found_eq]
  simp

theorem CellAccessor_miss {cellId : Nat} {out : OutParams} {s : MTHash T}
    (hb : s.BucketLocks (env.GetBucketIndex cellId) = false)
    (hf : findEntry env cellId s = some none) :
    CGetLockedCellInfo4CellAccessor env cellId out s =
      some (E_CELL_NOT_FOUND, out,
        ReleaseBucketLock (env.GetBucketIndex cellId)
          (lockedBucket (env.GetBucketIndex cellId) s)) := by
  unfold CGetLockedCellInfo4CellAccessor
  rw [Lookup_LockEntry_miss hb hf]
  rfl

theorem UpdateCell_miss {cellId : Nat} {size : Int} {out : OutParams} {s : MTHash T}
    (hb : s.BucketLocks (env.GetBucketIndex cellId) = false)
    (hf : findEntry env cellId s = some none) :
    CGetLockedCellInfo4UpdateCell env cellId size out s =
      some (E_CELL_NOT_FOUND, out,
        ReleaseBucketLock (env.GetBucketIndex cellId)
          (lockedBucket (env.GetBucketIndex cellId) s)) := by
  unfold CGetLockedCellInfo4UpdateCell
  rw [Lookup_LockEntry_miss hb hf]
  rfl

theorem UpdateCell_hit {cellId : Nat} {size : Int} {out : OutParams} {s : MTHash T}
    {e p : Int}
    (hb : s.BucketLocks (env.GetBucketIndex cellId) = false)
    (hf : findEntry env cellId s = some (some (e, p)))
    (hl : (s.MTEntries e).EntryLock = false) (ha : s.AllocLock = false) :
    CGetLockedCellInfo4UpdateCell env cellId size out s =
      some (E_SUCCESS,
        { out with
          cellPtr := resolve env
            (grown env size e (enteredAlloc (ReleaseBucketLock (env.GetBucketIndex cellId)
              (lockedEntry e (lockedBucket (env.GetBucketIndex cellId) s))))).2.memory_trunk
            (grown env size e (enteredAlloc (ReleaseBucketLock (env.GetBucketIndex cellId)
              (lockedEntry e (lockedBucket (env.GetBucketIndex cellId) s))))).1
          entryIndex := e },
        regrown env size e (env.GetBucketIndex cellId)
          (lockedEntry e (lockedBucket (env.GetBucketIndex cellId) s))) := by
  unfold CGetLockedCellInfo4UpdateCell
  rw [Lookup_LockEntry_hit hb hf hl, UpdateCell_found_eq, if_neg]
  simp [ha]

theorem SaveCell_hit {cellId : Nat} {size : Int} {type : Nat} {out : OutParams}
    {s : MTHash T} {e p : Int}
    (hb : s.BucketLocks (env.GetBucketIndex cellId) = false)
    (hf : findEntry env cellId s = some (some (e, p)))
    (hl : (s.MTEntries e).EntryLock = false) (ha : s.AllocLock = false) :
    CGetLockedCellInfo4SaveCell env cellId size type out s =
      some (E_SUCCESS,
        { out with
          cellPtr := resolve env
            (grown env size e (enteredAlloc (ReleaseBucketLock (env.GetBucketIndex cellId)
              (lockedEntry e (lockedBucket (env.GetBucketIndex cellId) s))))).2.memory_trunk
            (grown env size e (enteredAlloc (ReleaseBucketLock (env.GetBucketIndex cellId)
              (lockedEntry e (lockedBucket (env.GetBucketIndex cellId) s))))).1
          entryIndex := e },
        setType env e type (regrown env size e (env.GetBucketIndex cellId)
          (lockedEntry e (lockedBucket (env.GetBucketIndex cellId) s)))) := by
  unfold CGetLockedCellInfo4SaveCell
  rw [Lookup_LockEntry_hit hb hf hl, SaveCell_found_eq, if_neg]
  simp [ha]

theorem AddCell_hit {cellId : Nat} {size : Int} {type : Nat} {out : OutParams}
    {s : MTHash T} {e p : Int}
    (hb : s.BucketLocks (env.GetBucketIndex cellId) = false)
    (hf : findEntry env cellId s = some (some (e, p))) :
    CGetLockedCellInfo4AddCell env cellId size type out s =
      some (E_DUPLICATED_CELL, out,
        ReleaseBucketLock (env.GetBucketIndex cellId)
          (lockedBucket (env.GetBucketIndex cellId) s)) := by
  unfold CGetLockedCellInfo4AddCell
  rw [Lookup_NoLockEntry_hit hb hf]
  rfl

theorem AddCell_miss {cellId : Nat} {size : Int} {type : Nat} {out : OutParams}
    {s : MTHash T}
    (hb : s.BucketLocks (env.GetBucketIndex cellId) = false)
    (hf : findEntry env cellId s = some none)
    (hl : (s.MTEntries (env.FindFreeEntry
      (lockedBucket (env.GetBucketIndex cellId) s))).EntryLock = false)
    (ha : s.AllocLock = false) :
    CGetLockedCellInfo4AddCell env cellId size type out s =
      some (E_SUCCESS,
        { out with
          cellPtr := resolve env
            (linkedAlloc env cellId size (env.GetBucketIndex cellId)
              (lockedBucket (env.GetBucketIndex cellId) s)).2.memory_trunk
            (linkedAlloc env cellId size (env.GetBucketIndex cellId)
              (lockedBucket (env.GetBucketIndex cellId) s)).1
          entryIndex := env.FindFreeEntry (lockedBucket (env.GetBucketIndex cellId) s) },
        published env cellId size type (env.GetBucketIndex cellId)
          (lockedBucket (env.GetBucketIndex cellId) s)) := by
  unfold CGetLockedCellInfo4AddCell
  rw [Lookup_NoLockEntry_miss hb hf, AddCell_notfound_eq, if_neg]
  simp [hl, ha]

theorem AddOrUseCell_hit {cellId : Nat} {type : Nat} {out : OutParams}
    {s : MTHash T} {e p : Int}
    (hb : s.BucketLocks (env.GetBucketIndex cellId) = false)
    (hf : findEntry env cellId s = some (some (e, p)))
    (hl : (s.MTEntries e).EntryLock = false) :
    CGetLockedCellInfo4AddOrUseCell env cellId type out s =
      if env.CellTypeEnabled = true ∧ (s.MTEntries e).CellType ≠ type then
        some (E_WRONG_CELL_TYPE,
          { out with
            size := (s.CellEntries e).size
            cellPtr := resolve env s.memory_trunk (s.CellEntries e).offset
            entryIndex := e },
          ReleaseEntryLock e (ReleaseBucketLock (env.GetBucketIndex cellId)
            (lockedEntry e (lockedBucket (env.GetBucketIndex cellId) s))))
      else
        some (E_CELL_FOUND,
          { out with
            size := (s.CellEntries e).size
            cellPtr := resolve env s.memory_trunk (s.CellEntries e).offset
            entryIndex := e },
          ReleaseBucketLock (env.GetBucketIndex cellId)
            (lockedEntry e (lockedBucket (env.GetBucketIndex cellId) s))) := by
  unfold CGetLockedCellInfo4AddOrUseCell
  rw [Lookup_LockEntry_hit hb hf hl, AddOrUseCell_found_eq]
  simp

theorem AddOrUseCell_miss {cellId : Nat} {type : Nat} {out : OutParams} {s : MTHash T}
    (hb : s.BucketLocks (env.GetBucketIndex cellId) = false)
    (hf : findEntry env cellId s = some none)
    (hl : (s.MTEntries (env.FindFreeEntry
      (lockedBucket (env.GetBucketIndex cellId) s))).EntryLock = false)
    (ha : s.AllocLock = false) :
    CGetLockedCellInfo4AddOrUseCell env cellId type out s =
      some (E_CELL_NOT_FOUND,
        { out with
          cellPtr := resolve env
            (linkedAlloc env cellId out.size (env.GetBucketIndex cellId)
              (lockedBucket (env.GetBucketIndex cellId) s)).2.memory_trunk
            (linkedAlloc env cellId out.size (env.GetBucketIndex cellId)
              (lockedBucket (env.GetBucketIndex cellId) s)).1
          entryIndex := env.FindFreeEntry (lockedBucket (env.GetBucketIndex cellId) s) },
        published env cellId out.size type (env.GetBucketIndex cellId)
          (lockedBucket (env.GetBucketIndex cellId) s)) := by
  unfold CGetLockedCellInfo4AddOrUseCell
  rw [Lookup_LockEntry_miss hb hf, AddOrUseCell_notfound_eq, if_neg]
  simp [hl, ha]

/-- Taking and releasing a free bucket lock leaves the lock table as it was. -/
theorem BucketLocks_restored {b : Nat} {L : Nat → Bool} (hb : L b = false) :
    Function.update (Function.update L b true) b false = L := by
  funext x
  by_cases hx : x = b
  · subst hx; simp [hb]
  · simp [Function.update_apply, hx]

/-- Growth step, large object grown in place. -/
theorem grown_expand {size e : Int} {s : MTHash T}
    (h1 : (s.CellEntries e).size < size) (h2 : (s.CellEntries e).offset < 0) :
    grown env size e s =
      ((s.CellEntries e).offset,
        ExpandLargeObject env (-(s.CellEntries e).offset) (s.CellEntries e).size size s) := by
  have h1' : size > CellSize s e := h1
  simp only [grown, h1', h2, if_true]
  rfl

/-- Growth step, inline cell relocated. -/
theorem grown_relocate {size e : Int} {s : MTHash T}
    (h1 : (s.CellEntries e).size < size) (h2 : 0 ≤ (s.CellEntries e).offset) :
    grown env size e s =
      ((AddMemoryCell env size e s).1, MarkTrunkDirty (AddMemoryCell env size e s).2) := by
  have h1' : size > CellSize s e := h1
  simp only [grown, h1', not_lt.mpr h2, if_true, if_false]

/-- Growth step, the cell is large enough. -/
theorem grown_keep {size e : Int} {s : MTHash T} (h1 : size ≤ (s.CellEntries e).size) :
    grown env size e s = ((s.CellEntries e).offset, s) := by
  have h1' : ¬ size > CellSize s e := not_lt.mpr h1
  simp only [grown, h1', if_false]

/-! ### Traces -/

theorem setType_trace (e : Int) (type : Nat) (s : MTHash T) :
    (setType env e type s).trace = s.trace ++ typeEvents env e type := by
  unfold setType typeEvents
  split <;> simp

/-- The hit path of update in the three cases of the growth step. -/
theorem regrown_outcome (size : Int) (e : Int) (b : Nat) (s : MTHash T) :
    (size ≤ (s.CellEntries e).size →
      HitOutcome b e s (regrown env size e b (lockedEntry e (lockedBucket b s))) []
        { offset := (s.CellEntries e).offset, size := size } s.memory_trunk s.TrunkDirty []) ∧
    ((s.CellEntries e).size < size → (s.CellEntries e).offset < 0 →
      HitOutcome b e s (regrown env size e b (lockedEntry e (lockedBucket b s)))
        [Event.expandLargeObject (-(s.CellEntries e).offset) (s.CellEntries e).size size]
        { offset := (s.CellEntries e).offset, size := size }
        (env.ExpandLargeObject s.memory_trunk (-(s.CellEntries e).offset)
          (s.CellEntries e).size size)
        s.TrunkDirty []) ∧
    ((s.CellEntries e).size < size → 0 ≤ (s.CellEntries e).offset →
      HitOutcome b e s (regrown env size e b (lockedEntry e (lockedBucket b s)))
        [Event.addMemoryCell size e, Event.markTrunkDirty]
        { offset := (env.AddMemoryCell s.memory_trunk size e).1, size := size }
        (env.AddMemoryCell s.memory_trunk size e).2 true []) := by
  refine ⟨fun h1 => ?_, fun h1 h2 => ?_, fun h1 h2 => ?_⟩
  · have hg := @grown_keep T env size e
      (enteredAlloc (ReleaseBucketLock b (lockedEntry e (lockedBucket b s))))
      (by simpa using h1)
    simp only [regrown, hg, HitOutcome]
    simp
  · have hg := @grown_expand T env size e
      (enteredAlloc (ReleaseBucketLock b (lockedEntry e (lockedBucket b s))))
      (by simpa using h1) (by simpa using h2)
    simp only [regrown, hg, HitOutcome]
    simp
  · have hg := @grown_relocate T env size e
      (enteredAlloc (ReleaseBucketLock b (lockedEntry e (lockedBucket b s))))
      (by simpa using h1) (by simpa using h2)
    simp only [regrown, hg, HitOutcome]
    simp

/-- The guarded type assignment after a hit path adds its events and changes
neither the stored pair nor the arena. -/
theorem HitOutcome_setType {b : Nat} {e : Int} {s s1 : MTHash T} {arena : List Event}
    {pair : CellEntry} {trunk : T} {dirty : Bool} (type : Nat)
    (h : HitOutcome b e s s1 arena pair trunk dirty []) :
    HitOutcome b e s (setType env e type s1) arena pair trunk dirty (typeEvents env e type) := by
  obtain ⟨h1, h2, h3, h4⟩ := h
  refine ⟨by simpa using h1, by simpa using h2, by simpa using h3, ?_⟩
  rw [setType_trace, h4]
  simp

/-- The final state of a miss path is an insertion of the free slot. -/
theorem published_Inserted (cellId : Nat) (size : Int) (type : Nat) (b : Nat)
    (s : MTHash T) :
    Inserted env cellId size type b (env.FindFreeEntry (lockedBucket b s)) s
      (published env cellId size type b (lockedBucket b s)) := by
  refine ⟨?_, ?_, ?_, ?_, ?_, ?_, ?_, ?_⟩
  · simp [published, linkedAlloc, linked]
  · simp [published, linkedAlloc, linked]
  · simp [published, linkedAlloc, linked]
  · intro b1 hb1
    simp [published, linkedAlloc, linked, Function.update_apply, hb1]
  · intro x hx
    simp [published, linkedAlloc, linked, Function.update_apply, hx]
  · simp [published, linkedAlloc, linked]
  · cases hT : env.CellTypeEnabled <;> simp [published, linkedAlloc, linked, hT]
  · simp [published, linkedAlloc, linked, setType_trace]

theorem SaveCell_miss {cellId : Nat} {size : Int} {type : Nat} {out : OutParams}
    {s : MTHash T}
    (hb : s.BucketLocks (env.GetBucketIndex cellId) = false)
    (hf : findEntry env cellId s = some none)
    (hl : (s.MTEntries (env.FindFreeEntry
      (lockedBucket (env.GetBucketIndex cellId) s))).EntryLock = false)
    (ha : s.AllocLock = false) :
    CGetLockedCellInfo4SaveCell env cellId size type out s =
      some (E_SUCCESS,
        { out with
          cellPtr := resolve env
            (linkedAlloc env cellId size (env.GetBucketIndex cellId)
              (lockedBucket (env.GetBucketIndex cellId) s)).2.memory_trunk
            (linkedAlloc env cellId size (env.GetBucketIndex cellId)
              (lockedBucket (env.GetBucketIndex cellId) s)).1
          entryIndex := env.FindFreeEntry (lockedBucket (env.GetBucketIndex cellId) s) },
        published env cellId size type (env.GetBucketIndex cellId)
          (lockedBucket (env.GetBucketIndex cellId) s)) := by
  unfold CGetLockedCellInfo4SaveCell
  rw [Lookup_LockEntry_miss hb hf, SaveCell_notfound_eq, if_neg]
  simp [hl, ha]

theorem typeEvents_TagEvents (e : Int) (type : Nat) : TagEvents e (typeEvents env e type) := by
  unfold typeEvents TagEvents
  split
  · exact Or.inr ⟨type, rfl⟩
  · exact Or.inl rfl

/-- The events of a hit path of save or update. -/
theorem HitOutcome_CallTrace {b : Nat} {e free : Int} {s s1 : MTHash T} {tag : List Event}
    (size : Int) (htag : TagEvents e tag)
    (h : (size ≤ (s.CellEntries e).size →
        HitOutcome b e s s1 []
          { offset := (s.CellEntries e).offset, size := size } s.memory_trunk s.TrunkDirty tag) ∧
      ((s.CellEntries e).size < size → (s.CellEntries e).offset < 0 →
        HitOutcome b e s s1
          [Event.expandLargeObject (-(s.CellEntries e).offset) (s.CellEntries e).size size]
          { offset := (s.CellEntries e).offset, size := size }
          (env.ExpandLargeObject s.memory_trunk (-(s.CellEntries e).offset)
            (s.CellEntries e).size size)
          s.TrunkDirty tag) ∧
      ((s.CellEntries e).size < size → 0 ≤ (s.CellEntries e).offset →
        HitOutcome b e s s1
          [Event.addMemoryCell size e, Event.markTrunkDirty]
          { offset := (env.AddMemoryCell s.memory_trunk size e).1, size := size }
          (env.AddMemoryCell s.memory_trunk size e).2 true tag)) :
    ∃ tr, s1.trace = s.trace ++ tr ∧ CallTrace b free e tr := by
  obtain ⟨h1, h2, h3⟩ := h
  by_cases hc : size ≤ (s.CellEntries e).size
  · exact ⟨_, (h1 hc).2.2.2, CallTrace.reuse _ _ _ htag⟩
  · have hc1 : (s.CellEntries e).size < size := not_le.mp hc
    by_cases hneg : (s.CellEntries e).offset < 0
    · exact ⟨_, (h2 hc1 hneg).2.2.2, CallTrace.expand _ _ _ _ _ htag⟩
    · exact ⟨_, (h3 hc1 (not_lt.mp hneg)).2.2.2, CallTrace.relocate _ _ _ htag⟩

theorem regrown_CallTrace (size : Int) (e free : Int) (b : Nat) (s : MTHash T) :
    ∃ tr, (regrown env size e b (lockedEntry e (lockedBucket b s))).trace = s.trace ++ tr ∧
      CallTrace b free e tr :=
  HitOutcome_CallTrace size (Or.inl rfl) (regrown_outcome size e b s)

theorem setType_regrown_CallTrace (size : Int) (type : Nat) (e free : Int) (b : Nat)
    (s : MTHash T) :
    ∃ tr, (setType env e type
        (regrown env size e b (lockedEntry e (lockedBucket b s)))).trace = s.trace ++ tr ∧
      CallTrace b free e tr := by
  obtain ⟨h1, h2, h3⟩ := @regrown_outcome T env size e b s
  exact HitOutcome_CallTrace size (typeEvents_TagEvents e type)
    ⟨fun h => HitOutcome_setType type (h1 h), fun h h' => HitOutcome_setType type (h2 h h'),
      fun h h' => HitOutcome_setType type (h3 h h')⟩

theorem published_CallTrace (cellId : Nat) (size : Int) (type : Nat) (b : Nat)
    (s : MTHash T) :
    ∃ tr, (published env cellId size type b (lockedBucket b s)).trace = s.trace ++ tr ∧
      CallTrace b (env.FindFreeEntry (lockedBucket b s))
        (env.FindFreeEntry (lockedBucket b s)) tr :=
  ⟨_, (published_Inserted cellId size type b s).2.2.2.2.2.2.2,
    CallTrace.insert _ _ _ _ _ rfl (typeEvents_TagEvents _ _)⟩

/-- The events of a returned call form one of the sequences of `CallTrace`. -/
theorem run_CallTrace {c : Call} {out out1 : OutParams} {s s1 : MTHash T}
    {r : TrinityErrorCode} (h : c.run env out s = some (r, out1, s1)) :
    ∃ tr, s1.trace = s.trace ++ tr ∧
      CallTrace (env.GetBucketIndex c.cellId)
        (env.FindFreeEntry (lockedBucket (env.GetBucketIndex c.cellId) s))
        out1.entryIndex tr := by
  cases c with
  | CellAccessor cellId =>
    obtain ⟨-, ⟨-, hn⟩ | ⟨e, p, -, -, hf⟩⟩ := Lookup_LockEntry_inv h
    · simp only [CGetLockedCellInfo4CellAccessor.notfound, Option.some.injEq,
        Prod.mk.injEq] at hn
      obtain ⟨rfl, rfl, rfl⟩ := hn
      exact ⟨_, by simp [Call.cellId], CallTrace.miss⟩
    · simp only [CellAccessor_found_eq, Option.some.injEq, Prod.mk.injEq] at hf
      obtain ⟨rfl, rfl, rfl⟩ := hf
      exact ⟨_, by simp [Call.cellId], CallTrace.read⟩
  | LoadCell cellId =>
    obtain ⟨-, ⟨-, hn⟩ | ⟨e, p, -, -, hf⟩⟩ := Lookup_LockEntry_inv h
    · simp only [CGetLockedCellInfo4LoadCell.notfound, Option.some.injEq,
        Prod.mk.injEq] at hn
      obtain ⟨rfl, rfl, rfl⟩ := hn
      exact ⟨_, by simp [Call.cellId], CallTrace.miss⟩
    · simp only [LoadCell_found_eq, Option.some.injEq, Prod.mk.injEq] at hf
      obtain ⟨rfl, rfl, rfl⟩ := hf
      exact ⟨_, by simp [Call.cellId], CallTrace.read⟩
  | UpdateCell cellId size =>
    obtain ⟨-, ⟨-, hn⟩ | ⟨e, p, -, -, hf⟩⟩ := Lookup_LockEntry_inv h
    · simp only [CGetLockedCellInfo4UpdateCell.notfound, Option.some.injEq,
        Prod.mk.injEq] at hn
      obtain ⟨rfl, rfl, rfl⟩ := hn
      exact ⟨_, by simp [Call.cellId], CallTrace.miss⟩
    · rw [UpdateCell_found_eq] at hf
      split at hf
      · exact absurd hf (by simp)
      · simp only [Option.some.injEq, Prod.mk.injEq] at hf
        obtain ⟨rfl, rfl, rfl⟩ := hf
        exact regrown_CallTrace _ _ _ _ _
  | SaveCell cellId size type =>
    obtain ⟨-, ⟨-, hn⟩ | ⟨e, p, -, -, hf⟩⟩ := Lookup_LockEntry_inv h
    · rw [SaveCell_notfound_eq] at hn
      split at hn
      · exact absurd hn (by simp)
      · simp only [Option.some.injEq, Prod.mk.injEq] at hn
        obtain ⟨rfl, rfl, rfl⟩ := hn
        exact published_CallTrace _ _ _ _ _
    · rw [SaveCell_found_eq] at hf
      split at hf
      · exact absurd hf (by simp)
      · simp only [Option.some.injEq, Prod.mk.injEq] at hf
        obtain ⟨rfl, rfl, rfl⟩ := hf
        exact setType_regrown_CallTrace _ _ _ _ _ _
  | AddCell cellId size type =>
    obtain ⟨-, ⟨-, hn⟩ | ⟨e, p, -, hf⟩⟩ := Lookup_NoLockEntry_inv h
    · rw [AddCell_notfound_eq] at hn
      split at hn
      · exact absurd hn (by simp)
      · simp only [Option.some.injEq, Prod.mk.injEq] at hn
        obtain ⟨rfl, rfl, rfl⟩ := hn
        exact published_CallTrace _ _ _ _ _
    · simp only [CGetLockedCellInfo4AddCell.found, Option.some.injEq, Prod.mk.injEq] at hf
      obtain ⟨rfl, rfl, rfl⟩ := hf
      exact ⟨_, by simp [Call.cellId], CallTrace.miss⟩
  | AddOrUseCell cellId type =>
    obtain ⟨-, ⟨-, hn⟩ | ⟨e, p, -, -, hf⟩⟩ := Lookup_LockEntry_inv h
    · rw [AddOrUseCell_notfound_eq] at hn
      split at hn
      · exact absurd hn (by simp)
      · simp only [Option.some.injEq, Prod.mk.injEq] at hn
        obtain ⟨rfl, rfl, rfl⟩ := hn
        exact published_CallTrace _ _ _ _ _
    · rw [AddOrUseCell_found_eq] at hf
      split at hf
      · simp only [Option.some.injEq, Prod.mk.injEq] at hf
        obtain ⟨rfl, rfl, rfl⟩ := hf
        exact ⟨_, by simp [Call.cellId], CallTrace.wrongType⟩
      · simp only [Option.some.injEq, Prod.mk.injEq] at hf
        obtain ⟨rfl, rfl, rfl⟩ := hf
        exact ⟨_, by simp [Call.cellId], CallTrace.read⟩

/-- Lock order at the arena boundary, for each event sequence of a call. -/
theorem CallTrace_arena_order {b : Nat} {free slot : Int} {tr : List Event}
    (h : CallTrace b free slot tr) :
    EachStep (ArenaGuard b slot) [] tr ∧ inAlloc tr = false ∧
    tr.count Event.enterAlloc = tr.count Event.leaveAlloc ∧
    tr.filter Event.isBucketUnlock = [Event.bucketUnlock b] := by
  cases h with
  | miss =>
    simp [EachStep, ArenaGuard, inAlloc, heldAfter, Event.isArenaStep, Event.isBucketUnlock]
  | read =>
    simp [EachStep, ArenaGuard, inAlloc, heldAfter, Event.isArenaStep, Event.isBucketUnlock]
  | wrongType =>
    simp [EachStep, ArenaGuard, inAlloc, heldAfter, Event.isArenaStep, Event.isBucketUnlock]
  | reuse off size tag htag =>
    rcases htag with rfl | ⟨t, rfl⟩ <;>
      simp [EachStep, ArenaGuard, inAlloc, bucketHeld, entryHeld, heldAfter,
        Event.isArenaStep, Event.isBucketUnlock]
  | expand lo old off size tag htag =>
    rcases htag with rfl | ⟨t, rfl⟩ <;>
      simp [EachStep, ArenaGuard, inAlloc, bucketHeld, entryHeld, heldAfter,
        Event.isArenaStep, Event.isBucketUnlock]
  | relocate off size tag htag =>
    rcases htag with rfl | ⟨t, rfl⟩ <;>
      simp [EachStep, ArenaGuard, inAlloc, bucketHeld, entryHeld, heldAfter,
        Event.isArenaStep, Event.isBucketUnlock]
  | insert cellId hd off size tag hfree htag =>
    rcases htag with rfl | ⟨t, rfl⟩ <;>
      simp [EachStep, ArenaGuard, inAlloc, bucketHeld, entryHeld, heldAfter,
        Event.isArenaStep, Event.isBucketUnlock]

/-- Guarded writes, for each event sequence of a call. -/
theorem CallTrace_writes {b : Nat} {free slot : Int} {tr : List Event}
    (h : CallTrace b free slot tr) :
    EachStep (WriteGuard false free) [] tr ∧
    (∀ x, x ≠ free → ∀ k n, Event.writeKey x k ∉ tr ∧ Event.writeNextEntry x n ∉ tr) := by
  cases h with
  | miss =>
    simp [EachStep, WriteGuard, inAlloc, bucketHeld, entryHeld, heldAfter,
        Event.isStore, Event.isEntryUnlock]
  | read =>
    simp [EachStep, WriteGuard, inAlloc, bucketHeld, entryHeld, heldAfter,
        Event.isStore, Event.isEntryUnlock]
  | wrongType =>
    simp [EachStep, WriteGuard, inAlloc, bucketHeld, entryHeld, heldAfter,
        Event.isStore, Event.isEntryUnlock]
  | reuse off size tag htag =>
    rcases htag with rfl | ⟨t, rfl⟩ <;>
      simp [EachStep, WriteGuard, inAlloc, bucketHeld, entryHeld, heldAfter,
        Event.isStore, Event.isEntryUnlock]
  | expand lo old off size tag htag =>
    rcases htag with rfl | ⟨t, rfl⟩ <;>
      simp [EachStep, WriteGuard, inAlloc, bucketHeld, entryHeld, heldAfter,
        Event.isStore, Event.isEntryUnlock]
  | relocate off size tag htag =>
    rcases htag with rfl | ⟨t, rfl⟩ <;>
      simp [EachStep, WriteGuard, inAlloc, bucketHeld, entryHeld, heldAfter,
        Event.isStore, Event.isEntryUnlock]
  | insert cellId hd off size tag hfree htag =>
    subst hfree
    rcases htag with rfl | ⟨t, rfl⟩ <;>
      simp [EachStep, WriteGuard, inAlloc, bucketHeld, entryHeld, heldAfter,
        Event.isStore, Event.isEntryUnlock] <;>
      intro x hx _ _ <;> simp [hx]

/-- Publication against lock releases, for each event sequence of a call. -/
theorem CallTrace_store {b : Nat} {free slot : Int} {tr : List Event}
    (h : CallTrace b free slot tr) :
    EachStep (StoreGuard b slot) [] tr ∧ (tr.filter Event.isStore).length ≤ 1 ∧
    (tr.filter Event.isStore ≠ [] → tr.filter Event.isEntryUnlock = []) := by
  cases h with
  | miss =>
    simp [EachStep, StoreGuard, inAlloc, bucketHeld, entryHeld, heldAfter,
        Event.isStore, Event.isEntryUnlock]
  | read =>
    simp [EachStep, StoreGuard, inAlloc, bucketHeld, entryHeld, heldAfter,
        Event.isStore, Event.isEntryUnlock]
  | wrongType =>
    simp [EachStep, StoreGuard, inAlloc, bucketHeld, entryHeld, heldAfter,
        Event.isStore, Event.isEntryUnlock]
  | reuse off size tag htag =>
    rcases htag with rfl | ⟨t, rfl⟩ <;>
      simp [EachStep, StoreGuard, inAlloc, bucketHeld, entryHeld, heldAfter,
        Event.isStore, Event.isEntryUnlock]
  | expand lo old off size tag htag =>
    rcases htag with rfl | ⟨t, rfl⟩ <;>
      simp [EachStep, StoreGuard, inAlloc, bucketHeld, entryHeld, heldAfter,
        Event.isStore, Event.isEntryUnlock]
  | relocate off size tag htag =>
    rcases htag with rfl | ⟨t, rfl⟩ <;>
      simp [EachStep, StoreGuard, inAlloc, bucketHeld, entryHeld, heldAfter,
        Event.isStore, Event.isEntryUnlock]
  | insert cellId hd off size tag hfree htag =>
    subst hfree
    rcases htag with rfl | ⟨t, rfl⟩ <;>
      simp [EachStep, StoreGuard, inAlloc, bucketHeld, entryHeld, heldAfter,
        Event.isStore, Event.isEntryUnlock]

/-- Effect of a returned call on the chains: either bucket heads, keys and
links are untouched, or the chain walk ended without a match and the free slot
`f` became the head of the bucket, with the key of the call and the former
head as its link, all other heads, keys and links untouched. -/
theorem run_chain_effect {c : Call} {out out1 : OutParams} {s s1 : MTHash T}
    {r : TrinityErrorCode} (h : c.run env out s = some (r, out1, s1)) :
    (s1.Buckets = s.Buckets ∧
      ∀ x, (s1.MTEntries x).Key = (s.MTEntries x).Key ∧
        (s1.MTEntries x).NextEntry = (s.MTEntries x).NextEntry) ∨
    (findEntry env c.cellId s = some none ∧
      s1.Buckets = Function.update s.Buckets (env.GetBucketIndex c.cellId)
        (env.FindFreeEntry (lockedBucket (env.GetBucketIndex c.cellId) s)) ∧
      (s1.MTEntries (env.FindFreeEntry
        (lockedBucket (env.GetBucketIndex c.cellId) s))).Key = c.cellId ∧
      (s1.MTEntries (env.FindFreeEntry
        (lockedBucket (env.GetBucketIndex c.cellId) s))).NextEntry =
          s.Buckets (env.GetBucketIndex c.cellId) ∧
      ∀ x, x ≠ env.FindFreeEntry (lockedBucket (env.GetBucketIndex c.cellId) s) →
        (s1.MTEntries x).Key = (s.MTEntries x).Key ∧
        (s1.MTEntries x).NextEntry = (s.MTEntries x).NextEntry) := by
  cases c with
  | CellAccessor cellId =>
    left
    obtain ⟨-, ⟨-, hn⟩ | ⟨e, p, -, -, hf⟩⟩ := Lookup_LockEntry_inv h
    · simp only [CGetLockedCellInfo4CellAccessor.notfound, Option.some.injEq,
        Prod.mk.injEq] at hn
      obtain ⟨rfl, rfl, rfl⟩ := hn
      simp
    · simp only [CellAccessor_found_eq, Option.some.injEq, Prod.mk.injEq] at hf
      obtain ⟨rfl, rfl, rfl⟩ := hf
      simp
  | LoadCell cellId =>
    left
    obtain ⟨-, ⟨-, hn⟩ | ⟨e, p, -, -, hf⟩⟩ := Lookup_LockEntry_inv h
    · simp only [CGetLockedCellInfo4LoadCell.notfound, Option.some.injEq,
        Prod.mk.injEq] at hn
      obtain ⟨rfl, rfl, rfl⟩ := hn
      simp
    · simp only [LoadCell_found_eq, Option.some.injEq, Prod.mk.injEq] at hf
      obtain ⟨rfl, rfl, rfl⟩ := hf
      simp
  | UpdateCell cellId size =>
    left
    obtain ⟨-, ⟨-, hn⟩ | ⟨e, p, -, -, hf⟩⟩ := Lookup_LockEntry_inv h
    · simp only [CGetLockedCellInfo4UpdateCell.notfound, Option.some.injEq,
        Prod.mk.injEq] at hn
      obtain ⟨rfl, rfl, rfl⟩ := hn
      simp
    · rw [UpdateCell_found_eq] at hf
      split at hf
      · exact absurd hf (by simp)
      · simp only [Option.some.injEq, Prod.mk.injEq] at hf
        obtain ⟨rfl, rfl, rfl⟩ := hf
        simp [regrown]
  | SaveCell cellId size type =>
    obtain ⟨-, ⟨hmiss, hn⟩ | ⟨e, p, -, -, hf⟩⟩ := Lookup_LockEntry_inv h
    · right
      rw [SaveCell_notfound_eq] at hn
      split at hn
      · exact absurd hn (by simp)
      · simp only [Option.some.injEq, Prod.mk.injEq] at hn
        obtain ⟨rfl, rfl, rfl⟩ := hn
        refine ⟨hmiss, by simp [Call.cellId, published, linkedAlloc, linked],
          by simp [Call.cellId, published, linkedAlloc, linked],
          by simp [Call.cellId, published, linkedAlloc, linked], fun x hx => ?_⟩
        simp only [Call.cellId] at hx
        simp [published, linkedAlloc, linked, hx]
    · left
      rw [SaveCell_found_eq] at hf
      split at hf
      · exact absurd hf (by simp)
      · simp only [Option.some.injEq, Prod.mk.injEq] at hf
        obtain ⟨rfl, rfl, rfl⟩ := hf
        simp [regrown]
  | AddCell cellId size type =>
    obtain ⟨-, ⟨hmiss, hn⟩ | ⟨e, p, -, hf⟩⟩ := Lookup_NoLockEntry_inv h
    · right
      rw [AddCell_notfound_eq] at hn
      split at hn
      · exact absurd hn (by simp)
      · simp only [Option.some.injEq, Prod.mk.injEq] at hn
        obtain ⟨rfl, rfl, rfl⟩ := hn
        refine ⟨hmiss, by simp [Call.cellId, published, linkedAlloc, linked],
          by simp [Call.cellId, published, linkedAlloc, linked],
          by simp [Call.cellId, published, linkedAlloc, linked], fun x hx => ?_⟩
        simp only [Call.cellId] at hx
        simp [published, linkedAlloc, linked, hx]
    · left
      simp only [CGetLockedCellInfo4AddCell.found, Option.some.injEq, Prod.mk.injEq] at hf
      obtain ⟨rfl, rfl, rfl⟩ := hf
      simp
  | AddOrUseCell cellId type =>
    obtain ⟨-, ⟨hmiss, hn⟩ | ⟨e, p, -, -, hf⟩⟩ := Lookup_LockEntry_inv h
    · right
      rw [AddOrUseCell_notfound_eq] at hn
      split at hn
      · exact absurd hn (by simp)
      · simp only [Option.some.injEq, Prod.mk.injEq] at hn
        obtain ⟨rfl, rfl, rfl⟩ := hn
        refine ⟨hmiss, by simp [Call.cellId, published, linkedAlloc, linked],
          by simp [Call.cellId, published, linkedAlloc, linked],
          by simp [Call.cellId, published, linkedAlloc, linked], fun x hx => ?_⟩
        simp only [Call.cellId] at hx
        simp [published, linkedAlloc, linked, hx]
    · left
      rw [AddOrUseCell_found_eq] at hf
      split at hf
      · simp only [Option.some.injEq, Prod.mk.injEq] at hf
        obtain ⟨rfl, rfl, rfl⟩ := hf
        simp
      · simp only [Option.some.injEq, Prod.mk.injEq] at hf
        obtain ⟨rfl, rfl, rfl⟩ := hf
        simp

/-- Unfolding of chain membership. -/
theorem InChain_iff {E : Int → MTEntry} {h e : Int} :
    InChain E h e ↔ 0 ≤ h ∧ (e = h ∨ InChain E (E h).NextEntry e) := by
  constructor
  · intro hc
    cases hc with
    | head h0 => exact ⟨h0, Or.inl rfl⟩
    | next h0 hrest => exact ⟨h0, Or.inr hrest⟩
  · rintro ⟨h0, rfl | hrest⟩
    · exact InChain.head h0
    · exact InChain.next h0 hrest

/-- No slot is on a chain that starts at a negative index. -/
theorem InChain_neg {E : Int → MTEntry} {h e : Int} (hneg : h < 0) : ¬ InChain E h e := by
  intro hc
  exact absurd (InChain_iff.mp hc).1 (not_le.mpr hneg)

/-- Slot 2 of `demoTable` is on no chain. -/
theorem demoTable_free_slot : ¬ Reachable demoTable 2 := by
  rintro ⟨b, hc⟩
  by_cases hb : b = 1
  · subst hb
    have h0 : demoTable.Buckets 1 = 0 := rfl
    rw [h0, InChain_iff] at hc
    rcases hc.2 with h2 | hc1
    · exact absurd h2 (by decide)
    · have h1 : (demoTable.MTEntries 0).NextEntry = 1 := rfl
      rw [h1, InChain_iff] at hc1
      rcases hc1.2 with h2 | hc2
      · exact absurd h2 (by decide)
      · have h3 : (demoTable.MTEntries 1).NextEntry = -1 := rfl
        rw [h3] at hc2
        exact InChain_neg (by decide) hc2
  · have h0 : demoTable.Buckets b = -1 := by simp [demoTable, hb]
    rw [h0] at hc
    exact InChain_neg (by decide) hc

/-! ### The chain invariant -/

/-- Chains that do not pass slot `f` are the same in two slot tables whose links
agree outside `f`. -/
theorem InChain_of_update {E E1 : Int → MTEntry} {f : Int}
    (hN : ∀ x, x ≠ f → (E1 x).NextEntry = (E x).NextEntry) {h e : Int}
    (hf : ¬ InChain E h f) : InChain E1 h e ↔ InChain E h e := by
  constructor
  · intro hc
    induction hc with
    | head h0 => exact InChain.head h0
    | @next h e h0 _ ih =>
      have hne : h ≠ f := by
        rintro rfl
        exact hf (InChain.head h0)
      have hf1 : ¬ InChain E (E h).NextEntry f := fun hc1 => hf (InChain.next h0 hc1)
      rw [hN h hne] at ih
      exact InChain.next h0 (ih hf1)
  · intro hc
    induction hc with
    | head h0 => exact InChain.head h0
    | @next h e h0 _ ih =>
      have hne : h ≠ f := by
        rintro rfl
        exact hf (InChain.head h0)
      have hf1 : ¬ InChain E (E h).NextEntry f := fun hc1 => hf (InChain.next h0 hc1)
      have := ih hf1
      rw [← hN h hne] at this
      exact InChain.next h0 this

/-- Chains depend only on the links. -/
theorem InChain_congr {E E1 : Int → MTEntry}
    (hN : ∀ x, (E1 x).NextEntry = (E x).NextEntry) {h e : Int} :
    InChain E1 h e ↔ InChain E h e := by
  constructor
  · intro hc
    induction hc with
    | head h0 => exact InChain.head h0
    | @next h e h0 _ ih => rw [hN h] at ih; exact InChain.next h0 ih
  · intro hc
    induction hc with
    | head h0 => exact InChain.head h0
    | @next h e h0 _ ih => rw [← hN h] at ih; exact InChain.next h0 ih

/-- The invariant depends only on bucket heads, keys and links. -/
theorem ChainInv_congr {s s1 : MTHash T} (hB : s1.Buckets = s.Buckets)
    (hK : ∀ x, (s1.MTEntries x).Key = (s.MTEntries x).Key ∧
      (s1.MTEntries x).NextEntry = (s.MTEntries x).NextEntry)
    (hinv : ChainInv env s) : ChainInv env s1 := by
  have hc : ∀ b e, InChain s1.MTEntries (s1.Buckets b) e ↔
      InChain s.MTEntries (s.Buckets b) e := by
    intro b e
    rw [hB]
    exact InChain_congr fun x => (hK x).2
  obtain ⟨h1, h2, h3⟩ := hinv
  refine ⟨fun b b1 e hb hb1 => h1 b b1 e ((hc b e).mp hb) ((hc b1 e).mp hb1),
    fun b e hb => ?_, fun e e1 he he1 hk => ?_⟩
  · rw [(hK e).1]
    exact h2 b e ((hc b e).mp hb)
  · obtain ⟨b, hb⟩ := he
    obtain ⟨b1, hb1⟩ := he1
    rw [(hK e).1, (hK e1).1] at hk
    exact h3 e e1 ⟨b, (hc b e).mp hb⟩ ⟨b1, (hc b1 e1).mp hb1⟩ hk

/-- Linking a slot that is on no chain, with a key that is not on the chain of
its bucket, at the head of that chain keeps the invariant. -/
theorem ChainInv_insert {s s1 : MTHash T} {cellId : Nat} {f : Int}
    (hinv : ChainInv env s) (hfresh : ¬ Reachable s f)
    (hmiss : ∀ e, InChain s.MTEntries (s.Buckets (env.GetBucketIndex cellId)) e →
      (s.MTEntries e).Key ≠ cellId)
    (hB : s1.Buckets = Function.update s.Buckets (env.GetBucketIndex cellId) f)
    (hKf : (s1.MTEntries f).Key = cellId)
    (hNf : (s1.MTEntries f).NextEntry = s.Buckets (env.GetBucketIndex cellId))
    (hrest : ∀ x, x ≠ f → (s1.MTEntries x).Key = (s.MTEntries x).Key ∧
      (s1.MTEntries x).NextEntry = (s.MTEntries x).NextEntry) :
    ChainInv env s1 := by
  obtain ⟨-, h2, h3⟩ := hinv
  have hold : ∀ b e, InChain s1.MTEntries (s.Buckets b) e ↔
      InChain s.MTEntries (s.Buckets b) e := fun b e =>
    InChain_of_update (fun x hx => (hrest x hx).2) (fun hc => hfresh ⟨b, hc⟩)
  have hne : ∀ b e, InChain s.MTEntries (s.Buckets b) e → e ≠ f := by
    rintro b e hc rfl
    exact hfresh ⟨b, hc⟩
  -- the chains of the final state
  have hchain : ∀ b e, InChain s1.MTEntries (s1.Buckets b) e →
      (b = env.GetBucketIndex cellId ∧ e = f) ∨ InChain s.MTEntries (s.Buckets b) e := by
    intro b e hc
    rw [hB] at hc
    by_cases hb : b = env.GetBucketIndex cellId
    · subst hb
      rw [Function.update_same, InChain_iff] at hc
      rcases hc.2 with rfl | hc1
      · exact Or.inl ⟨rfl, rfl⟩
      · rw [hNf] at hc1
        exact Or.inr ((hold _ _).mp hc1)
    · rw [Function.update_noteq hb] at hc
      exact Or.inr ((hold _ _).mp hc)
  have hbucket : ∀ b e, InChain s1.MTEntries (s1.Buckets b) e →
      env.GetBucketIndex (s1.MTEntries e).Key = b := by
    intro b e hc
    rcases hchain b e hc with ⟨rfl, rfl⟩ | hc0
    · rw [hKf]
    · rw [(hrest e (hne b e hc0)).1]
      exact h2 b e hc0
  refine ⟨fun b b1 e hb hb1 => ?_, hbucket, ?_⟩
  · rw [← hbucket b e hb, ← hbucket b1 e hb1]
  · rintro e e1 ⟨b, hb⟩ ⟨b1, hb1⟩ hk
    rcases hchain b e hb with ⟨rfl, rfl⟩ | hc0
    · rcases hchain b1 e1 hb1 with ⟨-, rfl⟩ | hc1
      · rfl
      · exfalso
        rw [hKf, (hrest e1 (hne b1 e1 hc1)).1] at hk
        have hb1' := h2 b1 e1 hc1
        rw [← hk] at hb1'
        subst hb1'
        exact hmiss e1 hc1 hk.symm
    · rcases hchain b1 e1 hb1 with ⟨rfl, rfl⟩ | hc1
      · exfalso
        rw [hKf, (hrest e (hne b e hc0)).1] at hk
        have hb' := h2 b e hc0
        rw [hk] at hb'
        subst hb'
        exact hmiss e hc0 hk
      · rw [(hrest e (hne b e hc0)).1, (hrest e1 (hne b1 e1 hc1)).1] at hk
        exact h3 e e1 ⟨b, hc0⟩ ⟨b1, hc1⟩ hk

/-- Each returned call keeps the chain invariant when the slot handed out by
`FindFreeEntry` is on no chain. -/
theorem run_ChainInv {c : Call} {out out1 : OutParams} {s s1 : MTHash T}
    {r : TrinityErrorCode} (h : c.run env out s = some (r, out1, s1))
    (hinv : ChainInv env s)
    (hfresh : ¬ Reachable s
      (env.FindFreeEntry (lockedBucket (env.GetBucketIndex c.cellId) s))) :
    ChainInv env s1 := by
  rcases run_chain_effect h with ⟨hB, hK⟩ | ⟨hmiss, hB, hKf, hNf, hrest⟩
  · exact ChainInv_congr hB hK hinv
  · exact ChainInv_insert hinv hfresh (walkChain_none _ _ _ hmiss) hB hKf hNf hrest

/-- Releasing the entry lock after a call does not touch the chains. -/
theorem afterCall_ChainInv {c : Call} {r : TrinityErrorCode} {out1 : OutParams}
    {s1 : MTHash T} (hinv : ChainInv env s1) : ChainInv env (afterCall c r out1 s1) := by
  unfold afterCall
  split
  · exact ChainInv_congr (by simp) (fun x => by simp) hinv
  · exact hinv

/-- A run of calls keeps the chain invariant. -/
theorem runCalls_ChainInv :
    ∀ (calls : List (Call × OutParams)) (s sN : MTHash T), ChainInv env s →
      FreshAlong env calls s → runCalls env calls s = some sN → ChainInv env sN := by
  intro calls
  induction calls with
  | nil =>
    intro s sN hinv _ hrun
    simp only [runCalls, Option.some.injEq] at hrun
    exact hrun ▸ hinv
  | cons co rest ih =>
    obtain ⟨c, out⟩ := co
    intro s sN hinv hfresh hrun
    simp only [runCalls] at hrun
    cases hc : c.run env out s with
    | none => simp [hc] at hrun
    | some res =>
      obtain ⟨r, out1, s1⟩ := res
      simp only [hc] at hrun
      exact ih _ _ (afterCall_ChainInv (run_ChainInv hc hinv hfresh.1))
        (hfresh.2 r out1 s1 hc) hrun

/-- A table whose bucket heads are all negative has no slot on a chain and so
satisfies the chain invariant. -/
theorem ChainInv_empty {s : MTHash T} (hempty : ∀ b, s.Buckets b < 0) : ChainInv env s := by
  have hno : ∀ b e, ¬ InChain s.MTEntries (s.Buckets b) e := fun b e =>
    InChain_neg (hempty b)
  exact ⟨fun b b1 e hb _ => absurd hb (hno b e), fun b e hb => absurd hb (hno b e),
    fun e e1 he _ _ => by obtain ⟨b, hb⟩ := he; exact absurd hb (hno b e)⟩

/-- The chains of `demoTable`: slots 0 and 1 on the chain of bucket 1. -/
theorem demoTable_chains {b : Nat} {e : Int}
    (hc : InChain demoTable.MTEntries (demoTable.Buckets b) e) : b = 1 ∧ (e = 0 ∨ e = 1) := by
  by_cases hb : b = 1
  · subst hb
    refine ⟨rfl, ?_⟩
    have h0 : demoTable.Buckets 1 = 0 := rfl
    rw [h0, InChain_iff] at hc
    rcases hc.2 with h2 | hc1
    · exact Or.inl h2
    · have h1 : (demoTable.MTEntries 0).NextEntry = 1 := rfl
      rw [h1, InChain_iff] at hc1
      rcases hc1.2 with h2 | hc2
      · exact Or.inr h2
      · have h3 : (demoTable.MTEntries 1).NextEntry = -1 := rfl
        rw [h3] at hc2
        exact absurd hc2 (InChain_neg (by decide))
  · have h0 : demoTable.Buckets b = -1 := by simp [demoTable, hb]
    rw [h0] at hc
    exact absurd hc (InChain_neg (by decide))

/-- The table `demoTable` satisfies the chain invariant. -/
theorem demoTable_ChainInv : ChainInv (demoEnv true) demoTable := by
  refine ⟨fun b b1 e hb hb1 => ?_, fun b e hb => ?_, ?_⟩
  · rw [(demoTable_chains hb).1, (demoTable_chains hb1).1]
  · obtain ⟨rfl, rfl | rfl⟩ := demoTable_chains hb <;> rfl
  · rintro e e1 ⟨b, hb⟩ ⟨b1, hb1⟩ hk
    obtain ⟨-, rfl | rfl⟩ := demoTable_chains hb <;>
      obtain ⟨-, rfl | rfl⟩ := demoTable_chains hb1 <;>
      first
        | rfl
        | exact absurd hk (by decide)

/-- Along `twoCalls` from `emptyTable` the slot handed out is on no chain. -/
theorem twoCalls_fresh : FreshAlong bumpEnv twoCalls emptyTable := by
  have hempty : ∀ b, emptyTable.Buckets b < 0 := fun b => by simp [emptyTable]
  refine ⟨fun ⟨b, hc⟩ => InChain_neg (hempty b) hc, fun r out1 s1 hrun => ?_⟩
  have hsave := @SaveCell_miss DemoTrunk bumpEnv 7 2 1 demoOut emptyTable rfl (by decide) rfl rfl
  have hrun1 : CGetLockedCellInfo4SaveCell bumpEnv 7 2 1 demoOut emptyTable =
      some (r, out1, s1) := hrun
  rw [hsave] at hrun1
  simp only [Option.some.injEq, Prod.mk.injEq] at hrun1
  obtain ⟨rfl, rfl, rfl⟩ := hrun1
  obtain ⟨hB0, -, hN0, hBrest, -⟩ :=
    @published_Inserted DemoTrunk bumpEnv 7 2 1 (bumpEnv.GetBucketIndex 7) emptyTable
  have hf0 : bumpEnv.FindFreeEntry (lockedBucket (bumpEnv.GetBucketIndex 7) emptyTable) = 0 :=
    rfl
  rw [hf0] at hB0 hN0
  have hb0 : bumpEnv.GetBucketIndex 7 = 0 := rfl
  rw [hb0] at hB0 hN0 hBrest
  refine ⟨?_, fun _ _ _ _ => trivial⟩
  have hfree : bumpEnv.FindFreeEntry
      (lockedBucket (bumpEnv.GetBucketIndex (Call.AddCell 9 3 1).cellId)
        (afterCall (Call.SaveCell 7 2 1) E_SUCCESS
          { demoOut with
            cellPtr := resolve bumpEnv
              (linkedAlloc bumpEnv 7 2 (bumpEnv.GetBucketIndex 7)
                (lockedBucket (bumpEnv.GetBucketIndex 7) emptyTable)).2.memory_trunk
              (linkedAlloc bumpEnv 7 2 (bumpEnv.GetBucketIndex 7)
                (lockedBucket (bumpEnv.GetBucketIndex 7) emptyTable)).1
            entryIndex := bumpEnv.FindFreeEntry
              (lockedBucket (bumpEnv.GetBucketIndex 7) emptyTable) }
          (published bumpEnv 7 2 1 (bumpEnv.GetBucketIndex 7)
            (lockedBucket (bumpEnv.GetBucketIndex 7) emptyTable)))) = 1 := rfl
  rw [hfree]
  rintro ⟨b, hc⟩
  have hafter : afterCall (Call.SaveCell 7 2 1) E_SUCCESS
      { demoOut with
        cellPtr := resolve bumpEnv
          (linkedAlloc bumpEnv 7 2 (bumpEnv.GetBucketIndex 7)
            (lockedBucket (bumpEnv.GetBucketIndex 7) emptyTable)).2.memory_trunk
          (linkedAlloc bumpEnv 7 2 (bumpEnv.GetBucketIndex 7)
            (lockedBucket (bumpEnv.GetBucketIndex 7) emptyTable)).1
        entryIndex := bumpEnv.FindFreeEntry
          (lockedBucket (bumpEnv.GetBucketIndex 7) emptyTable) }
      (published bumpEnv 7 2 1 (bumpEnv.GetBucketIndex 7)
        (lockedBucket (bumpEnv.GetBucketIndex 7) emptyTable)) =
      ReleaseEntryLock 0 (published bumpEnv 7 2 1 0 (lockedBucket 0 emptyTable)) := rfl
  rw [hafter] at hc
  have hBk : (ReleaseEntryLock 0 (published bumpEnv 7 2 1 0 (lockedBucket 0 emptyTable))).Buckets
      = (published bumpEnv 7 2 1 0 (lockedBucket 0 emptyTable)).Buckets := by simp
  rw [hBk] at hc
  have hc1 : InChain (published bumpEnv 7 2 1 0 (lockedBucket 0 emptyTable)).MTEntries
      ((published bumpEnv 7 2 1 0 (lockedBucket 0 emptyTable)).Buckets b) 1 :=
    (@InChain_congr (published bumpEnv 7 2 1 0 (lockedBucket 0 emptyTable)).MTEntries
      (ReleaseEntryLock 0 (published bumpEnv 7 2 1 0 (lockedBucket 0 emptyTable))).MTEntries
      (fun x => by simp) _ _).mp hc
  by_cases hb : b = 0
  · subst hb
    rw [hB0, InChain_iff] at hc1
    rcases hc1.2 with h2 | hc2
    · exact absurd h2 (by decide)
    · rw [hN0] at hc2
      exact InChain_neg (hempty 0) hc2
  · rw [hBrest b hb] at hc1
    exact InChain_neg (hempty b) hc1

/-! ### Type-tag writes and the allocation critical section -/

/-- On a hit path without a type-tag write every write is inside the allocation
critical section and under the slot lock. -/
theorem regrown_strict (size : Int) (e free : Int) (b : Nat) (s : MTHash T) :
    ∃ tr, (regrown env size e b (lockedEntry e (lockedBucket b s))).trace = s.trace ++ tr ∧
      EachStep (WriteGuard true free) [] tr := by
  obtain ⟨h1, h2, h3⟩ := @regrown_outcome T env size e b s
  by_cases hc : size ≤ (s.CellEntries e).size
  · exact ⟨_, (h1 hc).2.2.2, by
      simp [EachStep, WriteGuard, inAlloc, entryHeld, heldAfter]⟩
  · have hc1 : (s.CellEntries e).size < size := not_le.mp hc
    by_cases hneg : (s.CellEntries e).offset < 0
    · exact ⟨_, (h2 hc1 hneg).2.2.2, by
        simp [EachStep, WriteGuard, inAlloc, entryHeld, heldAfter]⟩
    · exact ⟨_, (h3 hc1 (not_lt.mp hneg)).2.2.2, by
        simp [EachStep, WriteGuard, inAlloc, entryHeld, heldAfter]⟩

/-- On a miss path every write is inside the allocation critical section and
under the slot lock, the type-tag write included; key and link are written to
the free slot. -/
theorem published_strict (cellId : Nat) (size : Int) (type : Nat) (b : Nat)
    (s : MTHash T) :
    ∃ tr, (published env cellId size type b (lockedBucket b s)).trace = s.trace ++ tr ∧
      EachStep (WriteGuard true (env.FindFreeEntry (lockedBucket b s))) [] tr := by
  refine ⟨_, (published_Inserted cellId size type b s).2.2.2.2.2.2.2, ?_⟩
  unfold typeEvents
  split <;>
    simp [EachStep, WriteGuard, inAlloc, entryHeld, heldAfter]

/-- The hit path of `SaveCell` with tagging enabled ends with the exit from the
allocation critical section followed by the type-tag write. -/
theorem save_hit_tail (size : Int) (type : Nat) (e : Int) (b : Nat) (s : MTHash T)
    (hT : env.CellTypeEnabled = true) :
    ∃ pre, (setType env e type
        (regrown env size e b (lockedEntry e (lockedBucket b s)))).trace =
      s.trace ++ (pre ++ [Event.leaveAlloc, Event.writeCellType e type]) := by
  obtain ⟨h1, h2, h3⟩ := @regrown_outcome T env size e b s
  have hty : typeEvents env e type = [Event.writeCellType e type] := by
    simp [typeEvents, hT]
  rw [setType_trace, hty]
  by_cases hc : size ≤ (s.CellEntries e).size
  · rw [(h1 hc).2.2.2]
    exact ⟨[Event.bucketLock b, Event.entryLock e, Event.bucketUnlock b, Event.enterAlloc,
      Event.storeLocation e (s.CellEntries e).offset size], by simp⟩
  · have hc1 : (s.CellEntries e).size < size := not_le.mp hc
    by_cases hneg : (s.CellEntries e).offset < 0
    · rw [(h2 hc1 hneg).2.2.2]
      exact ⟨[Event.bucketLock b, Event.entryLock e, Event.bucketUnlock b, Event.enterAlloc,
        Event.expandLargeObject (-(s.CellEntries e).offset) (s.CellEntries e).size size,
        Event.storeLocation e (s.CellEntries e).offset size], by simp⟩
    · rw [(h3 hc1 (not_lt.mp hneg)).2.2.2]
      exact ⟨[Event.bucketLock b, Event.entryLock e, Event.bucketUnlock b, Event.enterAlloc,
        Event.addMemoryCell size e, Event.markTrunkDirty,
        Event.storeLocation e (env.AddMemoryCell s.memory_trunk size e).1 size], by simp⟩

/-- Every returned call other than a `SaveCell` that finds the cell with tagging
enabled makes all its writes, type-tag writes included, under the slot lock and
inside the allocation critical section. -/
theorem run_writes_strict {c : Call} {out out1 : OutParams} {s s1 : MTHash T}
    {r : TrinityErrorCode} (h : c.run env out s = some (r, out1, s1))
    (hnot : c.isSaveCell = false ∨ findEntry env c.cellId s = some none ∨
      env.CellTypeEnabled = false) :
    ∃ tr, s1.trace = s.trace ++ tr ∧
      EachStep (WriteGuard true
        (env.FindFreeEntry (lockedBucket (env.GetBucketIndex c.cellId) s))) [] tr := by
  cases c with
  | CellAccessor cellId =>
    obtain ⟨-, ⟨-, hn⟩ | ⟨e, p, -, -, hf⟩⟩ := Lookup_LockEntry_inv h
    · simp only [CGetLockedCellInfo4CellAccessor.notfound, Option.some.injEq,
        Prod.mk.injEq] at hn
      obtain ⟨rfl, rfl, rfl⟩ := hn
      exact ⟨[Event.bucketLock (env.GetBucketIndex cellId),
        Event.bucketUnlock (env.GetBucketIndex cellId)], by simp, by
        simp [EachStep, WriteGuard, inAlloc, entryHeld, heldAfter]⟩
    · simp only [CellAccessor_found_eq, Option.some.injEq, Prod.mk.injEq] at hf
      obtain ⟨rfl, rfl, rfl⟩ := hf
      exact ⟨[Event.bucketLock (env.GetBucketIndex cellId), Event.entryLock e,
        Event.bucketUnlock (env.GetBucketIndex cellId)], by simp, by
        simp [EachStep, WriteGuard, inAlloc, entryHeld, heldAfter]⟩
  | LoadCell cellId =>
    obtain ⟨-, ⟨-, hn⟩ | ⟨e, p, -, -, hf⟩⟩ := Lookup_LockEntry_inv h
    · simp only [CGetLockedCellInfo4LoadCell.notfound, Option.some.injEq,
        Prod.mk.injEq] at hn
      obtain ⟨rfl, rfl, rfl⟩ := hn
      exact ⟨[Event.bucketLock (env.GetBucketIndex cellId),
        Event.bucketUnlock (env.GetBucketIndex cellId)], by simp, by
        simp [EachStep, WriteGuard, inAlloc, entryHeld, heldAfter]⟩
    · simp only [LoadCell_found_eq, Option.some.injEq, Prod.mk.injEq] at hf
      obtain ⟨rfl, rfl, rfl⟩ := hf
      exact ⟨[Event.bucketLock (env.GetBucketIndex cellId), Event.entryLock e,
        Event.bucketUnlock (env.GetBucketIndex cellId)], by simp, by
        simp [EachStep, WriteGuard, inAlloc, entryHeld, heldAfter]⟩
  | UpdateCell cellId size =>
    obtain ⟨-, ⟨-, hn⟩ | ⟨e, p, -, -, hf⟩⟩ := Lookup_LockEntry_inv h
    · simp only [CGetLockedCellInfo4UpdateCell.notfound, Option.some.injEq,
        Prod.mk.injEq] at hn
      obtain ⟨rfl, rfl, rfl⟩ := hn
      exact ⟨[Event.bucketLock (env.GetBucketIndex cellId),
        Event.bucketUnlock (env.GetBucketIndex cellId)], by simp, by
        simp [EachStep, WriteGuard, inAlloc, entryHeld, heldAfter]⟩
    · rw [UpdateCell_found_eq] at hf
      split at hf
      · exact absurd hf (by simp)
      · simp only [Option.some.injEq, Prod.mk.injEq] at hf
        obtain ⟨rfl, rfl, rfl⟩ := hf
        exact regrown_strict _ _ _ _ _
  | SaveCell cellId size type =>
    obtain ⟨-, ⟨-, hn⟩ | ⟨e, p, hfind, -, hf⟩⟩ := Lookup_LockEntry_inv h
    · rw [SaveCell_notfound_eq] at hn
      split at hn
      · exact absurd hn (by simp)
      · simp only [Option.some.injEq, Prod.mk.injEq] at hn
        obtain ⟨rfl, rfl, rfl⟩ := hn
        exact published_strict _ _ _ _ _
    · rw [SaveCell_found_eq] at hf
      split at hf
      · exact absurd hf (by simp)
      · simp only [Option.some.injEq, Prod.mk.injEq] at hf
        obtain ⟨rfl, rfl, rfl⟩ := hf
        have hT : env.CellTypeEnabled = false := by
          rcases hnot with hs | hm | hT
          · simp [Call.isSaveCell] at hs
          · simp only [Call.cellId] at hm
            rw [hfind] at hm
            simp at hm
          · exact hT
        have hst : setType env e type
            (regrown env size e (env.GetBucketIndex cellId)
              (lockedEntry e (lockedBucket (env.GetBucketIndex cellId) s))) =
            regrown env size e (env.GetBucketIndex cellId)
              (lockedEntry e (lockedBucket (env.GetBucketIndex cellId) s)) := by
          simp [setType, hT]
        rw [hst]
        exact regrown_strict _ _ _ _ _
  | AddCell cellId size type =>
    obtain ⟨-, ⟨-, hn⟩ | ⟨e, p, -, hf⟩⟩ := Lookup_NoLockEntry_inv h
    · rw [AddCell_notfound_eq] at hn
      split at hn
      · exact absurd hn (by simp)
      · simp only [Option.some.injEq, Prod.mk.injEq] at hn
        obtain ⟨rfl, rfl, rfl⟩ := hn
        exact published_strict _ _ _ _ _
    · simp only [CGetLockedCellInfo4AddCell.found, Option.some.injEq, Prod.mk.injEq] at hf
      obtain ⟨rfl, rfl, rfl⟩ := hf
      exact ⟨[Event.bucketLock (env.GetBucketIndex cellId),
        Event.bucketUnlock (env.GetBucketIndex cellId)], by simp, by
        simp [EachStep, WriteGuard, inAlloc, entryHeld, heldAfter]⟩
  | AddOrUseCell cellId type =>
    obtain ⟨-, ⟨-, hn⟩ | ⟨e, p, -, -, hf⟩⟩ := Lookup_LockEntry_inv h
    · rw [AddOrUseCell_notfound_eq] at hn
      split at hn
      · exact absurd hn (by simp)
      · simp only [Option.some.injEq, Prod.mk.injEq] at hn
        obtain ⟨rfl, rfl, rfl⟩ := hn
        exact published_strict _ _ _ _ _
    · rw [AddOrUseCell_found_eq] at hf
      split at hf
      · simp only [Option.some.injEq, Prod.mk.injEq] at hf
        obtain ⟨rfl, rfl, rfl⟩ := hf
        exact ⟨[Event.bucketLock (env.GetBucketIndex cellId), Event.entryLock e,
          Event.bucketUnlock (env.GetBucketIndex cellId), Event.entryUnlock e], by simp, by
          simp [EachStep, WriteGuard, inAlloc, entryHeld, heldAfter]⟩
      · simp only [Option.some.injEq, Prod.mk.injEq] at hf
        obtain ⟨rfl, rfl, rfl⟩ := hf
        exact ⟨[Event.bucketLock (env.GetBucketIndex cellId), Event.entryLock e,
          Event.bucketUnlock (env.GetBucketIndex cellId)], by simp, by
          simp [EachStep, WriteGuard, inAlloc, entryHeld, heldAfter]⟩

/-- The events of a `SaveCell` that finds the cell with tagging enabled end with
the exit from the allocation critical section and the type-tag write. -/
theorem run_save_hit_tail {cellId : Nat} {size : Int} {type : Nat} {out out1 : OutParams}
    {s s1 : MTHash T} {r : TrinityErrorCode} {e p : Int}
    (h : (Call.SaveCell cellId size type).run env out s = some (r, out1, s1))
    (hfind : findEntry env cellId s = some (some (e, p)))
    (hT : env.CellTypeEnabled = true) :
    ∃ pre, s1.trace = s.trace ++ (pre ++ [Event.leaveAlloc, Event.writeCellType e type]) := by
  obtain ⟨-, ⟨hmiss, -⟩ | ⟨e1, p1, hfind1, -, hf⟩⟩ := Lookup_LockEntry_inv h
  · rw [hfind] at hmiss
    simp at hmiss
  · rw [hfind] at hfind1
    simp only [Option.some.injEq, Prod.mk.injEq] at hfind1
    obtain ⟨rfl, rfl⟩ := hfind1
    rw [SaveCell_found_eq] at hf
    split at hf
    · exact absurd hf (by simp)
    · simp only [Option.some.injEq, Prod.mk.injEq] at hf
      obtain ⟨rfl, rfl, rfl⟩ := hf
      exact save_hit_tail size type e _ s hT

end Lemmas

/-! ## Claims -/

section Claims

open MTHash TrinityErrorCode

/-- C1: for each of the six operations, a call that returns a success signal
found the lock of the slot reported in `entryIndex` free and leaves exactly
that lock held, all other entry locks as before; a call that returns a failure
code leaves every entry lock as it was before the call.  Every returned code
is one of the two kinds. -/
theorem C1_entry_lock_contract (env : Env T) (c : Call) (out out' : OutParams)
    (s s' : MTHash T) (r : TrinityErrorCode)
    (h : c.run env out s = some (r, out', s')) :
    (c.isSuccessSignal r ∨ c.isFailure r) ∧
    (c.isSuccessSignal r →
      (s.MTEntries out'.entryIndex).EntryLock = false ∧
      (s'.MTEntries out'.entryIndex).EntryLock = true ∧
      ∀ e, e ≠ out'.entryIndex →
        (s'.MTEntries e).EntryLock = (s.MTEntries e).EntryLock) ∧
    (c.isFailure r → ∀ e, (s'.MTEntries e).EntryLock = (s.MTEntries e).EntryLock) := by
  cases c with
  | CellAccessor cellId =>
    obtain ⟨-, ⟨-, hn⟩ | ⟨e, p, -, hfree, hf⟩⟩ := Lookup_LockEntry_inv h
    · simp only [CGetLockedCellInfo4CellAccessor.notfound, Option.some.injEq,
        Prod.mk.injEq] at hn
      obtain ⟨rfl, rfl, rfl⟩ := hn
      simp [Call.isSuccessSignal, Call.isFailure]
    · simp only [CellAccessor_found_eq, Option.some.injEq, Prod.mk.injEq] at hf
      obtain ⟨rfl, rfl, rfl⟩ := hf
      simp [Call.isSuccessSignal, Call.isFailure, hfree]
      intro x hx; simp [hx]
  | LoadCell cellId =>
    obtain ⟨-, ⟨-, hn⟩ | ⟨e, p, -, hfree, hf⟩⟩ := Lookup_LockEntry_inv h
    · simp only [CGetLockedCellInfo4LoadCell.notfound, Option.some.injEq,
        Prod.mk.injEq] at hn
      obtain ⟨rfl, rfl, rfl⟩ := hn
      simp [Call.isSuccessSignal, Call.isFailure]
    · simp only [LoadCell_found_eq, Option.some.injEq, Prod.mk.injEq] at hf
      obtain ⟨rfl, rfl, rfl⟩ := hf
      simp [Call.isSuccessSignal, Call.isFailure, hfree]
      intro x hx; simp [hx]
  | UpdateCell cellId size =>
    obtain ⟨-, ⟨-, hn⟩ | ⟨e, p, -, hfree, hf⟩⟩ := Lookup_LockEntry_inv h
    · simp only [CGetLockedCellInfo4UpdateCell.notfound, Option.some.injEq,
        Prod.mk.injEq] at hn
      obtain ⟨rfl, rfl, rfl⟩ := hn
      simp [Call.isSuccessSignal, Call.isFailure]
    · rw [UpdateCell_found_eq] at hf
      split at hf
      · exact absurd hf (by simp)
      · simp only [Option.some.injEq, Prod.mk.injEq] at hf
        obtain ⟨rfl, rfl, rfl⟩ := hf
        simp [Call.isSuccessSignal, Call.isFailure, hfree, regrown_MTEntries]
        intro x hx; simp [hx]
  | SaveCell cellId size type =>
    obtain ⟨-, ⟨-, hn⟩ | ⟨e, p, -, hfree, hf⟩⟩ := Lookup_LockEntry_inv h
    · rw [SaveCell_notfound_eq] at hn
      split at hn
      · exact absurd hn (by simp)
      · rename_i hfr
        simp only [Option.some.injEq, Prod.mk.injEq] at hn
        obtain ⟨rfl, rfl, rfl⟩ := hn
        simp only [not_or, Bool.not_eq_true] at hfr
        have hfr1 : (s.MTEntries (env.FindFreeEntry
            (lockedBucket (env.GetBucketIndex cellId) s))).EntryLock = false := by
          simpa using hfr.1
        simp [Call.isSuccessSignal, Call.isFailure, published_EntryLock, hfr1]
        intro x hx; simp [hx]
    · rw [SaveCell_found_eq] at hf
      split at hf
      · exact absurd hf (by simp)
      · simp only [Option.some.injEq, Prod.mk.injEq] at hf
        obtain ⟨rfl, rfl, rfl⟩ := hf
        simp [Call.isSuccessSignal, Call.isFailure, hfree, regrown_MTEntries]
        intro x hx; simp [hx]
  | AddCell cellId size type =>
    obtain ⟨-, ⟨-, hn⟩ | ⟨e, p, -, hf⟩⟩ := Lookup_NoLockEntry_inv h
    · rw [AddCell_notfound_eq] at hn
      split at hn
      · exact absurd hn (by simp)
      · rename_i hfr
        simp only [Option.some.injEq, Prod.mk.injEq] at hn
        obtain ⟨rfl, rfl, rfl⟩ := hn
        simp only [not_or, Bool.not_eq_true] at hfr
        have hfr1 : (s.MTEntries (env.FindFreeEntry
            (lockedBucket (env.GetBucketIndex cellId) s))).EntryLock = false := by
          simpa using hfr.1
        simp [Call.isSuccessSignal, Call.isFailure, published_EntryLock, hfr1]
        intro x hx; simp [hx]
    · simp only [CGetLockedCellInfo4AddCell.found, Option.some.injEq, Prod.mk.injEq] at hf
      obtain ⟨rfl, rfl, rfl⟩ := hf
      simp [Call.isSuccessSignal, Call.isFailure]
  | AddOrUseCell cellId type =>
    obtain ⟨-, ⟨-, hn⟩ | ⟨e, p, -, hfree, hf⟩⟩ := Lookup_LockEntry_inv h
    · rw [AddOrUseCell_notfound_eq] at hn
      split at hn
      · exact absurd hn (by simp)
      · rename_i hfr
        simp only [Option.some.injEq, Prod.mk.injEq] at hn
        obtain ⟨rfl, rfl, rfl⟩ := hn
        simp only [not_or, Bool.not_eq_true] at hfr
        have hfr1 : (s.MTEntries (env.FindFreeEntry
            (lockedBucket (env.GetBucketIndex cellId) s))).EntryLock = false := by
          simpa using hfr.1
        simp [Call.isSuccessSignal, Call.isFailure, published_EntryLock, hfr1]
        intro x hx; simp [hx]
    · rw [AddOrUseCell_found_eq] at hf
      split at hf
      · simp only [Option.some.injEq, Prod.mk.injEq] at hf
        obtain ⟨rfl, rfl, rfl⟩ := hf
        simp [Call.isSuccessSignal, Call.isFailure]
        intro x
        by_cases hx : x = e
        · simp [hx, hfree]
        · simp [hx]
      · simp only [Option.some.injEq, Prod.mk.injEq] at hf
        obtain ⟨rfl, rfl, rfl⟩ := hf
        simp [Call.isSuccessSignal, Call.isFailure, hfree]
        intro x hx; simp [hx]

/-- C1 at `SaveCell(7, 20, 5)` on `demoTable`: the call returns `E_SUCCESS`
for slot 0, whose lock was free and is held afterwards. -/
theorem C1_entry_lock_contract_witness :
    (Call.SaveCell 7 20 5).run (demoEnv true) demoOut demoTable =
        some (E_SUCCESS, { demoOut with cellPtr := 5008, entryIndex := 0 }, demoSaved) ∧
      (demoTable.MTEntries 0).EntryLock = false ∧
      (demoSaved.MTEntries 0).EntryLock = true ∧
      ∀ e, e ≠ 0 → (demoSaved.MTEntries e).EntryLock = (demoTable.MTEntries e).EntryLock :=
  ⟨rfl, (C1_entry_lock_contract (demoEnv true) (Call.SaveCell 7 20 5) demoOut
    { demoOut with cellPtr := 5008, entryIndex := 0 } demoTable demoSaved E_SUCCESS
    rfl).2.1 rfl⟩

/-- C2: after `SaveCell(id, N, T)` has returned `E_SUCCESS` with a slot index
that is a valid (non-negative) index, and the lock of that slot is released,
`LoadCell(id)` returns `E_SUCCESS` with size `N`, the slot index and the
pointer that the save returned; `N` may be smaller than the former size. -/
theorem C2_save_load_round_trip (env : Env T) (cellId : Nat) (N : Int) (type : Nat)
    (out out1 out2 : OutParams) (s s1 : MTHash T)
    (hsave : CGetLockedCellInfo4SaveCell env cellId N type out s = some (E_SUCCESS, out1, s1))
    (hslot : 0 ≤ out1.entryIndex) :
    (CGetLockedCellInfo4LoadCell env cellId out2 (ReleaseEntryLock out1.entryIndex s1)).map
        (fun res => (res.1, res.2.1)) =
      some (E_SUCCESS,
        { out2 with size := N, cellPtr := out1.cellPtr, entryIndex := out1.entryIndex }) := by
  obtain ⟨-, ⟨-, hn⟩ | ⟨e, p, hfind, hfree, hf⟩⟩ := Lookup_LockEntry_inv hsave
  · rw [SaveCell_notfound_eq] at hn
    split at hn
    · exact absurd hn (by simp)
    · simp only [Option.some.injEq, Prod.mk.injEq, true_and] at hn
      obtain ⟨rfl, rfl⟩ := hn
      simp only at hslot
      rw [LoadCell_hit (e := env.FindFreeEntry (lockedBucket (env.GetBucketIndex cellId) s))
        (p := -1)]
      · simp [published, linkedAlloc, linked]
      · simp [published, linkedAlloc, linked]
      · apply findEntry_head
        · simp [published, linkedAlloc, linked]
        · exact hslot
        · simp [published, linkedAlloc, linked]
      · simp
  · rw [SaveCell_found_eq] at hf
    split at hf
    · exact absurd hf (by simp)
    · simp only [Option.some.injEq, Prod.mk.injEq, true_and] at hf
      obtain ⟨rfl, rfl⟩ := hf
      rw [LoadCell_hit (e := e) (p := p)]
      · simp [regrown]
      · simp [regrown]
      · rw [← hfind]
        apply findEntry_congr_keys <;> simp [regrown]
      · simp

/-- C2 at `demoTable`: `SaveCell(7, 3, 5)` shrinks cell 7 from 8 to 3 bytes and
the following `LoadCell(7)` reports size 3 at the same slot and pointer. -/
theorem C2_save_load_round_trip_witness :
    MTHash.CGetLockedCellInfo4SaveCell (demoEnv true) 7 3 5 demoOut demoTable =
        some (E_SUCCESS, { demoOut with cellPtr := 5000, entryIndex := 0 }, demoShrunk) ∧
      (CGetLockedCellInfo4LoadCell (demoEnv true) 7 demoOut
          (ReleaseEntryLock 0 demoShrunk)).map (fun res => (res.1, res.2.1)) =
        some (E_SUCCESS, { demoOut with size := 3, cellPtr := 5000, entryIndex := 0 }) :=
  ⟨rfl, C2_save_load_round_trip (demoEnv true) 7 3 5 demoOut
    { demoOut with cellPtr := 5000, entryIndex := 0 } demoOut demoTable demoShrunk rfl
    (by decide)⟩

/-- C3: on a state whose bucket lock is free and whose chain walk ends (and,
when the key is absent, whose free slot and allocation section are available),
`AddCell` returns; the code is `E_DUPLICATED_CELL` exactly when a slot with key
`cellId` is on the chain of its bucket and `E_SUCCESS` otherwise.  On
`E_DUPLICATED_CELL` the reference parameters, bucket heads, slots (key, link,
type, lock), location pairs, arena, dirty flag and all locks are as before the
call, the bucket lock is free again, and the call consists of taking and
releasing the bucket lock: no slot lock is taken or waited for and the
allocation critical section is not entered (neither needs to be available). -/
theorem C3_add_cell_duplicate (env : Env T) (cellId : Nat) (size : Int) (type : Nat)
    (out : OutParams) (s : MTHash T)
    (hb : s.BucketLocks (env.GetBucketIndex cellId) = false)
    (hw : findEntry env cellId s ≠ none)
    (hmiss : ¬ KeyInChain env cellId s →
      (s.MTEntries (env.FindFreeEntry
        (lockedBucket (env.GetBucketIndex cellId) s))).EntryLock = false ∧
      s.AllocLock = false) :
    ∃ r out' s', CGetLockedCellInfo4AddCell env cellId size type out s = some (r, out', s') ∧
      (r = E_DUPLICATED_CELL ↔ KeyInChain env cellId s) ∧
      (r ≠ E_DUPLICATED_CELL → r = E_SUCCESS) ∧
      (r = E_DUPLICATED_CELL →
        out' = out ∧ s'.Buckets = s.Buckets ∧ s'.MTEntries = s.MTEntries ∧
        s'.CellEntries = s.CellEntries ∧ s'.EntryCount = s.EntryCount ∧
        s'.memory_trunk = s.memory_trunk ∧ s'.TrunkDirty = s.TrunkDirty ∧
        s'.AllocLock = s.AllocLock ∧ s'.BucketLocks = s.BucketLocks ∧
        s'.BucketLocks (env.GetBucketIndex cellId) = false ∧
        s'.trace = s.trace ++ [Event.bucketLock (env.GetBucketIndex cellId),
          Event.bucketUnlock (env.GetBucketIndex cellId)]) := by
  by_cases hk : KeyInChain env cellId s
  · obtain ⟨e, p, hf⟩ := (findEntry_found_iff hw).mpr hk
    refine ⟨E_DUPLICATED_CELL, out,
      ReleaseBucketLock (env.GetBucketIndex cellId)
        (lockedBucket (env.GetBucketIndex cellId) s), ?_, ?_, ?_, ?_⟩
    · unfold CGetLockedCellInfo4AddCell
      rw [Lookup_NoLockEntry_hit hb hf]
      rfl
    · simp [hk]
    · simp
    · intro _
      refine ⟨rfl, by simp, by simp, by simp, by simp, by simp, by simp, by simp, ?_, by simp,
        by simp⟩
      funext x
      by_cases hx : x = env.GetBucketIndex cellId
      · simp [hx, hb]
      · simp [Function.update_apply, hx]
  · have hf := (findEntry_none_iff hw).mpr hk
    obtain ⟨hfree, ha⟩ := hmiss hk
    refine ⟨E_SUCCESS,
      { out with
        cellPtr := resolve env
          (linkedAlloc env cellId size (env.GetBucketIndex cellId)
            (lockedBucket (env.GetBucketIndex cellId) s)).2.memory_trunk
          (linkedAlloc env cellId size (env.GetBucketIndex cellId)
            (lockedBucket (env.GetBucketIndex cellId) s)).1
        entryIndex := env.FindFreeEntry (lockedBucket (env.GetBucketIndex cellId) s) },
      published env cellId size type (env.GetBucketIndex cellId)
        (lockedBucket (env.GetBucketIndex cellId) s), ?_, ?_, ?_, ?_⟩
    · unfold CGetLockedCellInfo4AddCell
      rw [Lookup_NoLockEntry_miss hb hf, AddCell_notfound_eq, if_neg]
      simp [hfree, ha]
    · simp [hk]
    · simp
    · intro h; exact absurd h (by simp)

/-- C3 at `demoBusy`: cell 9 is on the chain of bucket 1, its slot lock and the
allocation section are held by someone else, and `AddCell(9, ..)` still returns
`E_DUPLICATED_CELL` with the table unchanged. -/
theorem C3_add_cell_duplicate_witness :
    demoBusy.BucketLocks ((demoEnv true).GetBucketIndex 9) = false ∧
      findEntry (demoEnv true) 9 demoBusy ≠ none ∧
      KeyInChain (demoEnv true) 9 demoBusy ∧
      (demoBusy.MTEntries 1).EntryLock = true ∧ demoBusy.AllocLock = true ∧
      ∃ r out' s', CGetLockedCellInfo4AddCell (demoEnv true) 9 50 3 demoOut demoBusy =
          some (r, out', s') ∧
        (r = E_DUPLICATED_CELL ↔ KeyInChain (demoEnv true) 9 demoBusy) ∧
        (r ≠ E_DUPLICATED_CELL → r = E_SUCCESS) ∧
        (r = E_DUPLICATED_CELL →
          out' = demoOut ∧ s'.Buckets = demoBusy.Buckets ∧
          s'.MTEntries = demoBusy.MTEntries ∧
          s'.CellEntries = demoBusy.CellEntries ∧ s'.EntryCount = demoBusy.EntryCount ∧
          s'.memory_trunk = demoBusy.memory_trunk ∧ s'.TrunkDirty = demoBusy.TrunkDirty ∧
          s'.AllocLock = demoBusy.AllocLock ∧ s'.BucketLocks = demoBusy.BucketLocks ∧
          s'.BucketLocks ((demoEnv true).GetBucketIndex 9) = false ∧
          s'.trace = demoBusy.trace ++ [Event.bucketLock ((demoEnv true).GetBucketIndex 9),
            Event.bucketUnlock ((demoEnv true).GetBucketIndex 9)]) :=
  have hk : KeyInChain (demoEnv true) 9 demoBusy :=
    ⟨1, InChain.next (by decide) (InChain.head (by decide)), rfl⟩
  ⟨rfl, by decide, hk, rfl, rfl,
    C3_add_cell_duplicate (demoEnv true) 9 50 3 demoOut demoBusy rfl (by decide)
      (fun hn => absurd hk hn)⟩

/-- C4: with type-tagging enabled and `A ≠ B`, after `AddOrUseCell(id, _, A)` has
created the cell (returned `E_CELL_NOT_FOUND` with a valid slot index) and the
slot lock is released, `AddOrUseCell(id, _, B)` returns `E_WRONG_CELL_TYPE`;
on return every entry lock is as before that call, the lock of the slot is
free, the bucket lock is free, and the stored type tag is still `A`. -/
theorem C4_type_gate (env : Env T) (cellId A B : Nat) (out out1 out2 : OutParams)
    (s s1 : MTHash T) (hT : env.CellTypeEnabled = true) (hAB : A ≠ B)
    (hfirst : CGetLockedCellInfo4AddOrUseCell env cellId A out s =
      some (E_CELL_NOT_FOUND, out1, s1))
    (hslot : 0 ≤ out1.entryIndex) :
    ∃ out3 s2,
      CGetLockedCellInfo4AddOrUseCell env cellId B out2
          (ReleaseEntryLock out1.entryIndex s1) = some (E_WRONG_CELL_TYPE, out3, s2) ∧
      (∀ x, (s2.MTEntries x).EntryLock =
        ((ReleaseEntryLock out1.entryIndex s1).MTEntries x).EntryLock) ∧
      (s2.MTEntries out1.entryIndex).EntryLock = false ∧
      s2.BucketLocks (env.GetBucketIndex cellId) = false ∧
      (s2.MTEntries out1.entryIndex).CellType = A := by
  obtain ⟨-, ⟨-, hn⟩ | ⟨e, p, -, -, hf⟩⟩ := Lookup_LockEntry_inv hfirst
  · rw [AddOrUseCell_notfound_eq] at hn
    split at hn
    · exact absurd hn (by simp)
    · simp only [Option.some.injEq, Prod.mk.injEq, true_and] at hn
      obtain ⟨rfl, rfl⟩ := hn
      simp only at hslot
      have hcall := @AddOrUseCell_hit T env cellId B out2
        (ReleaseEntryLock (env.FindFreeEntry (lockedBucket (env.GetBucketIndex cellId) s))
          (published env cellId out.size A (env.GetBucketIndex cellId)
            (lockedBucket (env.GetBucketIndex cellId) s)))
        (env.FindFreeEntry (lockedBucket (env.GetBucketIndex cellId) s)) (-1)
        (by simp [published, linkedAlloc, linked])
        (by
          apply findEntry_head
          · simp [published, linkedAlloc, linked]
          · exact hslot
          · simp [published, linkedAlloc, linked])
        (by simp)
      rw [if_pos (by simp [published, linkedAlloc, linked, hT, hAB])] at hcall
      refine ⟨_, _, hcall, ?_, ?_, ?_, ?_⟩
      · intro x
        by_cases hx : x = env.FindFreeEntry (lockedBucket (env.GetBucketIndex cellId) s)
        · simp [hx]
        · simp [hx]
      · simp
      · simp
      · simp [published, linkedAlloc, linked, hT]
  · rw [AddOrUseCell_found_eq] at hf
    split at hf <;> simp at hf

/-- C4 at `demoTable`: `AddOrUseCell(4, 16, type 5)` creates cell 4 in slot 2;
`AddOrUseCell(4, 32, type 6)` then returns `E_WRONG_CELL_TYPE`. -/
theorem C4_type_gate_witness :
    CGetLockedCellInfo4AddOrUseCell (demoEnv true) 4 5 { demoOut with size := 16 } demoTable =
        some (E_CELL_NOT_FOUND,
          { size := 16, type := 0, cellPtr := 5008, entryIndex := 2 }, demoCreated) ∧
      ∃ out3 s2,
        CGetLockedCellInfo4AddOrUseCell (demoEnv true) 4 6 { demoOut with size := 32 }
            (ReleaseEntryLock 2 demoCreated) = some (E_WRONG_CELL_TYPE, out3, s2) ∧
        (∀ x, (s2.MTEntries x).EntryLock =
          ((ReleaseEntryLock 2 demoCreated).MTEntries x).EntryLock) ∧
        (s2.MTEntries 2).EntryLock = false ∧
        s2.BucketLocks ((demoEnv true).GetBucketIndex 4) = false ∧
        (s2.MTEntries 2).CellType = 5 :=
  ⟨rfl, C4_type_gate (demoEnv true) 4 5 6 { demoOut with size := 16 }
    { size := 16, type := 0, cellPtr := 5008, entryIndex := 2 } { demoOut with size := 32 }
    demoTable demoCreated rfl (by decide) rfl (by decide)⟩

/-- C5: `AddOrUseCell` on a state where the chain walk finds slot `e` for the
identifier (bucket lock and slot lock free) returns; the code is `E_CELL_FOUND`
exactly when type-tagging is disabled or the stored tag equals the requested
type, and `E_WRONG_CELL_TYPE` otherwise.  On `E_CELL_FOUND` the size parameter
is the stored size, `cellPtr` the resolution of the stored offset, `entryIndex`
is `e`, and the state is unchanged (bucket heads, keys, links, tags, location
pairs, arena, dirty flag, bucket locks, allocation section) except that the
lock of `e` is held; the call makes no arena call. -/
theorem C5_add_or_use_hit (env : Env T) (cellId type : Nat) (out : OutParams)
    (s : MTHash T) (e p : Int)
    (hb : s.BucketLocks (env.GetBucketIndex cellId) = false)
    (hf : findEntry env cellId s = some (some (e, p)))
    (hl : (s.MTEntries e).EntryLock = false) :
    ∃ r out1 s1, CGetLockedCellInfo4AddOrUseCell env cellId type out s = some (r, out1, s1) ∧
      (s.MTEntries e).Key = cellId ∧
      (r = E_CELL_FOUND ↔
        (env.CellTypeEnabled = false ∨ (s.MTEntries e).CellType = type)) ∧
      (r ≠ E_CELL_FOUND → r = E_WRONG_CELL_TYPE) ∧
      (r = E_CELL_FOUND →
        out1.size = (s.CellEntries e).size ∧
        out1.cellPtr = resolve env s.memory_trunk (s.CellEntries e).offset ∧
        out1.entryIndex = e ∧
        s1.Buckets = s.Buckets ∧ s1.CellEntries = s.CellEntries ∧
        s1.memory_trunk = s.memory_trunk ∧ s1.TrunkDirty = s.TrunkDirty ∧
        s1.AllocLock = s.AllocLock ∧ s1.EntryCount = s.EntryCount ∧
        s1.BucketLocks = s.BucketLocks ∧
        (∀ x, (s1.MTEntries x).Key = (s.MTEntries x).Key ∧
          (s1.MTEntries x).NextEntry = (s.MTEntries x).NextEntry ∧
          (s1.MTEntries x).CellType = (s.MTEntries x).CellType ∧
          (s1.MTEntries x).EntryLock = if x = e then true else (s.MTEntries x).EntryLock) ∧
        s1.trace = s.trace ++ [Event.bucketLock (env.GetBucketIndex cellId),
          Event.entryLock e, Event.bucketUnlock (env.GetBucketIndex cellId)]) := by
  have hkey := (walkChain_found _ _ _ _ _ hf).2.1
  have hcall := @AddOrUseCell_hit T env cellId type out s e p hb hf hl
  by_cases hc : env.CellTypeEnabled = true ∧ (s.MTEntries e).CellType ≠ type
  · rw [if_pos hc] at hcall
    refine ⟨_, _, _, hcall, hkey, ?_, ?_, ?_⟩
    · simp [hc.1, hc.2]
    · simp
    · intro h; exact absurd h (by simp)
  · rw [if_neg hc] at hcall
    refine ⟨_, _, _, hcall, hkey, ?_, ?_, ?_⟩
    · simp only [true_iff]
      by_cases hT : env.CellTypeEnabled = true
      · right
        by_contra hne
        exact hc ⟨hT, hne⟩
      · left; simpa using hT
    · simp
    · intro _
      refine ⟨rfl, rfl, rfl, by simp, by simp, by simp, by simp, by simp, by simp,
        by simp [BucketLocks_restored hb], ?_, by simp⟩
      intro x
      simp

/-- C5 at `demoTable`: `AddOrUseCell(9, _, type 3)` finds cell 9 in slot 1 with
the same tag and returns `E_CELL_FOUND`. -/
theorem C5_add_or_use_hit_witness :
    findEntry (demoEnv true) 9 demoTable = some (some (1, 0)) ∧
      ∃ r out1 s1, CGetLockedCellInfo4AddOrUseCell (demoEnv true) 9 3 demoOut demoTable =
          some (r, out1, s1) ∧
        (demoTable.MTEntries 1).Key = 9 ∧
        (r = E_CELL_FOUND ↔
          ((demoEnv true).CellTypeEnabled = false ∨ (demoTable.MTEntries 1).CellType = 3)) ∧
        (r ≠ E_CELL_FOUND → r = E_WRONG_CELL_TYPE) ∧
        (r = E_CELL_FOUND →
          out1.size = (demoTable.CellEntries 1).size ∧
          out1.cellPtr = resolve (demoEnv true) demoTable.memory_trunk
            (demoTable.CellEntries 1).offset ∧
          out1.entryIndex = 1 ∧
          s1.Buckets = demoTable.Buckets ∧ s1.CellEntries = demoTable.CellEntries ∧
          s1.memory_trunk = demoTable.memory_trunk ∧ s1.TrunkDirty = demoTable.TrunkDirty ∧
          s1.AllocLock = demoTable.AllocLock ∧ s1.EntryCount = demoTable.EntryCount ∧
          s1.BucketLocks = demoTable.BucketLocks ∧
          (∀ x, (s1.MTEntries x).Key = (demoTable.MTEntries x).Key ∧
            (s1.MTEntries x).NextEntry = (demoTable.MTEntries x).NextEntry ∧
            (s1.MTEntries x).CellType = (demoTable.MTEntries x).CellType ∧
            (s1.MTEntries x).EntryLock =
              if x = 1 then true else (demoTable.MTEntries x).EntryLock) ∧
          s1.trace = demoTable.trace ++ [Event.bucketLock ((demoEnv true).GetBucketIndex 9),
            Event.entryLock 1, Event.bucketUnlock ((demoEnv true).GetBucketIndex 9)]) :=
  ⟨by decide, C5_add_or_use_hit (demoEnv true) 9 3 demoOut demoTable 1 0 rfl (by decide) rfl⟩

/-- C6: `AddOrUseCell` on a state where the chain walk ends without a match
(bucket lock, free slot `f` and allocation section available, `f` a valid
index) returns `E_CELL_NOT_FOUND`; the size parameter keeps its input value,
`entryIndex` is `f`, the pair of `f` is `(AddMemoryCell(inputSize, f), inputSize)`,
the key of `f` is the identifier, its tag is the requested type when tagging is
enabled, and its lock is held.  After the lock is released, `AddOrUseCell` with
the same identifier and type returns `E_CELL_FOUND` with size `inputSize` and
the same `entryIndex`. -/
theorem C6_add_or_use_miss (env : Env T) (cellId type : Nat) (out : OutParams)
    (s : MTHash T)
    (hb : s.BucketLocks (env.GetBucketIndex cellId) = false)
    (hf : findEntry env cellId s = some none)
    (hl : (s.MTEntries (env.FindFreeEntry
      (lockedBucket (env.GetBucketIndex cellId) s))).EntryLock = false)
    (ha : s.AllocLock = false)
    (hslot : 0 ≤ env.FindFreeEntry (lockedBucket (env.GetBucketIndex cellId) s)) :
    ∃ out1 s1, CGetLockedCellInfo4AddOrUseCell env cellId type out s =
        some (E_CELL_NOT_FOUND, out1, s1) ∧
      out1.size = out.size ∧
      out1.entryIndex = env.FindFreeEntry (lockedBucket (env.GetBucketIndex cellId) s) ∧
      s1.CellEntries out1.entryIndex =
        { offset := (env.AddMemoryCell s.memory_trunk out.size out1.entryIndex).1
          size := out.size } ∧
      (s1.MTEntries out1.entryIndex).Key = cellId ∧
      (env.CellTypeEnabled = true → (s1.MTEntries out1.entryIndex).CellType = type) ∧
      (s1.MTEntries out1.entryIndex).EntryLock = true ∧
      ∀ out2 : OutParams,
        (CGetLockedCellInfo4AddOrUseCell env cellId type out2
            (ReleaseEntryLock out1.entryIndex s1)).map
          (fun res => (res.1, res.2.1.size, res.2.1.entryIndex)) =
        some (E_CELL_FOUND, out.size, out1.entryIndex) := by
  refine ⟨_, _, AddOrUseCell_miss hb hf hl ha, rfl, rfl, ?_, ?_, ?_, ?_, ?_⟩
  · simp [published, linkedAlloc, linked]
  · simp [published, linkedAlloc, linked]
  · intro hT
    simp [published, linkedAlloc, linked, hT]
  · simp [published, linkedAlloc, linked]
  · intro out2
    have hcall := @AddOrUseCell_hit T env cellId type out2
      (ReleaseEntryLock (env.FindFreeEntry (lockedBucket (env.GetBucketIndex cellId) s))
        (published env cellId out.size type (env.GetBucketIndex cellId)
          (lockedBucket (env.GetBucketIndex cellId) s)))
      (env.FindFreeEntry (lockedBucket (env.GetBucketIndex cellId) s)) (-1)
      (by simp [published, linkedAlloc, linked])
      (by
        apply findEntry_head
        · simp [published, linkedAlloc, linked]
        · exact hslot
        · simp [published, linkedAlloc, linked])
      (by simp)
    rw [if_neg (by cases hT : env.CellTypeEnabled <;> simp [published, linkedAlloc, linked, hT])]
      at hcall
    simp only
    rw [hcall]
    simp [published, linkedAlloc, linked]

/-- C6 at `demoTable`: `AddOrUseCell(4, size 16, type 5)` creates cell 4 in the
free slot 2. -/
theorem C6_add_or_use_miss_witness :
    findEntry (demoEnv true) 4 demoTable = some none ∧
      ∃ out1 s1, CGetLockedCellInfo4AddOrUseCell (demoEnv true) 4 5
          { demoOut with size := 16 } demoTable = some (E_CELL_NOT_FOUND, out1, s1) ∧
        out1.size = 16 ∧
        out1.entryIndex = 2 ∧
        s1.CellEntries out1.entryIndex =
          { offset := ((demoEnv true).AddMemoryCell demoTable.memory_trunk 16
              out1.entryIndex).1
            size := 16 } ∧
        (s1.MTEntries out1.entryIndex).Key = 4 ∧
        ((demoEnv true).CellTypeEnabled = true → (s1.MTEntries out1.entryIndex).CellType = 5) ∧
        (s1.MTEntries out1.entryIndex).EntryLock = true ∧
        ∀ out2 : OutParams,
          (CGetLockedCellInfo4AddOrUseCell (demoEnv true) 4 5 out2
              (ReleaseEntryLock out1.entryIndex s1)).map
            (fun res => (res.1, res.2.1.size, res.2.1.entryIndex)) =
          some (E_CELL_FOUND, 16, out1.entryIndex) :=
  ⟨by decide, C6_add_or_use_miss (demoEnv true) 4 5 { demoOut with size := 16 } demoTable
    rfl (by decide) rfl rfl (by decide)⟩

/-- C7: on a state where the chain walk for the identifier ends without a match
(bucket lock free), `UpdateCell(id, size1)` returns `E_CELL_NOT_FOUND` and
changes nothing: reference parameters, bucket heads, slots, location pairs,
arena, dirty flag and all locks are as before, and the call only takes and
releases the bucket lock (the allocation section is not entered).  With the
free slot and the allocation section available, the following
`AddCell(id, size2, t)` returns `E_SUCCESS`; after the lock of its slot is
released, `UpdateCell(id, size3)` returns `E_SUCCESS` with the `entryIndex` of
the add, and the stored size is `size3`. -/
theorem C7_miss_then_hit (env : Env T) (cellId : Nat) (size1 size2 size3 : Int) (t : Nat)
    (out out2 out4 : OutParams) (s : MTHash T)
    (hb : s.BucketLocks (env.GetBucketIndex cellId) = false)
    (hf : findEntry env cellId s = some none)
    (hl : (s.MTEntries (env.FindFreeEntry (lockedBucket (env.GetBucketIndex cellId)
      (ReleaseBucketLock (env.GetBucketIndex cellId)
        (lockedBucket (env.GetBucketIndex cellId) s))))).EntryLock = false)
    (ha : s.AllocLock = false)
    (hslot : 0 ≤ env.FindFreeEntry (lockedBucket (env.GetBucketIndex cellId)
      (ReleaseBucketLock (env.GetBucketIndex cellId)
        (lockedBucket (env.GetBucketIndex cellId) s)))) :
    ∃ s1, CGetLockedCellInfo4UpdateCell env cellId size1 out s =
        some (E_CELL_NOT_FOUND, out, s1) ∧
      SameButEntryLocks s1 s ∧ s1.MTEntries = s.MTEntries ∧
      s1.trace = s.trace ++ [Event.bucketLock (env.GetBucketIndex cellId),
        Event.bucketUnlock (env.GetBucketIndex cellId)] ∧
      ∃ out3 s2, CGetLockedCellInfo4AddCell env cellId size2 t out2 s1 =
          some (E_SUCCESS, out3, s2) ∧
        ∃ out5 s3, CGetLockedCellInfo4UpdateCell env cellId size3 out4
            (ReleaseEntryLock out3.entryIndex s2) = some (E_SUCCESS, out5, s3) ∧
          out5.entryIndex = out3.entryIndex ∧
          (s3.CellEntries out3.entryIndex).size = size3 := by
  refine ⟨_, UpdateCell_miss hb hf, ?_, by simp, by simp, ?_⟩
  · refine ⟨by simp, fun x => by simp, by simp, by simp, by simp, by simp, by simp,
      by simp [BucketLocks_restored hb]⟩
  · have hadd := @AddCell_miss T env cellId size2 t out2
      (ReleaseBucketLock (env.GetBucketIndex cellId)
        (lockedBucket (env.GetBucketIndex cellId) s))
      (by simp) (by rw [← hf]; exact findEntry_congr rfl rfl rfl)
      (by simpa using hl) (by simpa using ha)
    refine ⟨_, _, hadd, ?_⟩
    have hupd := @UpdateCell_hit T env cellId size3 out4
      (ReleaseEntryLock (env.FindFreeEntry (lockedBucket (env.GetBucketIndex cellId)
          (ReleaseBucketLock (env.GetBucketIndex cellId)
            (lockedBucket (env.GetBucketIndex cellId) s))))
        (published env cellId size2 t (env.GetBucketIndex cellId)
          (lockedBucket (env.GetBucketIndex cellId)
            (ReleaseBucketLock (env.GetBucketIndex cellId)
              (lockedBucket (env.GetBucketIndex cellId) s)))))
      (env.FindFreeEntry (lockedBucket (env.GetBucketIndex cellId)
          (ReleaseBucketLock (env.GetBucketIndex cellId)
            (lockedBucket (env.GetBucketIndex cellId) s)))) (-1)
      (by simp [published, linkedAlloc, linked])
      (by
        apply findEntry_head
        · simp [published, linkedAlloc, linked]
        · exact hslot
        · simp [published, linkedAlloc, linked])
      (by simp) (by simp [published, linkedAlloc, linked])
    refine ⟨_, _, hupd, rfl, ?_⟩
    simp [regrown]

/-- C7 at `demoTable`: cell 4 is absent; update misses, add creates it in slot
2, update then succeeds on slot 2. -/
theorem C7_miss_then_hit_witness :
    findEntry (demoEnv true) 4 demoTable = some none ∧
      ∃ s1, CGetLockedCellInfo4UpdateCell (demoEnv true) 4 10 demoOut demoTable =
          some (E_CELL_NOT_FOUND, demoOut, s1) ∧
        SameButEntryLocks s1 demoTable ∧ s1.MTEntries = demoTable.MTEntries ∧
        s1.trace = demoTable.trace ++ [Event.bucketLock ((demoEnv true).GetBucketIndex 4),
          Event.bucketUnlock ((demoEnv true).GetBucketIndex 4)] ∧
        ∃ out3 s2, CGetLockedCellInfo4AddCell (demoEnv true) 4 12 5 demoOut s1 =
            some (E_SUCCESS, out3, s2) ∧
          ∃ out5 s3, CGetLockedCellInfo4UpdateCell (demoEnv true) 4 30 demoOut
              (ReleaseEntryLock out3.entryIndex s2) = some (E_SUCCESS, out5, s3) ∧
            out5.entryIndex = out3.entryIndex ∧
            (s3.CellEntries out3.entryIndex).size = 30 :=
  ⟨by decide, C7_miss_then_hit (demoEnv true) 4 10 12 30 5 demoOut demoOut demoOut demoTable
    rfl (by decide) rfl rfl (by decide)⟩

/-- C8: `LoadCell` and `CellAccessor` are pure reads.  On a state with the
bucket lock free: when the chain walk ends without a match both return
`E_CELL_NOT_FOUND` with the reference parameters untouched, the same final
state, and nothing changed, entry locks included; when it finds slot `e` (lock
free) both return `E_SUCCESS` with the stored size, the resolution of the
stored offset and `entryIndex = e` (the accessor also outputs the stored tag
when tagging is enabled), the same final state, and nothing changed except
that the lock of `e` is held.  In both cases the call consists of lock steps
only: no arena call, no entry into the allocation section, no dirty mark. -/
theorem C8_load_accessor_pure_reads (env : Env T) (cellId : Nat) (out : OutParams)
    (s : MTHash T) (hb : s.BucketLocks (env.GetBucketIndex cellId) = false) :
    (findEntry env cellId s = some none →
      ∃ s1, CGetLockedCellInfo4LoadCell env cellId out s = some (E_CELL_NOT_FOUND, out, s1) ∧
        CGetLockedCellInfo4CellAccessor env cellId out s = some (E_CELL_NOT_FOUND, out, s1) ∧
        SameButEntryLocks s1 s ∧ s1.MTEntries = s.MTEntries ∧
        s1.trace = s.trace ++ [Event.bucketLock (env.GetBucketIndex cellId),
          Event.bucketUnlock (env.GetBucketIndex cellId)]) ∧
    (∀ e p, findEntry env cellId s = some (some (e, p)) → (s.MTEntries e).EntryLock = false →
      ∃ out1 s1, CGetLockedCellInfo4LoadCell env cellId out s = some (E_SUCCESS, out1, s1) ∧
        CGetLockedCellInfo4CellAccessor env cellId out s =
          some (E_SUCCESS,
            { out1 with
              type := if env.CellTypeEnabled then (s.MTEntries e).CellType else out.type },
            s1) ∧
        out1 = { out with
          size := (s.CellEntries e).size
          cellPtr := resolve env s.memory_trunk (s.CellEntries e).offset
          entryIndex := e } ∧
        SameButEntryLocks s1 s ∧
        (∀ x, (s1.MTEntries x).EntryLock = if x = e then true else (s.MTEntries x).EntryLock) ∧
        s1.trace = s.trace ++ [Event.bucketLock (env.GetBucketIndex cellId),
          Event.entryLock e, Event.bucketUnlock (env.GetBucketIndex cellId)]) := by
  constructor
  · intro hf
    refine ⟨_, LoadCell_miss hb hf, CellAccessor_miss hb hf, ?_, by simp, by simp⟩
    exact ⟨by simp, fun x => by simp, by simp, by simp, by simp, by simp, by simp,
      by simp [BucketLocks_restored hb]⟩
  · intro e p hf hl
    refine ⟨_, _, LoadCell_hit hb hf hl, CellAccessor_hit hb hf hl, rfl, ?_,
      fun x => by simp, by simp⟩
    exact ⟨by simp, fun x => by simp, by simp, by simp, by simp, by simp, by simp,
      by simp [BucketLocks_restored hb]⟩

/-- C8 at `demoTable`: cell 4 is a miss, cell 9 a hit in slot 1. -/
theorem C8_load_accessor_pure_reads_witness :
    (∃ s1, CGetLockedCellInfo4LoadCell (demoEnv true) 4 demoOut demoTable =
          some (E_CELL_NOT_FOUND, demoOut, s1) ∧
        CGetLockedCellInfo4CellAccessor (demoEnv true) 4 demoOut demoTable =
          some (E_CELL_NOT_FOUND, demoOut, s1) ∧
        SameButEntryLocks s1 demoTable ∧ s1.MTEntries = demoTable.MTEntries ∧
        s1.trace = demoTable.trace ++ [Event.bucketLock ((demoEnv true).GetBucketIndex 4),
          Event.bucketUnlock ((demoEnv true).GetBucketIndex 4)]) ∧
      ∃ out1 s1, CGetLockedCellInfo4LoadCell (demoEnv true) 9 demoOut demoTable =
          some (E_SUCCESS, out1, s1) ∧
        CGetLockedCellInfo4CellAccessor (demoEnv true) 9 demoOut demoTable =
          some (E_SUCCESS,
            { out1 with
              type := if (demoEnv true).CellTypeEnabled then (demoTable.MTEntries 1).CellType
                else demoOut.type },
            s1) ∧
        out1 = { demoOut with
          size := (demoTable.CellEntries 1).size
          cellPtr := resolve (demoEnv true) demoTable.memory_trunk
            (demoTable.CellEntries 1).offset
          entryIndex := 1 } ∧
        SameButEntryLocks s1 demoTable ∧
        (∀ x, (s1.MTEntries x).EntryLock =
          if x = 1 then true else (demoTable.MTEntries x).EntryLock) ∧
        s1.trace = demoTable.trace ++ [Event.bucketLock ((demoEnv true).GetBucketIndex 9),
          Event.entryLock 1, Event.bucketUnlock ((demoEnv true).GetBucketIndex 9)] :=
  ⟨(C8_load_accessor_pure_reads (demoEnv true) 4 demoOut demoTable rfl).1 (by decide),
    (C8_load_accessor_pure_reads (demoEnv true) 9 demoOut demoTable rfl).2 1 0 (by decide) rfl⟩


/-- C10 as stated fails for `SaveCell`: with tagging enabled, cell 7 of
`demoTable` has tag 1; `SaveCell(7, 20, type 5)` returns `E_SUCCESS`, not an
error, and the stored tag becomes 5. -/
theorem C10_save_overwrites_tag :
    (demoEnv true).CellTypeEnabled = true ∧
      findEntry (demoEnv true) 7 demoTable = some (some (0, -1)) ∧
      (demoTable.MTEntries 0).CellType = 1 ∧
      CGetLockedCellInfo4SaveCell (demoEnv true) 7 20 5 demoOut demoTable =
        some (E_SUCCESS, { demoOut with cellPtr := 5008, entryIndex := 0 }, demoSaved) ∧
      (demoSaved.MTEntries 0).CellType = 5 ∧
      (demoSaved.MTEntries 0).CellType ≠ (demoTable.MTEntries 0).CellType :=
  ⟨rfl, by decide, by decide, rfl, by decide, by decide⟩

/-- C10, amended: with type-tagging enabled, on a state where the chain walk
finds slot `e` whose stored tag differs from the requested type (locks and
allocation section free): `AddCell` returns `E_DUPLICATED_CELL` and
`AddOrUseCell` returns `E_WRONG_CELL_TYPE`, both with the stored tag as before;
`SaveCell` returns `E_SUCCESS` and the stored tag is the requested type. -/
theorem C10_type_tag_on_mismatch (env : Env T) (cellId : Nat) (size : Int) (type : Nat)
    (out : OutParams) (s : MTHash T) (e p : Int)
    (hT : env.CellTypeEnabled = true)
    (hb : s.BucketLocks (env.GetBucketIndex cellId) = false)
    (hf : findEntry env cellId s = some (some (e, p)))
    (hne : (s.MTEntries e).CellType ≠ type)
    (hl : (s.MTEntries e).EntryLock = false) (ha : s.AllocLock = false) :
    (∃ s1, CGetLockedCellInfo4AddCell env cellId size type out s =
        some (E_DUPLICATED_CELL, out, s1) ∧
      (s1.MTEntries e).CellType = (s.MTEntries e).CellType) ∧
    (∃ out1 s1, CGetLockedCellInfo4AddOrUseCell env cellId type out s =
        some (E_WRONG_CELL_TYPE, out1, s1) ∧
      (s1.MTEntries e).CellType = (s.MTEntries e).CellType) ∧
    (∃ out1 s1, CGetLockedCellInfo4SaveCell env cellId size type out s =
        some (E_SUCCESS, out1, s1) ∧
      (s1.MTEntries e).CellType = type) := by
  refine ⟨⟨_, AddCell_hit hb hf, by simp⟩, ?_, ⟨_, _, SaveCell_hit hb hf hl ha, ?_⟩⟩
  · have hcall := @AddOrUseCell_hit T env cellId type out s e p hb hf hl
    rw [if_pos ⟨hT, hne⟩] at hcall
    exact ⟨_, _, hcall, by simp⟩
  · simp [regrown, hT]

/-- C10 (amended) at `demoTable`: cell 7 has tag 1, the requested type is 5. -/
theorem C10_type_tag_on_mismatch_witness :
    (∃ s1, CGetLockedCellInfo4AddCell (demoEnv true) 7 20 5 demoOut demoTable =
        some (E_DUPLICATED_CELL, demoOut, s1) ∧
      (s1.MTEntries 0).CellType = (demoTable.MTEntries 0).CellType) ∧
    (∃ out1 s1, CGetLockedCellInfo4AddOrUseCell (demoEnv true) 7 5 demoOut demoTable =
        some (E_WRONG_CELL_TYPE, out1, s1) ∧
      (s1.MTEntries 0).CellType = (demoTable.MTEntries 0).CellType) ∧
    (∃ out1 s1, CGetLockedCellInfo4SaveCell (demoEnv true) 7 20 5 demoOut demoTable =
        some (E_SUCCESS, out1, s1) ∧
      (s1.MTEntries 0).CellType = 5) :=
  C10_type_tag_on_mismatch (demoEnv true) 7 20 5 demoOut demoTable 0 (-1) rfl rfl
    (by decide) (by decide) rfl rfl

/-- C12: the chain invariant (a slot on a chain is on exactly one chain, the
chain of the bucket of its key, and no two slots on chains have the same key).
Each of the six operations, when it returns from a state satisfying the
invariant in which the slot handed out by `FindFreeEntry` is on no chain,
leaves a state satisfying the invariant (the chain walk reports a match exactly
when the key is on the chain of its bucket).  Hence, starting from a table with
all bucket heads empty, after any sequence of the six operations, with the
entry lock released between calls and `FindFreeEntry` handing out slots that
are on no chain, the invariant holds; in particular no identifier is stored in
two slots. -/
theorem C12_chain_invariant (env : Env T) :
    (∀ (c : Call) (out out1 : OutParams) (s s1 : MTHash T) (r : TrinityErrorCode),
      c.run env out s = some (r, out1, s1) → ChainInv env s →
      ¬ Reachable s (env.FindFreeEntry (lockedBucket (env.GetBucketIndex c.cellId) s)) →
      ChainInv env s1) ∧
    (∀ (calls : List (Call × OutParams)) (s0 sN : MTHash T),
      (∀ b, s0.Buckets b < 0) → FreshAlong env calls s0 →
      runCalls env calls s0 = some sN →
      ChainInv env sN ∧
      ∀ e e1, Reachable sN e → Reachable sN e1 →
        (sN.MTEntries e).Key = (sN.MTEntries e1).Key → e = e1) := by
  refine ⟨fun c out out1 s s1 r h hinv hfresh => run_ChainInv h hinv hfresh,
    fun calls s0 sN hempty hfresh hrun => ?_⟩
  have hinv := runCalls_ChainInv calls s0 sN (ChainInv_empty hempty) hfresh hrun
  exact ⟨hinv, hinv.2.2⟩

/-- C12 at `demoTable` (insertion of cell 4 into the free slot 2) and at the run
`twoCalls` from `emptyTable` (cells 7 and 9 inserted one after the other). -/
theorem C12_chain_invariant_witness :
    ((Call.SaveCell 4 16 5).run (demoEnv true) demoOut demoTable =
        some (E_SUCCESS, { demoOut with cellPtr := 5008, entryIndex := 2 }, demoInserted) ∧
      ChainInv (demoEnv true) demoTable ∧ ¬ Reachable demoTable 2 ∧
      ChainInv (demoEnv true) demoInserted) ∧
    ((∀ b, emptyTable.Buckets b < 0) ∧ FreshAlong bumpEnv twoCalls emptyTable ∧
      runCalls bumpEnv twoCalls emptyTable = some twoCells ∧
      ChainInv bumpEnv twoCells ∧
      ∀ e e1, Reachable twoCells e → Reachable twoCells e1 →
        (twoCells.MTEntries e).Key = (twoCells.MTEntries e1).Key → e = e1) :=
  ⟨⟨rfl, demoTable_ChainInv, demoTable_free_slot,
      (C12_chain_invariant (demoEnv true)).1 (Call.SaveCell 4 16 5) demoOut
        { demoOut with cellPtr := 5008, entryIndex := 2 } demoTable demoInserted E_SUCCESS
        rfl demoTable_ChainInv demoTable_free_slot⟩,
    ⟨fun b => by simp [emptyTable], twoCalls_fresh, rfl,
      (C12_chain_invariant bumpEnv).2 twoCalls emptyTable twoCells
        (fun b => by simp [emptyTable]) twoCalls_fresh rfl⟩⟩

/-- C13: growth-or-reuse on the hit path of `UpdateCell` and `SaveCell`, for a
found slot `e` with stored pair `(off, cur)` and requested size `sz` (locks and
allocation section free).  Both return `E_SUCCESS`, and inside the allocation
section: (1) if `sz ≤ cur` there is no arena step, the arena and the dirty flag
are untouched and the published pair is `(off, sz)`; (2) if `cur < sz` and
`off < 0` the only arena step is `ExpandLargeObject(-off, cur, sz)`, the dirty
flag is untouched and the published pair is `(off, sz)`; (3) if `cur < sz` and
`0 ≤ off` the arena steps are `AddMemoryCell(sz, e)` and `MarkTrunkDirty`, and
the published pair is `(returned offset, sz)`.  The published size is `sz` in
every case.  `SaveCell` differs only by the type-tag assignment at the end. -/
theorem C13_growth_or_reuse (env : Env T) (cellId : Nat) (sz : Int) (type : Nat)
    (out : OutParams) (s : MTHash T) (e p : Int)
    (hb : s.BucketLocks (env.GetBucketIndex cellId) = false)
    (hf : findEntry env cellId s = some (some (e, p)))
    (hl : (s.MTEntries e).EntryLock = false) (ha : s.AllocLock = false) :
    ∃ outU sU outS sS,
      CGetLockedCellInfo4UpdateCell env cellId sz out s = some (E_SUCCESS, outU, sU) ∧
      CGetLockedCellInfo4SaveCell env cellId sz type out s = some (E_SUCCESS, outS, sS) ∧
      (sz ≤ (s.CellEntries e).size →
        HitOutcome (env.GetBucketIndex cellId) e s sU []
          { offset := (s.CellEntries e).offset, size := sz } s.memory_trunk s.TrunkDirty [] ∧
        HitOutcome (env.GetBucketIndex cellId) e s sS []
          { offset := (s.CellEntries e).offset, size := sz } s.memory_trunk s.TrunkDirty
          (typeEvents env e type)) ∧
      ((s.CellEntries e).size < sz → (s.CellEntries e).offset < 0 →
        HitOutcome (env.GetBucketIndex cellId) e s sU
          [Event.expandLargeObject (-(s.CellEntries e).offset) (s.CellEntries e).size sz]
          { offset := (s.CellEntries e).offset, size := sz }
          (env.ExpandLargeObject s.memory_trunk (-(s.CellEntries e).offset)
            (s.CellEntries e).size sz)
          s.TrunkDirty [] ∧
        HitOutcome (env.GetBucketIndex cellId) e s sS
          [Event.expandLargeObject (-(s.CellEntries e).offset) (s.CellEntries e).size sz]
          { offset := (s.CellEntries e).offset, size := sz }
          (env.ExpandLargeObject s.memory_trunk (-(s.CellEntries e).offset)
            (s.CellEntries e).size sz)
          s.TrunkDirty (typeEvents env e type)) ∧
      ((s.CellEntries e).size < sz → 0 ≤ (s.CellEntries e).offset →
        HitOutcome (env.GetBucketIndex cellId) e s sU
          [Event.addMemoryCell sz e, Event.markTrunkDirty]
          { offset := (env.AddMemoryCell s.memory_trunk sz e).1, size := sz }
          (env.AddMemoryCell s.memory_trunk sz e).2 true [] ∧
        HitOutcome (env.GetBucketIndex cellId) e s sS
          [Event.addMemoryCell sz e, Event.markTrunkDirty]
          { offset := (env.AddMemoryCell s.memory_trunk sz e).1, size := sz }
          (env.AddMemoryCell s.memory_trunk sz e).2 true (typeEvents env e type)) ∧
      (sU.CellEntries e).size = sz ∧ (sS.CellEntries e).size = sz := by
  obtain ⟨h1, h2, h3⟩ := @regrown_outcome T env sz e (env.GetBucketIndex cellId) s
  refine ⟨_, _, _, _, UpdateCell_hit hb hf hl ha, SaveCell_hit hb hf hl ha,
    fun h => ⟨h1 h, HitOutcome_setType type (h1 h)⟩,
    fun h h' => ⟨h2 h h', HitOutcome_setType type (h2 h h')⟩,
    fun h h' => ⟨h3 h h', HitOutcome_setType type (h3 h h')⟩, ?_, ?_⟩
  · simp [regrown]
  · simp [regrown]

/-- C13 at `demoTable`: cell 7 is inline (pair `(0, 8)`) and grows to 20 bytes,
so update and save relocate it with `AddMemoryCell(20, 0)` and mark the trunk
dirty. -/
theorem C13_growth_or_reuse_witness :
    findEntry (demoEnv true) 7 demoTable = some (some (0, -1)) ∧
      (demoTable.CellEntries 0).size < 20 ∧ 0 ≤ (demoTable.CellEntries 0).offset ∧
      ∃ sU sS,
        HitOutcome ((demoEnv true).GetBucketIndex 7) 0 demoTable sU
          [Event.addMemoryCell 20 0, Event.markTrunkDirty]
          { offset := ((demoEnv true).AddMemoryCell demoTable.memory_trunk 20 0).1, size := 20 }
          ((demoEnv true).AddMemoryCell demoTable.memory_trunk 20 0).2 true [] ∧
        HitOutcome ((demoEnv true).GetBucketIndex 7) 0 demoTable sS
          [Event.addMemoryCell 20 0, Event.markTrunkDirty]
          { offset := ((demoEnv true).AddMemoryCell demoTable.memory_trunk 20 0).1, size := 20 }
          ((demoEnv true).AddMemoryCell demoTable.memory_trunk 20 0).2 true
          (typeEvents (demoEnv true) 0 5) :=
  ⟨by decide, by decide, by decide,
    match C13_growth_or_reuse (demoEnv true) 7 20 5 demoOut demoTable 0 (-1) rfl (by decide)
      rfl rfl with
    | ⟨_, sU, _, sS, _, _, _, _, h3, _, _⟩ => ⟨sU, sS, h3 (by decide) (by decide)⟩⟩

/-- C14: whenever one of the six operations returns a success signal, the slot
reported in `entryIndex` has the requested identifier as its key in the final
state, and `cellPtr` is the resolution of that slot's stored offset against the
final arena: `LOPtrs[-offset]` when the offset is negative and
`trunkPtr + offset` otherwise (so after a large-object expansion the pointer is
read from the arena as it is after the expansion). -/
theorem C14_output_consistency (env : Env T) (c : Call) (out out1 : OutParams)
    (s s1 : MTHash T) (r : TrinityErrorCode)
    (h : c.run env out s = some (r, out1, s1)) (hs : c.isSuccessSignal r) :
    (s1.MTEntries out1.entryIndex).Key = c.cellId ∧
    out1.cellPtr =
      if (s1.CellEntries out1.entryIndex).offset < 0 then
        env.LOPtrs s1.memory_trunk (-(s1.CellEntries out1.entryIndex).offset)
      else env.trunkPtr s1.memory_trunk + (s1.CellEntries out1.entryIndex).offset := by
  cases c with
  | CellAccessor cellId =>
    obtain ⟨-, ⟨-, hn⟩ | ⟨e, p, hfind, -, hf⟩⟩ := Lookup_LockEntry_inv h
    · simp only [CGetLockedCellInfo4CellAccessor.notfound, Option.some.injEq,
        Prod.mk.injEq] at hn
      obtain ⟨rfl, rfl, rfl⟩ := hn
      simp [Call.isSuccessSignal] at hs
    · simp only [CellAccessor_found_eq, Option.some.injEq, Prod.mk.injEq] at hf
      obtain ⟨rfl, rfl, rfl⟩ := hf
      have hkey := (walkChain_found _ _ _ _ _ hfind).2.1
      simp [Call.cellId, hkey, resolve]
  | LoadCell cellId =>
    obtain ⟨-, ⟨-, hn⟩ | ⟨e, p, hfind, -, hf⟩⟩ := Lookup_LockEntry_inv h
    · simp only [CGetLockedCellInfo4LoadCell.notfound, Option.some.injEq,
        Prod.mk.injEq] at hn
      obtain ⟨rfl, rfl, rfl⟩ := hn
      simp [Call.isSuccessSignal] at hs
    · simp only [LoadCell_found_eq, Option.some.injEq, Prod.mk.injEq] at hf
      obtain ⟨rfl, rfl, rfl⟩ := hf
      have hkey := (walkChain_found _ _ _ _ _ hfind).2.1
      simp [Call.cellId, hkey, resolve]
  | UpdateCell cellId size =>
    obtain ⟨-, ⟨-, hn⟩ | ⟨e, p, hfind, -, hf⟩⟩ := Lookup_LockEntry_inv h
    · simp only [CGetLockedCellInfo4UpdateCell.notfound, Option.some.injEq,
        Prod.mk.injEq] at hn
      obtain ⟨rfl, rfl, rfl⟩ := hn
      simp [Call.isSuccessSignal] at hs
    · rw [UpdateCell_found_eq] at hf
      split at hf
      · exact absurd hf (by simp)
      · simp only [Option.some.injEq, Prod.mk.injEq] at hf
        obtain ⟨rfl, rfl, rfl⟩ := hf
        have hkey := (walkChain_found _ _ _ _ _ hfind).2.1
        simp [Call.cellId, hkey, regrown, resolve]
  | SaveCell cellId size type =>
    obtain ⟨-, ⟨-, hn⟩ | ⟨e, p, hfind, -, hf⟩⟩ := Lookup_LockEntry_inv h
    · rw [SaveCell_notfound_eq] at hn
      split at hn
      · exact absurd hn (by simp)
      · simp only [Option.some.injEq, Prod.mk.injEq] at hn
        obtain ⟨rfl, rfl, rfl⟩ := hn
        simp [Call.cellId, published, linkedAlloc, linked, resolve]
    · rw [SaveCell_found_eq] at hf
      split at hf
      · exact absurd hf (by simp)
      · simp only [Option.some.injEq, Prod.mk.injEq] at hf
        obtain ⟨rfl, rfl, rfl⟩ := hf
        have hkey := (walkChain_found _ _ _ _ _ hfind).2.1
        simp [Call.cellId, hkey, regrown, resolve]
  | AddCell cellId size type =>
    obtain ⟨-, ⟨-, hn⟩ | ⟨e, p, -, hf⟩⟩ := Lookup_NoLockEntry_inv h
    · rw [AddCell_notfound_eq] at hn
      split at hn
      · exact absurd hn (by simp)
      · simp only [Option.some.injEq, Prod.mk.injEq] at hn
        obtain ⟨rfl, rfl, rfl⟩ := hn
        simp [Call.cellId, published, linkedAlloc, linked, resolve]
    · simp only [CGetLockedCellInfo4AddCell.found, Option.some.injEq, Prod.mk.injEq] at hf
      obtain ⟨rfl, rfl, rfl⟩ := hf
      simp [Call.isSuccessSignal] at hs
  | AddOrUseCell cellId type =>
    obtain ⟨-, ⟨-, hn⟩ | ⟨e, p, hfind, -, hf⟩⟩ := Lookup_LockEntry_inv h
    · rw [AddOrUseCell_notfound_eq] at hn
      split at hn
      · exact absurd hn (by simp)
      · simp only [Option.some.injEq, Prod.mk.injEq] at hn
        obtain ⟨rfl, rfl, rfl⟩ := hn
        simp [Call.cellId, published, linkedAlloc, linked, resolve]
    · rw [AddOrUseCell_found_eq] at hf
      have hkey := (walkChain_found _ _ _ _ _ hfind).2.1
      split at hf
      · simp only [Option.some.injEq, Prod.mk.injEq] at hf
        obtain ⟨rfl, rfl, rfl⟩ := hf
        simp [Call.isSuccessSignal] at hs
      · simp only [Option.some.injEq, Prod.mk.injEq] at hf
        obtain ⟨rfl, rfl, rfl⟩ := hf
        simp [Call.cellId, hkey, resolve]

/-- C14 at `demoTable`: `UpdateCell(9, 300)` expands the large object of cell 9
(slot 1, offset -1); the returned pointer is `LOPtrs[1]` of the final arena. -/
theorem C14_output_consistency_witness :
    (Call.UpdateCell 9 300).run (demoEnv true) demoOut demoTable =
        some (E_SUCCESS, { demoOut with cellPtr := 100000, entryIndex := 1 }, demoExpanded) ∧
      (demoExpanded.MTEntries 1).Key = 9 ∧
      (100000 : Int) =
        if (demoExpanded.CellEntries 1).offset < 0 then
          (demoEnv true).LOPtrs demoExpanded.memory_trunk (-(demoExpanded.CellEntries 1).offset)
        else (demoEnv true).trunkPtr demoExpanded.memory_trunk +
          (demoExpanded.CellEntries 1).offset :=
  ⟨rfl, C14_output_consistency (demoEnv true) (Call.UpdateCell 9 300) demoOut
    { demoOut with cellPtr := 100000, entryIndex := 1 } demoTable demoExpanded
    E_SUCCESS rfl rfl⟩

/-- C18: miss-path insertion of `SaveCell`, and identically of `AddCell` and
`AddOrUseCell`.  For an identifier whose chain walk ends without a match, with
bucket `b`, former chain head `h = Buckets[b]` and `f = FindFreeEntry()` (bucket
lock, lock of `f` and allocation section free), each of the three returns
(`E_SUCCESS`, `E_SUCCESS`, `E_CELL_NOT_FOUND`) with `entryIndex = f`, and
afterwards: the head of `b` is `f`, slot `f` has key `id` and link `h`, every
other bucket head and every other slot's key, link, tag and pair are unchanged,
the pair of `f` is `(AddMemoryCell(size, f), size)`, the tag of `f` is the
requested type when tagging is enabled and untouched otherwise, and the lock of
`f` was taken before `f` was linked and before the bucket lock was released. -/
theorem C18_miss_path_insertion (env : Env T) (cellId : Nat) (size : Int) (type : Nat)
    (out : OutParams) (s : MTHash T)
    (hb : s.BucketLocks (env.GetBucketIndex cellId) = false)
    (hf : findEntry env cellId s = some none)
    (hl : (s.MTEntries (env.FindFreeEntry
      (lockedBucket (env.GetBucketIndex cellId) s))).EntryLock = false)
    (ha : s.AllocLock = false) :
    ∃ outS sS outA sA outO sO,
      CGetLockedCellInfo4SaveCell env cellId size type out s = some (E_SUCCESS, outS, sS) ∧
      CGetLockedCellInfo4AddCell env cellId size type out s = some (E_SUCCESS, outA, sA) ∧
      CGetLockedCellInfo4AddOrUseCell env cellId type { out with size := size } s =
        some (E_CELL_NOT_FOUND, outO, sO) ∧
      outS.entryIndex = env.FindFreeEntry (lockedBucket (env.GetBucketIndex cellId) s) ∧
      outA.entryIndex = env.FindFreeEntry (lockedBucket (env.GetBucketIndex cellId) s) ∧
      outO.entryIndex = env.FindFreeEntry (lockedBucket (env.GetBucketIndex cellId) s) ∧
      Inserted env cellId size type (env.GetBucketIndex cellId)
        (env.FindFreeEntry (lockedBucket (env.GetBucketIndex cellId) s)) s sS ∧
      Inserted env cellId size type (env.GetBucketIndex cellId)
        (env.FindFreeEntry (lockedBucket (env.GetBucketIndex cellId) s)) s sA ∧
      Inserted env cellId size type (env.GetBucketIndex cellId)
        (env.FindFreeEntry (lockedBucket (env.GetBucketIndex cellId) s)) s sO := by
  exact ⟨_, _, _, _, _, _, SaveCell_miss hb hf hl ha, AddCell_miss hb hf hl ha,
    @AddOrUseCell_miss T env cellId type { out with size := size } s hb hf hl ha,
    rfl, rfl, rfl, published_Inserted _ _ _ _ _, published_Inserted _ _ _ _ _,
    published_Inserted _ _ _ _ _⟩

/-- C18 at `demoTable`: cell 4 is absent, its bucket 0 is empty (head -1) and
the free slot is 2. -/
theorem C18_miss_path_insertion_witness :
    findEntry (demoEnv true) 4 demoTable = some none ∧
      ∃ outS sS outA sA outO sO,
        CGetLockedCellInfo4SaveCell (demoEnv true) 4 16 5 demoOut demoTable =
          some (E_SUCCESS, outS, sS) ∧
        CGetLockedCellInfo4AddCell (demoEnv true) 4 16 5 demoOut demoTable =
          some (E_SUCCESS, outA, sA) ∧
        CGetLockedCellInfo4AddOrUseCell (demoEnv true) 4 5 { demoOut with size := 16 }
          demoTable = some (E_CELL_NOT_FOUND, outO, sO) ∧
        outS.entryIndex = 2 ∧ outA.entryIndex = 2 ∧ outO.entryIndex = 2 ∧
        Inserted (demoEnv true) 4 16 5 0 2 demoTable sS ∧
        Inserted (demoEnv true) 4 16 5 0 2 demoTable sA ∧
        Inserted (demoEnv true) 4 16 5 0 2 demoTable sO :=
  ⟨by decide, C18_miss_path_insertion (demoEnv true) 4 16 5 demoOut demoTable rfl (by decide)
    rfl rfl⟩

/-- C19: `UpdateCell` against the hit path of `SaveCell`.  On a state where the
chain walk finds slot `e` (locks and allocation section free), for every size
and type both return `E_SUCCESS` with the same reference parameters (`cellPtr`,
`entryIndex`), and the final states agree in bucket heads, bucket locks, keys,
links, entry locks, location pairs, capacity, arena, dirty flag and allocation
section, and in the type tag of every slot but `e`; the steps of the save are
those of the update (the same arena calls) followed by the type-tag
assignment.  `UpdateCell` leaves the tag of `e` unchanged, `SaveCell` sets it
to the requested type when tagging is enabled; when tagging is disabled the two
final states are equal. -/
theorem C19_update_refines_save_hit (env : Env T) (cellId : Nat) (size : Int) (type : Nat)
    (out : OutParams) (s : MTHash T) (e p : Int)
    (hb : s.BucketLocks (env.GetBucketIndex cellId) = false)
    (hf : findEntry env cellId s = some (some (e, p)))
    (hl : (s.MTEntries e).EntryLock = false) (ha : s.AllocLock = false) :
    ∃ outU sU sS,
      CGetLockedCellInfo4UpdateCell env cellId size out s = some (E_SUCCESS, outU, sU) ∧
      CGetLockedCellInfo4SaveCell env cellId size type out s = some (E_SUCCESS, outU, sS) ∧
      outU.entryIndex = e ∧
      sS.Buckets = sU.Buckets ∧ sS.BucketLocks = sU.BucketLocks ∧
      sS.CellEntries = sU.CellEntries ∧ sS.EntryCount = sU.EntryCount ∧
      sS.memory_trunk = sU.memory_trunk ∧ sS.TrunkDirty = sU.TrunkDirty ∧
      sS.AllocLock = sU.AllocLock ∧
      (∀ x, (sS.MTEntries x).Key = (sU.MTEntries x).Key ∧
        (sS.MTEntries x).NextEntry = (sU.MTEntries x).NextEntry ∧
        (sS.MTEntries x).EntryLock = (sU.MTEntries x).EntryLock ∧
        (x ≠ e → (sS.MTEntries x).CellType = (sU.MTEntries x).CellType)) ∧
      sS.trace = sU.trace ++ typeEvents env e type ∧
      (sU.MTEntries e).CellType = (s.MTEntries e).CellType ∧
      (sS.MTEntries e).CellType =
        (if env.CellTypeEnabled then type else (s.MTEntries e).CellType) ∧
      (env.CellTypeEnabled = false → sS = sU) := by
  refine ⟨_, _, _, UpdateCell_hit hb hf hl ha, SaveCell_hit hb hf hl ha, rfl,
    by simp, by simp, by simp, by simp, by simp, by simp, by simp, ?_, setType_trace _ _ _,
    by simp [regrown], ?_, ?_⟩
  · intro x
    refine ⟨by simp, by simp, by simp, fun hx => ?_⟩
    simp [hx]
  · cases hT : env.CellTypeEnabled <;> simp [regrown, hT]
  · intro hT
    simp [setType, hT]

/-- C19 at `demoTable`: cell 7 (slot 0, tag 1) updated and saved with size 20
and type 5. -/
theorem C19_update_refines_save_hit_witness :
    findEntry (demoEnv true) 7 demoTable = some (some (0, -1)) ∧
      ∃ outU sU sS,
        CGetLockedCellInfo4UpdateCell (demoEnv true) 7 20 demoOut demoTable =
          some (E_SUCCESS, outU, sU) ∧
        CGetLockedCellInfo4SaveCell (demoEnv true) 7 20 5 demoOut demoTable =
          some (E_SUCCESS, outU, sS) ∧
        outU.entryIndex = 0 ∧
        sS.Buckets = sU.Buckets ∧ sS.BucketLocks = sU.BucketLocks ∧
        sS.CellEntries = sU.CellEntries ∧ sS.EntryCount = sU.EntryCount ∧
        sS.memory_trunk = sU.memory_trunk ∧ sS.TrunkDirty = sU.TrunkDirty ∧
        sS.AllocLock = sU.AllocLock ∧
        (∀ x, (sS.MTEntries x).Key = (sU.MTEntries x).Key ∧
          (sS.MTEntries x).NextEntry = (sU.MTEntries x).NextEntry ∧
          (sS.MTEntries x).EntryLock = (sU.MTEntries x).EntryLock ∧
          (x ≠ 0 → (sS.MTEntries x).CellType = (sU.MTEntries x).CellType)) ∧
        sS.trace = sU.trace ++ typeEvents (demoEnv true) 0 5 ∧
        (sU.MTEntries 0).CellType = (demoTable.MTEntries 0).CellType ∧
        (sS.MTEntries 0).CellType =
          (if (demoEnv true).CellTypeEnabled then 5 else (demoTable.MTEntries 0).CellType) ∧
        ((demoEnv true).CellTypeEnabled = false → sS = sU) :=
  ⟨by decide, C19_update_refines_save_hit (demoEnv true) 7 20 5 demoOut demoTable 0 (-1)
    rfl (by decide) rfl rfl⟩

/-- C20: the three insertion paths agree.  On a state where the chain walk for
the identifier ends without a match (bucket lock, free slot and allocation
section available), `AddCell(id, size, type)`, `SaveCell(id, size, type)` and
`AddOrUseCell(id, size, type)` return with one and the same final state (bucket
heads, slots, location pairs, tags, locks, arena) and the same `cellPtr` and
`entryIndex`; the codes are `E_SUCCESS`, `E_SUCCESS` and `E_CELL_NOT_FOUND`. -/
theorem C20_insertion_paths_agree (env : Env T) (cellId : Nat) (size : Int) (type : Nat)
    (out : OutParams) (s : MTHash T)
    (hb : s.BucketLocks (env.GetBucketIndex cellId) = false)
    (hf : findEntry env cellId s = some none)
    (hl : (s.MTEntries (env.FindFreeEntry
      (lockedBucket (env.GetBucketIndex cellId) s))).EntryLock = false)
    (ha : s.AllocLock = false) :
    ∃ out1 outO s1,
      CGetLockedCellInfo4AddCell env cellId size type out s = some (E_SUCCESS, out1, s1) ∧
      CGetLockedCellInfo4SaveCell env cellId size type out s = some (E_SUCCESS, out1, s1) ∧
      CGetLockedCellInfo4AddOrUseCell env cellId type { out with size := size } s =
        some (E_CELL_NOT_FOUND, outO, s1) ∧
      outO.cellPtr = out1.cellPtr ∧ outO.entryIndex = out1.entryIndex ∧ outO.size = size := by
  exact ⟨_, _, _, AddCell_miss hb hf hl ha, SaveCell_miss hb hf hl ha,
    @AddOrUseCell_miss T env cellId type { out with size := size } s hb hf hl ha,
    rfl, rfl, rfl⟩

/-- C20 at `demoTable`: cell 4 is absent; the three calls create it alike. -/
theorem C20_insertion_paths_agree_witness :
    findEntry (demoEnv true) 4 demoTable = some none ∧
      ∃ out1 outO s1,
        CGetLockedCellInfo4AddCell (demoEnv true) 4 16 5 demoOut demoTable =
          some (E_SUCCESS, out1, s1) ∧
        CGetLockedCellInfo4SaveCell (demoEnv true) 4 16 5 demoOut demoTable =
          some (E_SUCCESS, out1, s1) ∧
        CGetLockedCellInfo4AddOrUseCell (demoEnv true) 4 5 { demoOut with size := 16 }
          demoTable = some (E_CELL_NOT_FOUND, outO, s1) ∧
        outO.cellPtr = out1.cellPtr ∧ outO.entryIndex = out1.entryIndex ∧ outO.size = 16 :=
  ⟨by decide, C20_insertion_paths_agree (demoEnv true) 4 16 5 demoOut demoTable rfl
    (by decide) rfl rfl⟩

/-- C15: lock ordering at the arena boundary.  The events `tr` of every
returned call satisfy: at every step that enters the allocation critical
section or calls `AddMemoryCell` / `ExpandLargeObject`, the bucket lock taken
by the call has been released and the lock of the slot allocated for (the slot
reported in `entryIndex`) is held by the call; the call is outside the
critical section when it returns, having left it as often as it entered it;
and it releases a bucket lock exactly once, the lock of its own bucket. -/
theorem C15_lock_order_at_arena (env : Env T) (c : Call) (out out1 : OutParams)
    (s s1 : MTHash T) (r : TrinityErrorCode)
    (h : c.run env out s = some (r, out1, s1)) :
    ∃ tr, s1.trace = s.trace ++ tr ∧
      EachStep (ArenaGuard (env.GetBucketIndex c.cellId) out1.entryIndex) [] tr ∧
      inAlloc tr = false ∧
      tr.count Event.enterAlloc = tr.count Event.leaveAlloc ∧
      tr.filter Event.isBucketUnlock = [Event.bucketUnlock (env.GetBucketIndex c.cellId)] := by
  obtain ⟨tr, htr, hshape⟩ := run_CallTrace h
  exact ⟨tr, htr, CallTrace_arena_order hshape⟩

/-- C15 at `SaveCell(7, 20, 5)` on `demoTable` (a relocation of cell 7). -/
theorem C15_lock_order_at_arena_witness :
    (Call.SaveCell 7 20 5).run (demoEnv true) demoOut demoTable =
        some (E_SUCCESS, { demoOut with cellPtr := 5008, entryIndex := 0 }, demoSaved) ∧
      ∃ tr, demoSaved.trace = demoTable.trace ++ tr ∧
        EachStep (ArenaGuard ((demoEnv true).GetBucketIndex (Call.SaveCell 7 20 5).cellId) 0)
          [] tr ∧
        inAlloc tr = false ∧
        tr.count Event.enterAlloc = tr.count Event.leaveAlloc ∧
        tr.filter Event.isBucketUnlock =
          [Event.bucketUnlock ((demoEnv true).GetBucketIndex (Call.SaveCell 7 20 5).cellId)] :=
  ⟨rfl, C15_lock_order_at_arena (demoEnv true) (Call.SaveCell 7 20 5) demoOut
    { demoOut with cellPtr := 5008, entryIndex := 0 } demoTable demoSaved E_SUCCESS rfl⟩

/-- C16 as stated fails on the hit path of `SaveCell`: in `SaveCell(7, 20, 5)` on
`demoTable` the type tag of slot 0 is written after the allocation critical
section has been left (the last two events are `leaveAlloc`,
`writeCellType 0 5`), so not every write of a type tag happens inside it. -/
theorem C16_tag_written_outside_alloc :
    CGetLockedCellInfo4SaveCell (demoEnv true) 7 20 5 demoOut demoTable =
        some (E_SUCCESS, { demoOut with cellPtr := 5008, entryIndex := 0 }, demoSaved) ∧
      demoSaved.trace =
        [Event.bucketLock 1, Event.entryLock 0, Event.bucketUnlock 1, Event.enterAlloc,
          Event.addMemoryCell 20 0, Event.markTrunkDirty, Event.storeLocation 0 8 20,
          Event.leaveAlloc, Event.writeCellType 0 5] ∧
      ¬ EachStep (WriteGuard true 2) [] demoSaved.trace := by
  have htr : demoSaved.trace =
      [Event.bucketLock 1, Event.entryLock 0, Event.bucketUnlock 1, Event.enterAlloc,
        Event.addMemoryCell 20 0, Event.markTrunkDirty, Event.storeLocation 0 8 20,
        Event.leaveAlloc, Event.writeCellType 0 5] := rfl
  refine ⟨rfl, htr, ?_⟩
  rw [htr]
  simp [EachStep, WriteGuard, inAlloc, entryHeld, heldAfter]

/-- C16, amended: in every returned call, with `f` the slot handed out by
`FindFreeEntry`: a key or a chain link is written only to `f`, so when `f` is
not live before the call no live slot has its key or link written, and the key
and link of every live slot are unchanged; every write of a location pair
happens while the call holds the lock of that slot and is inside the
allocation critical section; every write of a type tag happens while the call
holds the lock of that slot, and also inside the allocation critical section
unless the call is a `SaveCell` that finds the cell with tagging enabled, in
which case the tag write is the last step and directly follows the exit from
the section. -/
theorem C16_guarded_writes (env : Env T) (c : Call) (out out1 : OutParams)
    (s s1 : MTHash T) (r : TrinityErrorCode)
    (h : c.run env out s = some (r, out1, s1))
    (hfresh : ¬ Reachable s
      (env.FindFreeEntry (lockedBucket (env.GetBucketIndex c.cellId) s))) :
    ∃ tr, s1.trace = s.trace ++ tr ∧
      EachStep (WriteGuard false
        (env.FindFreeEntry (lockedBucket (env.GetBucketIndex c.cellId) s))) [] tr ∧
      ((c.isSaveCell = false ∨ findEntry env c.cellId s = some none ∨
          env.CellTypeEnabled = false) →
        EachStep (WriteGuard true
          (env.FindFreeEntry (lockedBucket (env.GetBucketIndex c.cellId) s))) [] tr) ∧
      (∀ cellId size type e p, c = Call.SaveCell cellId size type →
        findEntry env cellId s = some (some (e, p)) → env.CellTypeEnabled = true →
        ∃ pre, tr = pre ++ [Event.leaveAlloc, Event.writeCellType e type]) ∧
      ∀ x, Reachable s x →
        (∀ k n, Event.writeKey x k ∉ tr ∧ Event.writeNextEntry x n ∉ tr) ∧
        (s1.MTEntries x).Key = (s.MTEntries x).Key ∧
        (s1.MTEntries x).NextEntry = (s.MTEntries x).NextEntry := by
  obtain ⟨tr, htr, hshape⟩ := run_CallTrace h
  obtain ⟨hguard, hkeys⟩ := CallTrace_writes hshape
  refine ⟨tr, htr, hguard, fun hnot => ?_, ?_, fun x hx => ?_⟩
  · obtain ⟨tr1, htr1, hstrict⟩ := run_writes_strict h hnot
    have heq : tr = tr1 := List.append_cancel_left (htr.symm.trans htr1)
    rw [heq]
    exact hstrict
  · rintro cellId size type e p rfl hfind hT
    obtain ⟨pre, hpre⟩ := run_save_hit_tail h hfind hT
    exact ⟨pre, List.append_cancel_left (htr.symm.trans hpre)⟩
  · have hne : x ≠ env.FindFreeEntry (lockedBucket (env.GetBucketIndex c.cellId) s) := by
      rintro rfl
      exact hfresh hx
    refine ⟨hkeys x hne, ?_⟩
    rcases run_chain_effect h with ⟨-, hsame⟩ | ⟨-, -, -, -, hsame⟩
    · exact hsame x
    · exact hsame x hne

/-- C16 (amended) at `demoTable`: `SaveCell(4, 16, 5)` inserts cell 4 into the
free slot 2, which is on no chain, and writes its tag inside the allocation
critical section; `SaveCell(7, 20, 5)` finds cell 7 in slot 0 and writes its tag
directly after leaving the section. -/
theorem C16_guarded_writes_witness :
    ((Call.SaveCell 4 16 5).run (demoEnv true) demoOut demoTable =
        some (E_SUCCESS, { demoOut with cellPtr := 5008, entryIndex := 2 }, demoInserted) ∧
      ¬ Reachable demoTable 2 ∧
      findEntry (demoEnv true) 4 demoTable = some none ∧
      ∃ tr, demoInserted.trace = demoTable.trace ++ tr ∧
        EachStep (WriteGuard true 2) [] tr ∧
        ∀ x, Reachable demoTable x →
          (∀ k n, Event.writeKey x k ∉ tr ∧ Event.writeNextEntry x n ∉ tr) ∧
          (demoInserted.MTEntries x).Key = (demoTable.MTEntries x).Key ∧
          (demoInserted.MTEntries x).NextEntry = (demoTable.MTEntries x).NextEntry) ∧
    ((Call.SaveCell 7 20 5).run (demoEnv true) demoOut demoTable =
        some (E_SUCCESS, { demoOut with cellPtr := 5008, entryIndex := 0 }, demoSaved) ∧
      findEntry (demoEnv true) 7 demoTable = some (some (0, -1)) ∧
      ∃ tr, demoSaved.trace = demoTable.trace ++ tr ∧
        EachStep (WriteGuard false 2) [] tr ∧
        ∃ pre, tr = pre ++ [Event.leaveAlloc, Event.writeCellType 0 5]) :=
  ⟨⟨rfl, demoTable_free_slot, by decide,
      match C16_guarded_writes (demoEnv true) (Call.SaveCell 4 16 5) demoOut
        { demoOut with cellPtr := 5008, entryIndex := 2 } demoTable demoInserted E_SUCCESS rfl
        demoTable_free_slot with
      | ⟨tr, htr, _, hstrict, _, hlive⟩ =>
        ⟨tr, htr, hstrict (Or.inr (Or.inl (by decide))), hlive⟩⟩,
    ⟨rfl, by decide,
      match C16_guarded_writes (demoEnv true) (Call.SaveCell 7 20 5) demoOut
        { demoOut with cellPtr := 5008, entryIndex := 0 } demoTable demoSaved E_SUCCESS rfl
        demoTable_free_slot with
      | ⟨tr, htr, hguard, _, htail, _⟩ =>
        ⟨tr, htr, hguard, htail 7 20 5 0 (-1) rfl (by decide) rfl⟩⟩⟩

/-- C17 as stated fails: in `SaveCell(7, 20, 5)` on `demoTable` the bucket lock
is released (third event) before the location pair is written (seventh
event), so the write does not occur before the first release of a lock. -/
theorem C17_store_after_bucket_unlock :
    CGetLockedCellInfo4SaveCell (demoEnv true) 7 20 5 demoOut demoTable =
        some (E_SUCCESS, { demoOut with cellPtr := 5008, entryIndex := 0 }, demoSaved) ∧
      demoSaved.trace =
        [Event.bucketLock 1, Event.entryLock 0, Event.bucketUnlock 1, Event.enterAlloc,
          Event.addMemoryCell 20 0, Event.markTrunkDirty, Event.storeLocation 0 8 20,
          Event.leaveAlloc, Event.writeCellType 0 5] ∧
      ¬ EachStep StoreBeforeRelease [] demoSaved.trace := by
  have htr : demoSaved.trace =
      [Event.bucketLock 1, Event.entryLock 0, Event.bucketUnlock 1, Event.enterAlloc,
        Event.addMemoryCell 20 0, Event.markTrunkDirty, Event.storeLocation 0 8 20,
        Event.leaveAlloc, Event.writeCellType 0 5] := rfl
  refine ⟨rfl, htr, ?_⟩
  rw [htr]
  simp [EachStep, StoreBeforeRelease, Event.isStore, Event.isRelease, Event.isBucketUnlock,
    Event.isEntryUnlock]

/-- C17, amended: in the events `tr` of every returned call there is at most one
write to location data; it writes the full pair of the reported slot in one
step, after the call has released its bucket lock, inside the allocation
critical section, with the lock of the slot held and before any release of an
entry lock; a call that writes a pair releases no entry lock at all. -/
theorem C17_publication_order (env : Env T) (c : Call) (out out1 : OutParams)
    (s s1 : MTHash T) (r : TrinityErrorCode)
    (h : c.run env out s = some (r, out1, s1)) :
    ∃ tr, s1.trace = s.trace ++ tr ∧
      EachStep (StoreGuard (env.GetBucketIndex c.cellId) out1.entryIndex) [] tr ∧
      (tr.filter Event.isStore).length ≤ 1 ∧
      (tr.filter Event.isStore ≠ [] → tr.filter Event.isEntryUnlock = []) := by
  obtain ⟨tr, htr, hshape⟩ := run_CallTrace h
  exact ⟨tr, htr, CallTrace_store hshape⟩

/-- C17 (amended) at `SaveCell(7, 20, 5)` on `demoTable`. -/
theorem C17_publication_order_witness :
    (Call.SaveCell 7 20 5).run (demoEnv true) demoOut demoTable =
        some (E_SUCCESS, { demoOut with cellPtr := 5008, entryIndex := 0 }, demoSaved) ∧
      ∃ tr, demoSaved.trace = demoTable.trace ++ tr ∧
        EachStep (StoreGuard ((demoEnv true).GetBucketIndex (Call.SaveCell 7 20 5).cellId) 0)
          [] tr ∧
        (tr.filter Event.isStore).length ≤ 1 ∧
        (tr.filter Event.isStore ≠ [] → tr.filter Event.isEntryUnlock = []) :=
  ⟨rfl, C17_publication_order (demoEnv true) (Call.SaveCell 7 20 5) demoOut
    { demoOut with cellPtr := 5008, entryIndex := 0 } demoTable demoSaved E_SUCCESS rfl⟩

end Claims

end Storage
